import Mathlib

/-!
Active connection monitoring, configuration and references of the Ice runtime.

A shallow embedding of `IceInternal::ACMConfig`, `IceInternal::FactoryACMMonitor` and
`IceInternal::ConnectionACMMonitor` (`cpp/src/Ice/ACM.cpp`), of the lookups of `PropertiesI`, its
`setProperty` and `parseLine` (`cpp/src/Ice/PropertiesI.cpp`), of the constructor of
`DefaultsAndOverrides` (`cpp/src/Ice/DefaultsAndOverrides.cpp`), of the classes of
`cpp/src/Ice/Reference.h`, of `CountDownLatch` and `Thread` (`cpp/src/Ice/CountDownLatch.cpp`,
`cpp/src/Ice/Thread.cpp`), of `TrustManager::verify` (`cpp/src/IceSSL/TrustManager.cpp`) and of
`combine` of the implicit contexts (`cpp/src/Ice/ImplicitContextI.cpp`).

* A monitor object is a record of its data members; a member function is a function from the
  record (and the arguments) to the new record and the list of calls it made on its collaborators
  (`Event`), in program order.
* `ConnectionIPtr` is a non-null connection handle, a natural number standing for the pointer
  value; `std::set<ConnectionIPtr>` is the strictly increasing list of its elements, which is also
  its iteration order.
* `connection->monitor(now, config)` is a collaborator: the functions that call it take its
  behaviour as the parameter `mon`, which says for every call whether it returns, throws something
  derived from `std::exception`, or throws anything else.
* A member function is modelled for one thread at a time (the body it runs under `_mutex`, and for
  `runTimerTask` the loop after it); blocking on the condition variable is recorded as an event.
  Calls that `monitor` makes back on the monitor are calls of the member functions in their own
  right. While the loop of `runTimerTask` runs the registered set is not empty, so that such a call
  of `add` or `remove` only queues a change.
* `assert(e)` stops the member function with `Fault.assertionFailed` when `e` is false, and the
  use of a null `_instance` stops it with `Fault.nullDereference`.
* A constructor that reads properties is a function from the properties to the object (or the
  exception it throws) and the warnings it writes, in order.
* A `std::map` with string keys is the list of its entries in the order of the keys.
* Functions, tables and classes that the code uses and that are not among the sources are
  parameters of the functions that use them.
-/

namespace IceInternal

/-! ## Values -/

/-- Modelled from the spec: the enumeration `Ice::ACMHeartbeat`, whose declaration is not among
the sources; the spec lists its constants `Off|OnDispatch|OnIdle|OnInvocation|Always` with the
ordinals 0 to 4. -/
inductive ACMHeartbeat where
  | HeartbeatOff
  | HeartbeatOnDispatch
  | HeartbeatOnIdle
  | HeartbeatOnInvocation
  | HeartbeatAlways
deriving DecidableEq, Repr

/-- Modelled from the spec: the enumeration `Ice::ACMClose`, whose declaration is not among the
sources; the spec lists its constants `Off|OnIdle|OnInvocation|OnInvocationAndIdle|OnIdleForceful`
with the ordinals 0 to 4. -/
inductive ACMClose where
  | CloseOff
  | CloseOnIdle
  | CloseOnInvocation
  | CloseOnInvocationAndIdle
  | CloseOnIdleForceful
deriving DecidableEq, Repr

/-- The record `IceInternal::ACMConfig`; `timeout` is the count of a `chrono::seconds`. -/
structure ACMConfig where
  timeout : Int
  heartbeat : ACMHeartbeat
  close : ACMClose
deriving DecidableEq, Repr

/-- A non-null `ConnectionIPtr`: the pointer value. -/
abbrev ConnectionIPtr := Nat

/-- A non-null `InstancePtr`: the pointer value. -/
abbrev InstancePtr := Nat

/-- What one call of `connection->monitor(now, config)` does, as far as the caller can see. -/
inductive MonitorOutcome where
  | returns
  | throwsException (what : String)
  | throwsOther
deriving DecidableEq, Repr

/-- The behaviour of `ConnectionI::monitor` for every connection, time and configuration. -/
abbrev MonitorFn := ConnectionIPtr → Int → ACMConfig → MonitorOutcome

/-- A call made by a monitor on one of its collaborators (timer, connection, logger, condition
variable). The timer calls all pass `shared_from_this()` as the task. -/
inductive Event where
  | scheduleRepeated (delayNs : Int)
  | schedule (delayNs : Int)
  | cancel
  | monitor (connection : ConnectionIPtr) (now : Int) (config : ACMConfig)
  | error (message : String)
  | notifyAll
  | waitUntilConnectionsEmpty
deriving DecidableEq, Repr

/-- Why a member function did not return: a dereferenced null pointer or a failed `assert`. -/
inductive Fault where
  | nullDereference
  | assertionFailed
deriving DecidableEq, Repr

/-! ## Durations -/

/-- The value of a signed 64-bit integer after a wrapping operation. -/
def wrapInt64 (x : Int) : Int :=
  (x + 9223372036854775808) % 18446744073709551616 - 9223372036854775808

/-- The count of `chrono::duration_cast<chrono::nanoseconds>(s)` for `s` a `chrono::seconds`. -/
def toNanoseconds (seconds : Int) : Int :=
  wrapInt64 (seconds * 1000000000)

/-- The count of `chrono::duration_cast<chrono::nanoseconds>(_config.timeout) / 2`. -/
def halfTimeout (config : ACMConfig) : Int :=
  Int.tdiv (toNanoseconds config.timeout) 2

/-! ## `std::set<ConnectionIPtr>` -/

/-- The set after `insert(c)`, for a set given as its increasing list. -/
def setInsert (c : ConnectionIPtr) : List ConnectionIPtr → List ConnectionIPtr
  | [] => [c]
  | x :: xs =>
    if c < x then c :: x :: xs
    else if c = x then x :: xs
    else x :: setInsert c xs

/-- The set after `erase(c)`. -/
def setErase (c : ConnectionIPtr) (s : List ConnectionIPtr) : List ConnectionIPtr :=
  s.filter (fun x => x ≠ c)

/-! ## `FactoryACMMonitor` -/

/-- The data members of `FactoryACMMonitor`; `_instance = none` is the null pointer. -/
structure FactoryACMMonitor where
  _instance : Option InstancePtr
  _config : ACMConfig
  _connections : List ConnectionIPtr
  _changes : List (ConnectionIPtr × Bool)
  _reapedConnections : List ConnectionIPtr
deriving DecidableEq, Repr

/-- The result of a member function: the object afterwards and the calls it made, or the fault
that stopped it. -/
abbrev Result (σ : Type) := Except Fault (σ × List Event)

namespace FactoryACMMonitor

/-- `FactoryACMMonitor::destroy()`, up to and including the call of `wait`. -/
def destroy (m : FactoryACMMonitor) : Result FactoryACMMonitor :=
  match m._instance with
  | none => .ok (m, [Event.waitUntilConnectionsEmpty])
  | some _ =>
    let timerCalls :=
      if !m._connections.isEmpty then [Event.cancel, Event.schedule 0] else []
    .ok ({ m with _instance := none, _changes := [] },
         timerCalls ++ [Event.waitUntilConnectionsEmpty])

/-- `FactoryACMMonitor::add(connection)`. -/
def add (m : FactoryACMMonitor) (connection : ConnectionIPtr) : Result FactoryACMMonitor :=
  if m._config.timeout = 0 then .ok (m, [])
  else if m._connections.isEmpty then
    match m._instance with
    | none => .error Fault.nullDereference
    | some _ =>
      .ok ({ m with _connections := setInsert connection m._connections },
           [Event.scheduleRepeated (halfTimeout m._config)])
  else .ok ({ m with _changes := m._changes ++ [(connection, true)] }, [])

/-- `FactoryACMMonitor::remove(connection)`. -/
def remove (m : FactoryACMMonitor) (connection : ConnectionIPtr) : Result FactoryACMMonitor :=
  if m._config.timeout = 0 then .ok (m, [])
  else
    match m._instance with
    | none => .error Fault.assertionFailed
    | some _ => .ok ({ m with _changes := m._changes ++ [(connection, false)] }, [])

/-- `FactoryACMMonitor::handleException(const exception&)`. -/
def handleException (m : FactoryACMMonitor) (what : String) : List Event :=
  match m._instance with
  | none => []
  | some _ => [Event.error ("exception in connection monitor:\n" ++ what)]

/-- `FactoryACMMonitor::handleException()`. -/
def handleExceptionUnknown (m : FactoryACMMonitor) : List Event :=
  match m._instance with
  | none => []
  | some _ => [Event.error "unknown exception in connection monitor"]

/-- One step of the first loop of `runTimerTask`: a pending change applied to the set. -/
def applyChange (s : List ConnectionIPtr) (p : ConnectionIPtr × Bool) : List ConnectionIPtr :=
  if p.2 then setInsert p.1 s else setErase p.1 s

/-- The first loop of `runTimerTask`: the pending changes applied from front to back. -/
def applyChanges (s : List ConnectionIPtr) (changes : List (ConnectionIPtr × Bool)) :
    List ConnectionIPtr :=
  changes.foldl applyChange s

/-- The body of the second loop of `runTimerTask` for one connection: the call of `monitor` inside
`try`, and the two `catch` clauses. -/
def monitorConnection (mon : MonitorFn) (now : Int) (m : FactoryACMMonitor)
    (connection : ConnectionIPtr) : List Event :=
  Event.monitor connection now m._config ::
    (match mon connection now m._config with
     | .returns => []
     | .throwsException what => handleException m what
     | .throwsOther => handleExceptionUnknown m)

/-- The second loop of `runTimerTask`, over the set in iteration order. -/
def monitorConnections (mon : MonitorFn) (now : Int) (m : FactoryACMMonitor) :
    List ConnectionIPtr → List Event
  | [] => []
  | c :: cs => monitorConnection mon now m c ++ monitorConnections mon now m cs

/-- `FactoryACMMonitor::runTimerTask()`, with `now` the value of `chrono::steady_clock::now()`. -/
def runTimerTask (mon : MonitorFn) (now : Int) (m : FactoryACMMonitor) :
    Result FactoryACMMonitor :=
  match m._instance with
  | none => .ok ({ m with _connections := [] }, [Event.notifyAll])
  | some _ =>
    let m1 : FactoryACMMonitor :=
      { m with _connections := applyChanges m._connections m._changes, _changes := [] }
    if m1._connections.isEmpty then .ok (m1, [Event.cancel])
    else .ok (m1, monitorConnections mon now m1 m1._connections)

end FactoryACMMonitor

/-! ## `ConnectionACMMonitor` -/

/-- The data members of `ConnectionACMMonitor` that its member functions change or read;
`_connection = none` is the null pointer. `_parent` and `_timer` are set once by the constructor. -/
structure ConnectionACMMonitor where
  _config : ACMConfig
  _connection : Option ConnectionIPtr
deriving DecidableEq, Repr

namespace ConnectionACMMonitor

/-- `ConnectionACMMonitor::add(connection)`. -/
def add (m : ConnectionACMMonitor) (connection : ConnectionIPtr) : Result ConnectionACMMonitor :=
  match m._connection with
  | some _ => .error Fault.assertionFailed
  | none =>
    let m1 : ConnectionACMMonitor := { m with _connection := some connection }
    if m._config.timeout ≠ 0 then .ok (m1, [Event.scheduleRepeated (halfTimeout m._config)])
    else .ok (m1, [])

end ConnectionACMMonitor

/-! ## Observations on results -/

/-- The calls of `monitor` among the events, in order. -/
def monitorCalls : List Event → List (ConnectionIPtr × Int × ACMConfig)
  | [] => []
  | Event.monitor c now config :: es => (c, now, config) :: monitorCalls es
  | _ :: es => monitorCalls es

/-- The calls on the timer among the events, in order. -/
def timerCalls : List Event → List Event
  | [] => []
  | Event.scheduleRepeated d :: es => Event.scheduleRepeated d :: timerCalls es
  | Event.schedule d :: es => Event.schedule d :: timerCalls es
  | Event.cancel :: es => Event.cancel :: timerCalls es
  | _ :: es => timerCalls es

/-- A call of `add` or `remove` made by a client of the monitor. -/
inductive Call where
  | add (connection : ConnectionIPtr)
  | remove (connection : ConnectionIPtr)
deriving DecidableEq, Repr

/-- The calls made one after the other on the monitor; the events are concatenated. -/
def runCalls (m : FactoryACMMonitor) : List Call → Result FactoryACMMonitor
  | [] => .ok (m, [])
  | call :: rest =>
    match (match call with
           | .add c => FactoryACMMonitor.add m c
           | .remove c => FactoryACMMonitor.remove m c) with
    | .error f => .error f
    | .ok (m1, ev1) =>
      match runCalls m1 rest with
      | .error f => .error f
      | .ok (m2, ev2) => .ok (m2, ev1 ++ ev2)

/-- The pending change that a queued call stands for. -/
def Call.toChange : Call → ConnectionIPtr × Bool
  | .add c => (c, true)
  | .remove c => (c, false)

/-- The registered set after the calls have been applied to it one by one in arrival order:
`add` inserts the connection and `remove` erases it. -/
def applyCallsInOrder (s : List ConnectionIPtr) : List Call → List ConnectionIPtr
  | [] => s
  | .add c :: rest => applyCallsInOrder (setInsert c s) rest
  | .remove c :: rest => applyCallsInOrder (setErase c s) rest

/-- Whether the first `add` of the calls names a connection that no earlier removal names, where
`removed` lists the connections of the removals already pending. -/
def firstAddNotRemoved (removed : List ConnectionIPtr) : List Call → Bool
  | [] => true
  | .add c :: _ => decide (c ∉ removed)
  | .remove d :: rest => firstAddNotRemoved (removed ++ [d]) rest

/-! ## The other member functions of the monitors -/

namespace FactoryACMMonitor

/-- `FactoryACMMonitor::reap(connection)`. -/
def reap (m : FactoryACMMonitor) (connection : ConnectionIPtr) : Result FactoryACMMonitor :=
  .ok ({ m with _reapedConnections := m._reapedConnections ++ [connection] }, [])

/-- `FactoryACMMonitor::acm(timeout, close, heartbeat)`: the monitor it creates, whose parent is
`m`. The arguments are `optional`s; `timeout` is an `int` of seconds. -/
def acm (m : FactoryACMMonitor) (timeout : Option Int) (close : Option ACMClose)
    (heartbeat : Option ACMHeartbeat) : Result ConnectionACMMonitor :=
  match m._instance with
  | none => .error Fault.assertionFailed
  | some _ =>
    let config0 := m._config
    let config1 : ACMConfig :=
      match timeout with
      | some t => { config0 with timeout := t }
      | none => config0
    let config2 : ACMConfig :=
      match close with
      | some c => { config1 with close := c }
      | none => config1
    let config3 : ACMConfig :=
      match heartbeat with
      | some h => { config2 with heartbeat := h }
      | none => config2
    .ok ({ _config := config3, _connection := none }, [])

/-- `FactoryACMMonitor::swapReapedConnections(connections)`: the monitor and the vector of the
caller after the call. -/
def swapReapedConnections (m : FactoryACMMonitor) (connections : List ConnectionIPtr) :
    FactoryACMMonitor × List ConnectionIPtr :=
  ({ m with _reapedConnections := connections }, m._reapedConnections)

end FactoryACMMonitor

namespace ConnectionACMMonitor

/-- `ConnectionACMMonitor::remove(connection)`. -/
def remove (m : ConnectionACMMonitor) (connection : ConnectionIPtr) :
    Result ConnectionACMMonitor :=
  if m._connection = some connection then
    let timerCalls := if m._config.timeout ≠ 0 then [Event.cancel] else []
    .ok ({ m with _connection := none }, timerCalls)
  else .error Fault.assertionFailed

/-- `ConnectionACMMonitor::reap(connection)`: the call is forwarded to the monitor `_parent`
points to, whose record is `parent`; the result is that monitor afterwards. -/
def reap (parent : FactoryACMMonitor) (_m : ConnectionACMMonitor) (connection : ConnectionIPtr) :
    Result FactoryACMMonitor :=
  FactoryACMMonitor.reap parent connection

/-- `ConnectionACMMonitor::runTimerTask()`, with `now` the value of `chrono::steady_clock::now()`
and `parent` the record of the monitor `_parent` points to, which handles what `monitor`
throws. -/
def runTimerTask (mon : MonitorFn) (now : Int) (parent : FactoryACMMonitor)
    (m : ConnectionACMMonitor) : Result ConnectionACMMonitor :=
  match m._connection with
  | none => .ok (m, [])
  | some connection =>
    .ok (m, Event.monitor connection now m._config ::
      (match mon connection now m._config with
       | .returns => []
       | .throwsException what => FactoryACMMonitor.handleException parent what
       | .throwsOther => FactoryACMMonitor.handleExceptionUnknown parent))

end ConnectionACMMonitor

/-- A call of `reap`: on the factory monitor itself (`none`) or on a per-connection monitor that
forwards it. -/
abbrev ReapCall := Option ConnectionACMMonitor × ConnectionIPtr

/-- The calls of `reap` made one after the other; the result is the factory monitor. -/
def runReaps (m : FactoryACMMonitor) : List ReapCall → Result FactoryACMMonitor
  | [] => .ok (m, [])
  | (via, c) :: rest =>
    match (match via with
           | none => FactoryACMMonitor.reap m c
           | some child => ConnectionACMMonitor.reap m child c) with
    | .error f => .error f
    | .ok (m1, ev1) =>
      match runReaps m1 rest with
      | .error f => .error f
      | .ok (m2, ev2) => .ok (m2, ev1 ++ ev2)

/-! ## `PropertiesI` (`cpp/src/Ice/PropertiesI.cpp`)

The map `_properties` is the list of its keys with their values; a key is looked up from the
front. The mark `used`, which a lookup sets on the entry it finds and which only
`getUnusedProperties` reads, is left out, so that a lookup is a function of the map. -/

/-- A line written to a logger at the level `Warning`: to the logger that the caller handed to
the constructor, or to the logger of the process (`getProcessLogger()`). -/
inductive Warning where
  | logger (message : String)
  | processLogger (message : String)
deriving DecidableEq, Repr

/-- The map `_properties` of `PropertiesI`, without the marks `used`. -/
structure PropertiesI where
  _properties : List (String × String)
deriving DecidableEq, Repr

/-- The white space that formatted input skips (`isspace` in the classic locale). -/
def isSpace (c : Char) : Bool :=
  c.toNat = 32 || (9 ≤ c.toNat && c.toNat ≤ 13)

/-- The value that `istringstream v(s); v >> value` stores in the `int32_t value` when the
extraction succeeds and `v.eof()` holds after it, and `none` otherwise. By the rules of the C++
library for decimal input that is the case exactly when `s` is white space, an optional sign and
one or more decimal digits up to the end, and the number fits 32 bits. -/
def readInt32 (s : String) : Option Int :=
  let cs := s.toList.dropWhile isSpace
  let negative : Bool := cs.head? = some '-'
  let digits : List Char :=
    match cs with
    | '-' :: r => r
    | '+' :: r => r
    | r => r
  if digits.isEmpty || !digits.all Char.isDigit then none
  else
    let magnitude : Nat := digits.foldl (fun a d => 10 * a + (d.toNat - 48)) 0
    let v : Int := if negative then -(magnitude : Int) else (magnitude : Int)
    if -2147483648 ≤ v && v ≤ 2147483647 then some v else none

namespace PropertiesI

/-- The entry that `_properties.find(key)` finds, if any: its value. -/
def find (p : PropertiesI) (key : String) : Option String :=
  p._properties.lookup key

/-- `PropertiesI::getProperty(key)`. -/
def getProperty (p : PropertiesI) (key : String) : String :=
  match p.find key with
  | some v => v
  | none => ""

/-- `PropertiesI::getPropertyWithDefault(key, value)`. -/
def getPropertyWithDefault (p : PropertiesI) (key : String) (value : String) : String :=
  match p.find key with
  | some v => v
  | none => value

/-- `PropertiesI::getPropertyAsIntWithDefault(key, value)`: the number it returns and the warning
it writes. -/
def getPropertyAsIntWithDefault (p : PropertiesI) (key : String) (value : Int) :
    Int × List Warning :=
  match p.find key with
  | some s =>
    match readInt32 s with
    | some v => (v, [])
    | none =>
      (value, [Warning.processLogger
        ("numeric property " ++ key ++ " set to non-numeric value, defaulting to "
          ++ toString value)])
  | none => (value, [])

/-- `PropertiesI::getPropertyAsInt(key)`. -/
def getPropertyAsInt (p : PropertiesI) (key : String) : Int × List Warning :=
  p.getPropertyAsIntWithDefault key 0

end PropertiesI

/-! ## The constructors of `ACMConfig` -/

/-- The value of a signed 32-bit integer after a wrapping conversion (`static_cast<int>`). -/
def wrapInt32 (x : Int) : Int :=
  (x + 2147483648) % 4294967296 - 2147483648

/-- `static_cast<int>(h)` for a heartbeat constant: its ordinal. -/
def ACMHeartbeat.toInt : ACMHeartbeat → Int
  | .HeartbeatOff => 0
  | .HeartbeatOnDispatch => 1
  | .HeartbeatOnIdle => 2
  | .HeartbeatOnInvocation => 3
  | .HeartbeatAlways => 4

/-- `static_cast<Ice::ACMHeartbeat>(n)` for an ordinal `n`; the constructor applies it to the
ordinals only. -/
def ACMHeartbeat.ofInt (n : Int) : ACMHeartbeat :=
  if n = 0 then .HeartbeatOff
  else if n = 1 then .HeartbeatOnDispatch
  else if n = 2 then .HeartbeatOnIdle
  else if n = 3 then .HeartbeatOnInvocation
  else .HeartbeatAlways

/-- `static_cast<int>(c)` for a close constant: its ordinal. -/
def ACMClose.toInt : ACMClose → Int
  | .CloseOff => 0
  | .CloseOnIdle => 1
  | .CloseOnInvocation => 2
  | .CloseOnInvocationAndIdle => 3
  | .CloseOnIdleForceful => 4

/-- `static_cast<Ice::ACMClose>(n)` for an ordinal `n`; the constructor applies it to the ordinals
only. -/
def ACMClose.ofInt (n : Int) : ACMClose :=
  if n = 0 then .CloseOff
  else if n = 1 then .CloseOnIdle
  else if n = 2 then .CloseOnInvocation
  else if n = 3 then .CloseOnInvocationAndIdle
  else .CloseOnIdleForceful

namespace ACMConfig

/-- `ACMConfig::ACMConfig(bool server)`. -/
def ofServer (server : Bool) : ACMConfig :=
  { timeout := 60
    heartbeat := ACMHeartbeat.HeartbeatOnDispatch
    close := if server then ACMClose.CloseOnInvocation else ACMClose.CloseOnInvocationAndIdle }

/-- The name of the property that `ACMConfig::ACMConfig(p, l, prefix, dflt)` reads the timeout
from (`pfx` is its argument `prefix`). -/
def timeoutProperty (p : PropertiesI) (pfx : String) : String :=
  if (pfx == "Ice.ACM.Client" || pfx == "Ice.ACM.Server")
      && (p.getProperty (pfx ++ ".Timeout")).isEmpty then pfx
  else pfx ++ ".Timeout"

/-- `ACMConfig::ACMConfig(p, l, prefix, dflt)`: the configuration, and the warnings written, in
order, to `l` and by the lookups (`pfx` is the argument `prefix`). -/
def ofProperties (p : PropertiesI) (pfx : String) (dflt : ACMConfig) :
    ACMConfig × List Warning :=
  let timeoutVal := p.getPropertyAsIntWithDefault (timeoutProperty p pfx) (wrapInt32 dflt.timeout)
  let timeout : Int × List Warning :=
    if timeoutVal.1 ≥ 0 then (timeoutVal.1, [])
    else (dflt.timeout,
      [Warning.logger ("invalid value for property `" ++ timeoutProperty p pfx
        ++ "', default value will be used instead")])
  let hb := p.getPropertyAsIntWithDefault (pfx ++ ".Heartbeat") dflt.heartbeat.toInt
  let heartbeat : ACMHeartbeat × List Warning :=
    if hb.1 ≥ ACMHeartbeat.HeartbeatOff.toInt && hb.1 ≤ ACMHeartbeat.HeartbeatAlways.toInt
    then (ACMHeartbeat.ofInt hb.1, [])
    else (dflt.heartbeat,
      [Warning.logger ("invalid value for property `" ++ pfx ++ ".Heartbeat"
        ++ "', default value will be used instead")])
  let cl := p.getPropertyAsIntWithDefault (pfx ++ ".Close") dflt.close.toInt
  let close : ACMClose × List Warning :=
    if cl.1 ≥ ACMClose.CloseOff.toInt && cl.1 ≤ ACMClose.CloseOnIdleForceful.toInt
    then (ACMClose.ofInt cl.1, [])
    else (dflt.close,
      [Warning.logger ("invalid value for property `" ++ pfx ++ ".Close"
        ++ "', default value will be used instead")])
  ({ timeout := timeout.1, heartbeat := heartbeat.1, close := close.1 },
   timeoutVal.2 ++ timeout.2 ++ hb.2 ++ heartbeat.2 ++ cl.2 ++ close.2)

end ACMConfig

/-! ## `DefaultsAndOverrides` (`cpp/src/Ice/DefaultsAndOverrides.cpp`) -/

/-- Modelled from the spec: the enumeration `Ice::EndpointSelectionType`, whose declaration is not
among the sources; the spec and the constructor name its constants `Random` and `Ordered`. -/
inductive EndpointSelectionType where
  | Random
  | Ordered
deriving DecidableEq, Repr

/-- The constants of `Ice::FormatType` that the constructor chooses between. -/
inductive FormatType where
  | CompactFormat
  | SlicedFormat
deriving DecidableEq, Repr

/-- The record `Ice::EncodingVersion`: two bytes. -/
structure EncodingVersion where
  major : Nat
  minor : Nat
deriving DecidableEq, Repr

/-- The exceptions that the constructor of `DefaultsAndOverrides` and the operations on
references throw. `encoding` stands for what `stringToEncodingVersion` and
`checkSupportedEncoding` throw. -/
inductive LocalException where
  | InitializationException (reason : String)
  | EndpointSelectionTypeParseException (str : String)
  | encoding (what : String)
  | FixedProxyException
deriving DecidableEq, Repr

/-- The functions that the constructor of `DefaultsAndOverrides` calls and that are not among the
sources: `isValidNumericAddress value` is `isAddressValid(getNumericAddress(value))`,
`currentEncodingString` is `encodingVersionToString(currentEncoding)`, and `supportedEncoding
value` is the version that `stringToEncodingVersion(value)` returns and `checkSupportedEncoding`
accepts, or what one of the two throws. -/
structure Helpers where
  isValidNumericAddress : String → Bool
  currentEncodingString : String
  supportedEncoding : String → Except LocalException EncodingVersion

/-- The data members of `DefaultsAndOverrides`. `defaultSourceAddress` is the string that the
address was obtained from by `getNumericAddress`, `none` for the address left as constructed. -/
structure DefaultsAndOverrides where
  defaultHost : String
  defaultSourceAddress : Option String
  defaultProtocol : String
  defaultCollocationOptimization : Bool
  defaultEndpointSelection : EndpointSelectionType
  defaultTimeout : Int
  defaultInvocationTimeout : Int
  defaultLocatorCacheTimeout : Int
  defaultPreferSecure : Bool
  defaultEncoding : EncodingVersion
  defaultFormat : FormatType
  overrideTimeout : Bool
  overrideTimeoutValue : Int
  overrideConnectTimeout : Bool
  overrideConnectTimeoutValue : Int
  overrideCloseTimeout : Bool
  overrideCloseTimeoutValue : Int
  overrideCompress : Bool
  overrideCompressValue : Bool
  overrideSecure : Bool
  overrideSecureValue : Bool
deriving DecidableEq, Repr

namespace DefaultsAndOverrides

/-- The properties under `Ice.Default.` that the constructor reads. -/
def defaultKeys : List String :=
  ["Ice.Default.Protocol", "Ice.Default.Host", "Ice.Default.SourceAddress",
   "Ice.Default.CollocationOptimized", "Ice.Default.EndpointSelection", "Ice.Default.Timeout",
   "Ice.Default.InvocationTimeout", "Ice.Default.LocatorCacheTimeout",
   "Ice.Default.PreferSecure", "Ice.Default.EncodingVersion", "Ice.Default.SlicedFormat"]

/-- The block that the constructor runs for each of `Ice.Override.Timeout`,
`Ice.Override.ConnectTimeout` and `Ice.Override.CloseTimeout` (`key`): the flag, the value and the
warnings. The flag and the value start as `false` and `-1`. -/
def readOverrideTimeout (properties : PropertiesI) (key : String) :
    (Bool × Int) × List Warning :=
  let value := properties.getProperty key
  if !value.isEmpty then
    let n := properties.getPropertyAsInt key
    if n.1 < 1 && n.1 != -1 then
      ((true, -1), n.2 ++ [Warning.logger ("invalid value for " ++ key ++ " `"
        ++ properties.getProperty key ++ "': defaulting to -1")])
    else ((true, n.1), n.2)
  else ((false, -1), [])

/-- The block that the constructor runs for each of `Ice.Override.Compress` and
`Ice.Override.Secure` (`key`): the flag, the value and the warnings. The flag and the value start
as `false` and `false`. -/
def readOverrideFlag (properties : PropertiesI) (key : String) :
    (Bool × Bool) × List Warning :=
  let value := properties.getProperty key
  if !value.isEmpty then
    let n := properties.getPropertyAsInt key
    ((true, decide (n.1 > 0)), n.2)
  else ((false, false), [])

/-- The block for `Ice.Default.EndpointSelection`. -/
def readEndpointSelection (properties : PropertiesI) :
    Except LocalException EndpointSelectionType :=
  let value := properties.getPropertyWithDefault "Ice.Default.EndpointSelection" "Random"
  if value == "Random" then .ok EndpointSelectionType.Random
  else if value == "Ordered" then .ok EndpointSelectionType.Ordered
  else .error (LocalException.EndpointSelectionTypeParseException
    ("illegal value `" ++ value ++ "'; expected `Random' or `Ordered'"))

/-- The block for `Ice.Default.Timeout`. -/
def readDefaultTimeout (properties : PropertiesI) : Int × List Warning :=
  let n := properties.getPropertyAsIntWithDefault "Ice.Default.Timeout" 60000
  if n.1 < 1 && n.1 != -1 then
    (60000, n.2 ++ [Warning.logger ("invalid value for Ice.Default.Timeout `"
      ++ properties.getProperty "Ice.Default.Timeout" ++ "': defaulting to 60000")])
  else n

/-- The block for `Ice.Default.InvocationTimeout`. -/
def readDefaultInvocationTimeout (properties : PropertiesI) : Int × List Warning :=
  let n := properties.getPropertyAsIntWithDefault "Ice.Default.InvocationTimeout" (-1)
  if n.1 < 1 && n.1 != -1 && n.1 != -2 then
    (-1, n.2 ++ [Warning.logger ("invalid value for Ice.Default.InvocationTimeout `"
      ++ properties.getProperty "Ice.Default.InvocationTimeout" ++ "': defaulting to -1")])
  else n

/-- The block for `Ice.Default.LocatorCacheTimeout`. -/
def readDefaultLocatorCacheTimeout (properties : PropertiesI) : Int × List Warning :=
  let n := properties.getPropertyAsIntWithDefault "Ice.Default.LocatorCacheTimeout" (-1)
  if n.1 < -1 then
    (-1, n.2 ++ [Warning.logger ("invalid value for Ice.Default.LocatorCacheTimeout `"
      ++ properties.getProperty "Ice.Default.LocatorCacheTimeout" ++ "': defaulting to -1")])
  else n

/-- `DefaultsAndOverrides::DefaultsAndOverrides(properties, logger)`: the warnings written, in
order, up to the return or the throw, and the object constructed or the exception thrown. -/
def create (h : Helpers) (properties : PropertiesI) :
    List Warning × Except LocalException DefaultsAndOverrides :=
  let defaultProtocol := properties.getPropertyWithDefault "Ice.Default.Protocol" "tcp"
  let defaultHost := properties.getProperty "Ice.Default.Host"
  let sourceAddress := properties.getProperty "Ice.Default.SourceAddress"
  if !sourceAddress.isEmpty && !h.isValidNumericAddress sourceAddress then
    ([], .error (LocalException.InitializationException
      ("invalid IP address set for Ice.Default.SourceAddress: `" ++ sourceAddress ++ "'")))
  else
    let timeout := readOverrideTimeout properties "Ice.Override.Timeout"
    let connectTimeout := readOverrideTimeout properties "Ice.Override.ConnectTimeout"
    let closeTimeout := readOverrideTimeout properties "Ice.Override.CloseTimeout"
    let compress := readOverrideFlag properties "Ice.Override.Compress"
    let secure := readOverrideFlag properties "Ice.Override.Secure"
    let collocation :=
      properties.getPropertyAsIntWithDefault "Ice.Default.CollocationOptimized" 1
    let warnings1 :=
      timeout.2 ++ connectTimeout.2 ++ closeTimeout.2 ++ compress.2 ++ secure.2 ++ collocation.2
    match readEndpointSelection properties with
    | .error e => (warnings1, .error e)
    | .ok endpointSelection =>
      let defaultTimeout := readDefaultTimeout properties
      let invocationTimeout := readDefaultInvocationTimeout properties
      let locatorCacheTimeout := readDefaultLocatorCacheTimeout properties
      let preferSecure := properties.getPropertyAsIntWithDefault "Ice.Default.PreferSecure" 0
      let warnings2 :=
        warnings1 ++ defaultTimeout.2 ++ invocationTimeout.2 ++ locatorCacheTimeout.2
          ++ preferSecure.2
      match h.supportedEncoding
          (properties.getPropertyWithDefault "Ice.Default.EncodingVersion"
            h.currentEncodingString) with
      | .error e => (warnings2, .error e)
      | .ok encoding =>
        let slicedFormat := properties.getPropertyAsIntWithDefault "Ice.Default.SlicedFormat" 0
        (warnings2 ++ slicedFormat.2,
         .ok
          { defaultHost := defaultHost
            defaultSourceAddress := if !sourceAddress.isEmpty then some sourceAddress else none
            defaultProtocol := defaultProtocol
            defaultCollocationOptimization := decide (collocation.1 > 0)
            defaultEndpointSelection := endpointSelection
            defaultTimeout := defaultTimeout.1
            defaultInvocationTimeout := invocationTimeout.1
            defaultLocatorCacheTimeout := locatorCacheTimeout.1
            defaultPreferSecure := decide (preferSecure.1 > 0)
            defaultEncoding := encoding
            defaultFormat :=
              if decide (slicedFormat.1 > 0) then FormatType.SlicedFormat
              else FormatType.CompactFormat
            overrideTimeout := timeout.1.1
            overrideTimeoutValue := timeout.1.2
            overrideConnectTimeout := connectTimeout.1.1
            overrideConnectTimeoutValue := connectTimeout.1.2
            overrideCloseTimeout := closeTimeout.1.1
            overrideCloseTimeoutValue := closeTimeout.1.2
            overrideCompress := compress.1.1
            overrideCompressValue := compress.1.2
            overrideSecure := secure.1.1
            overrideSecureValue := secure.1.2 })

end DefaultsAndOverrides

/-! ## `Reference` (`cpp/src/Ice/Reference.h`)

The header declares the classes and defines the inline member functions; the file that defines the
other member functions is not among the sources. -/

/-- Modelled from the spec: the record `Ice::Identity`, declared outside the sources, with the
fields `name` and `category`. -/
structure Identity where
  name : String
  category : String
deriving DecidableEq, Repr

/-- The record `Ice::ProtocolVersion`: two bytes. -/
structure ProtocolVersion where
  major : Nat
  minor : Nat
deriving DecidableEq, Repr

/-- The enumeration `Reference::Mode`; `ModeLast` is another name of `ModeBatchDatagram`. -/
inductive Reference.Mode where
  | ModeTwoway
  | ModeOneway
  | ModeBatchOneway
  | ModeDatagram
  | ModeBatchDatagram
deriving DecidableEq, Repr

/-- The enumerator `ModeLast = ModeBatchDatagram`. -/
def Reference.Mode.ModeLast : Reference.Mode := Reference.Mode.ModeBatchDatagram

/-- The data members of the class `Reference`, without the mutex. Pointers to objects of other
classes are handles; `_context` is the map behind the shared context, as its list of entries. -/
structure Reference where
  _instance : InstancePtr
  _overrideCompress : Bool
  _compress : Bool
  _communicator : Nat
  _mode : Reference.Mode
  _secure : Bool
  _identity : Identity
  _context : List (String × String)
  _facet : String
  _hashValue : Int
  _hashInitialized : Bool
  _protocol : ProtocolVersion
  _encoding : EncodingVersion
  _invocationTimeout : Int
deriving DecidableEq, Repr

namespace Reference

/-- `Reference::getMode()`. -/
def getMode (r : Reference) : Reference.Mode := r._mode

/-- `Reference::isBatch()`. -/
def isBatch (r : Reference) : Bool :=
  r._mode == Reference.Mode.ModeBatchOneway || r._mode == Reference.Mode.ModeBatchDatagram

/-- `Reference::isTwoway()`. -/
def isTwoway (r : Reference) : Bool :=
  r._mode == Reference.Mode.ModeTwoway

end Reference

/-- The data members of the class `FixedReference`: those of `Reference` and the connection. -/
structure FixedReference extends Reference where
  _fixedConnection : Option ConnectionIPtr
deriving DecidableEq, Repr

/-- The data members of the class `RoutableReference`: those of `Reference` and its own. Endpoints,
the locator info, the router info and the batch request queue are handles. -/
structure RoutableReference extends Reference where
  _batchRequestQueue : Option Nat
  _endpoints : List Nat
  _adapterId : String
  _locatorInfo : Option Nat
  _routerInfo : Option Nat
  _collocationOptimized : Bool
  _cacheConnection : Bool
  _preferSecure : Bool
  _endpointSelection : EndpointSelectionType
  _locatorCacheTimeout : Int
  _overrideTimeout : Bool
  _timeout : Int
  _connectionId : String
deriving DecidableEq, Repr

/-- A `ReferencePtr` that is not null: the object it points to, of one of the two final
classes. -/
inductive ReferencePtr where
  | fixed (r : FixedReference)
  | routable (r : RoutableReference)
deriving DecidableEq, Repr

namespace FixedReference

/-- Modelled from the spec: `FixedReference::changeEndpoints`, declared in the header and defined
outside the sources. The spec: on a `FixedReference` every variant-specific change operation
except `changeConnection`, `changeTimeout` and `changeConnectionId` signals the fixed-proxy
error. -/
def changeEndpoints (_r : FixedReference) (_newEndpoints : List Nat) :
    Except LocalException ReferencePtr :=
  .error LocalException.FixedProxyException

/-- Modelled from the spec: `FixedReference::changeAdapterId`, declared in the header and defined
outside the sources. The spec: `FixedReference.changeAdapterId(x)` always signals the fixed-proxy
error, for any `x`. -/
def changeAdapterId (_r : FixedReference) (_newAdapterId : String) :
    Except LocalException ReferencePtr :=
  .error LocalException.FixedProxyException

/-- Modelled from the spec: `FixedReference::changeLocator`, declared in the header and defined
outside the sources; it signals the fixed-proxy error. The argument is an optional proxy, a
handle. -/
def changeLocator (_r : FixedReference) (_newLocator : Option Nat) :
    Except LocalException ReferencePtr :=
  .error LocalException.FixedProxyException

/-- Modelled from the spec: `FixedReference::changeRouter`, declared in the header and defined
outside the sources; it signals the fixed-proxy error. The argument is an optional proxy, a
handle. -/
def changeRouter (_r : FixedReference) (_newRouter : Option Nat) :
    Except LocalException ReferencePtr :=
  .error LocalException.FixedProxyException

/-- Modelled from the spec: `FixedReference::changeCollocationOptimized`, declared in the header
and defined outside the sources; it signals the fixed-proxy error. -/
def changeCollocationOptimized (_r : FixedReference) (_newCollocationOptimized : Bool) :
    Except LocalException ReferencePtr :=
  .error LocalException.FixedProxyException

/-- Modelled from the spec: `FixedReference::changeCacheConnection`, declared in the header and
defined outside the sources; it signals the fixed-proxy error. -/
def changeCacheConnection (_r : FixedReference) (_newCache : Bool) :
    Except LocalException ReferencePtr :=
  .error LocalException.FixedProxyException

/-- Modelled from the spec: `FixedReference::changePreferSecure`, declared in the header and
defined outside the sources; it signals the fixed-proxy error. -/
def changePreferSecure (_r : FixedReference) (_newPreferSecure : Bool) :
    Except LocalException ReferencePtr :=
  .error LocalException.FixedProxyException

/-- Modelled from the spec: `FixedReference::changeEndpointSelection`, declared in the header and
defined outside the sources; it signals the fixed-proxy error. -/
def changeEndpointSelection (_r : FixedReference) (_newType : EndpointSelectionType) :
    Except LocalException ReferencePtr :=
  .error LocalException.FixedProxyException

/-- Modelled from the spec: `FixedReference::changeLocatorCacheTimeout`, declared in the header
and defined outside the sources; it signals the fixed-proxy error. -/
def changeLocatorCacheTimeout (_r : FixedReference) (_newTimeout : Int) :
    Except LocalException ReferencePtr :=
  .error LocalException.FixedProxyException

end FixedReference

/-! ## The configuration that a monitor reports, and the monitor of a communicator -/

/-- The record `Ice::ACM` that `getACM` fills in: `timeout` is an `int`. -/
structure ACM where
  timeout : Int
  close : ACMClose
  heartbeat : ACMHeartbeat
deriving DecidableEq, Repr

namespace FactoryACMMonitor

/-- `FactoryACMMonitor::FactoryACMMonitor(instance, config)`, for a non-null `instance`. -/
def create (inst : InstancePtr) (config : ACMConfig) : FactoryACMMonitor :=
  { _instance := some inst, _config := config, _connections := [], _changes := [],
    _reapedConnections := [] }

/-- `FactoryACMMonitor::getACM()`. -/
def getACM (m : FactoryACMMonitor) : ACM :=
  { timeout := wrapInt32 m._config.timeout
    close := m._config.close
    heartbeat := m._config.heartbeat }

end FactoryACMMonitor

namespace ConnectionACMMonitor

/-- `ConnectionACMMonitor::acm(timeout, close, heartbeat)`: the call is forwarded to the monitor
`_parent` points to, whose record is `parent`. -/
def acm (parent : FactoryACMMonitor) (_m : ConnectionACMMonitor) (timeout : Option Int)
    (close : Option ACMClose) (heartbeat : Option ACMHeartbeat) : Result ConnectionACMMonitor :=
  FactoryACMMonitor.acm parent timeout close heartbeat

/-- `ConnectionACMMonitor::getACM()`. -/
def getACM (m : ConnectionACMMonitor) : ACM :=
  { timeout := wrapInt32 m._config.timeout
    close := m._config.close
    heartbeat := m._config.heartbeat }

end ConnectionACMMonitor

/-- The messages written to the logger at the level `Error`, among the events, in order. -/
def errorMessages : List Event → List String
  | [] => []
  | Event.error message :: es => message :: errorMessages es
  | _ :: es => errorMessages es

/-- The message that a factory monitor which has not been destroyed logs for what a call of
`monitor` did, if it threw. -/
def errorMessageOf : MonitorOutcome → List String
  | .returns => []
  | .throwsException what => ["exception in connection monitor:\n" ++ what]
  | .throwsOther => ["unknown exception in connection monitor"]

/-- A call made on a factory monitor by a client or by the timer: `add`, `remove`, `reap`, or a
tick at the time `now`. -/
inductive Op where
  | add (connection : ConnectionIPtr)
  | remove (connection : ConnectionIPtr)
  | reap (connection : ConnectionIPtr)
  | tick (now : Int)
deriving DecidableEq, Repr

/-- One call made on the monitor. -/
def runOp (mon : MonitorFn) (m : FactoryACMMonitor) : Op → Result FactoryACMMonitor
  | .add c => FactoryACMMonitor.add m c
  | .remove c => FactoryACMMonitor.remove m c
  | .reap c => FactoryACMMonitor.reap m c
  | .tick now => FactoryACMMonitor.runTimerTask mon now m

/-- The calls made one after the other on the monitor; the events are concatenated. -/
def runOps (mon : MonitorFn) (m : FactoryACMMonitor) : List Op → Result FactoryACMMonitor
  | [] => .ok (m, [])
  | op :: rest =>
    match runOp mon m op with
    | .error f => .error f
    | .ok (m1, ev1) =>
      match runOps mon m1 rest with
      | .error f => .error f
      | .ok (m2, ev2) => .ok (m2, ev1 ++ ev2)

/-- Whether the repeating task of the monitor is scheduled after the events, given whether it was
before: `scheduleRepeated` schedules it and `cancel` removes it. -/
def repeatingTaskScheduled (before : Bool) : List Event → Bool
  | [] => before
  | Event.scheduleRepeated _ :: es => repeatingTaskScheduled true es
  | Event.cancel :: es => repeatingTaskScheduled false es
  | _ :: es => repeatingTaskScheduled before es

/-- The invariant of a factory monitor that has not been destroyed, with `scheduled` saying
whether its repeating task is scheduled: the task is scheduled exactly when a connection is
registered, and while none is registered only removals are pending. -/
def MonitorInvariant (inst : InstancePtr) (m : FactoryACMMonitor) (scheduled : Bool) : Prop :=
  m._instance = some inst ∧ m._config.timeout ≠ 0 ∧
  (scheduled = true ↔ m._connections ≠ []) ∧
  (m._connections = [] → ∀ p ∈ m._changes, p.2 = false)

/-! ## `CountDownLatch` and `Thread` (`cpp/src/Ice/CountDownLatch.cpp`, `cpp/src/Ice/Thread.cpp`)

The branches for POSIX systems other than macOS. The calls of the pthread library are
collaborators: a record says what they return. -/

/-- The exceptions of `IceUtil` that the latch and the thread throw. -/
inductive ThreadException where
  | IllegalArgumentException (reason : String)
  | ThreadSyscallException (rc : Int)
  | ThreadStartedException
  | ThreadNotStartedException
  | BadThreadControlException
deriving DecidableEq, Repr

/-- What the calls of the pthread library on the mutex and the condition variable of a latch
return. -/
structure LatchCalls where
  pthread_mutex_init : Int
  pthread_cond_init : Int
  pthread_mutex_lock : Int
  pthread_mutex_unlock : Int
  pthread_cond_broadcast : Int
deriving DecidableEq, Repr

/-- The data member `_count` of `CountDownLatch`, an `int`. -/
structure CountDownLatch where
  _count : Int
deriving DecidableEq, Repr

namespace CountDownLatch

/-- `CountDownLatch::CountDownLatch(count)`. -/
def create (sys : LatchCalls) (count : Int) : Except ThreadException CountDownLatch :=
  if count < 0 then
    .error (ThreadException.IllegalArgumentException "count must be greater than 0")
  else if sys.pthread_mutex_init ≠ 0 then
    .error (ThreadException.ThreadSyscallException sys.pthread_mutex_init)
  else if sys.pthread_cond_init ≠ 0 then
    .error (ThreadException.ThreadSyscallException sys.pthread_cond_init)
  else .ok { _count := count }

/-- `CountDownLatch::countDown()`: the latch afterwards, and whether the call returned, with the
flag that says whether it has called `pthread_cond_broadcast`, or what it threw. -/
def countDown (sys : LatchCalls) (l : CountDownLatch) :
    CountDownLatch × Except ThreadException Bool :=
  if sys.pthread_mutex_lock ≠ 0 then
    (l, .error (ThreadException.ThreadSyscallException sys.pthread_mutex_lock))
  else
    let l1 : CountDownLatch := if l._count > 0 then { _count := l._count - 1 } else l
    let broadcast : Bool := decide (l._count > 0) && decide (l._count - 1 = 0)
    if sys.pthread_mutex_unlock ≠ 0 then
      (l1, .error (ThreadException.ThreadSyscallException sys.pthread_mutex_unlock))
    else if broadcast then
      if sys.pthread_cond_broadcast ≠ 0 then
        (l1, .error (ThreadException.ThreadSyscallException sys.pthread_cond_broadcast))
      else (l1, .ok true)
    else (l1, .ok false)

/-- `CountDownLatch::getCount()`. -/
def getCount (sys : LatchCalls) (l : CountDownLatch) : Except ThreadException Int :=
  if sys.pthread_mutex_lock ≠ 0 then
    .error (ThreadException.ThreadSyscallException sys.pthread_mutex_lock)
  else if sys.pthread_mutex_unlock ≠ 0 then
    .error (ThreadException.ThreadSyscallException sys.pthread_mutex_unlock)
  else .ok l._count

/-- The latch after `n` calls of `countDown`, made one after the other. -/
def countDownTimes (sys : LatchCalls) : Nat → CountDownLatch → CountDownLatch
  | 0, l => l
  | n + 1, l => countDownTimes sys n (countDown sys l).1

end CountDownLatch

/-- A call of the pthread library made by `Thread::start`, with the argument that matters. -/
inductive PthreadCall where
  | attr_init
  | attr_setstacksize (stackSize : Nat)
  | attr_setschedpolicy
  | attr_setschedparam (priority : Int)
  | attr_setinheritsched
  | create
  | attr_destroy
deriving DecidableEq, Repr

/-- What the calls of the pthread library made by `Thread::start` return; `pthread_create` also
gives the handle of the thread it has created. `stackMin` is `PTHREAD_STACK_MIN`. -/
structure ThreadCalls where
  stackMin : Nat
  pthread_attr_init : Int
  pthread_attr_setstacksize : Nat → Int
  pthread_attr_setschedpolicy : Int
  pthread_attr_setschedparam : Int → Int
  pthread_create : Int × Nat

/-- The data members of `IceUtil::Thread`, without the mutex; `_thread` is a handle. -/
structure Thread where
  _name : String
  _started : Bool
  _running : Bool
  _thread : Nat
deriving DecidableEq, Repr

/-- The data members of `IceUtil::ThreadControl`. -/
structure ThreadControl where
  _thread : Nat
  _detachable : Bool
deriving DecidableEq, Repr

/-- What a call of `Thread::start` leaves: the thread object, the calls of the pthread library it
has made, in order, and the control it returns or the exception it throws. -/
structure StartResult where
  thread : Thread
  calls : List PthreadCall
  outcome : Except ThreadException ThreadControl

namespace Thread

/-- `Thread::Thread(name)`; `Thread::Thread()` is the case of the empty name. The handle has no
value yet. -/
def create (name : String) : Thread :=
  { _name := name, _started := false, _running := false, _thread := 0 }

/-- The part of `Thread::start` between the test of `_started` and `pthread_create`, which sets
up the attributes of the thread: the calls it makes and the exception it throws, if any. -/
def prepareAttributes (sys : ThreadCalls) (stackSize : Nat) (realtimeScheduling : Bool)
    (priority : Int) : List PthreadCall × Option ThreadException :=
  if sys.pthread_attr_init ≠ 0 then
    ([PthreadCall.attr_init, PthreadCall.attr_destroy],
     some (ThreadException.ThreadSyscallException sys.pthread_attr_init))
  else
    let size := if stackSize < sys.stackMin then sys.stackMin else stackSize
    let calls1 : List PthreadCall :=
      if stackSize > 0 then [PthreadCall.attr_init, PthreadCall.attr_setstacksize size]
      else [PthreadCall.attr_init]
    if stackSize > 0 ∧ sys.pthread_attr_setstacksize size ≠ 0 then
      (calls1 ++ [PthreadCall.attr_destroy],
       some (ThreadException.ThreadSyscallException (sys.pthread_attr_setstacksize size)))
    else if realtimeScheduling then
      if sys.pthread_attr_setschedpolicy ≠ 0 then
        (calls1 ++ [PthreadCall.attr_setschedpolicy],
         some (ThreadException.ThreadSyscallException sys.pthread_attr_setschedpolicy))
      else if sys.pthread_attr_setschedparam priority ≠ 0 then
        (calls1 ++ [PthreadCall.attr_setschedpolicy, PthreadCall.attr_setschedparam priority,
           PthreadCall.attr_destroy],
         some (ThreadException.ThreadSyscallException (sys.pthread_attr_setschedparam priority)))
      else
        (calls1 ++ [PthreadCall.attr_setschedpolicy, PthreadCall.attr_setschedparam priority,
           PthreadCall.attr_setinheritsched], none)
    else (calls1, none)

/-- `Thread::start(stackSize, realtimeScheduling, priority)`. -/
def start (sys : ThreadCalls) (t : Thread) (stackSize : Nat) (realtimeScheduling : Bool)
    (priority : Int) : StartResult :=
  if t._started then
    { thread := t, calls := [], outcome := .error ThreadException.ThreadStartedException }
  else
    match prepareAttributes sys stackSize realtimeScheduling priority with
    | (calls, some e) => { thread := t, calls := calls, outcome := .error e }
    | (calls, none) =>
      if sys.pthread_create.1 ≠ 0 then
        { thread := t, calls := calls ++ [PthreadCall.create, PthreadCall.attr_destroy],
          outcome := .error (ThreadException.ThreadSyscallException sys.pthread_create.1) }
      else
        { thread := { t with _started := true, _running := true,
                             _thread := sys.pthread_create.2 },
          calls := calls ++ [PthreadCall.create, PthreadCall.attr_destroy],
          outcome := .ok { _thread := sys.pthread_create.2, _detachable := true } }

/-- `Thread::start(stackSize)`. -/
def startWithStackSize (sys : ThreadCalls) (t : Thread) (stackSize : Nat) : StartResult :=
  start sys t stackSize false 0

/-- `Thread::start(stackSize, priority)`. -/
def startWithPriority (sys : ThreadCalls) (t : Thread) (stackSize : Nat) (priority : Int) :
    StartResult :=
  start sys t stackSize true priority

/-- `Thread::getThreadControl()`. -/
def getThreadControl (t : Thread) : Except ThreadException ThreadControl :=
  if !t._started then .error ThreadException.ThreadNotStartedException
  else .ok { _thread := t._thread, _detachable := true }

/-- `Thread::isAlive()`. -/
def isAlive (t : Thread) : Bool := t._running

/-- `Thread::_done()`, which the start hook calls when `run()` has returned. -/
def _done (t : Thread) : Thread := { t with _running := false }

end Thread

/-- What happens to a thread object after its start: its `run()` returns (`done`), the thread is
joined through a control (`join`, which does not touch the object), or `start` is called again. -/
inductive ThreadOp where
  | done
  | join
  | start (sys : ThreadCalls) (stackSize : Nat) (realtimeScheduling : Bool) (priority : Int)

/-- The thread object after the events, in order. -/
def runThreadOps : Thread → List ThreadOp → Thread
  | t, [] => t
  | t, ThreadOp.done :: rest => runThreadOps (Thread._done t) rest
  | t, ThreadOp.join :: rest => runThreadOps t rest
  | t, ThreadOp.start sys stackSize realtime priority :: rest =>
    runThreadOps (Thread.start sys t stackSize realtime priority).thread rest

/-! ## Setting and parsing properties (`cpp/src/Ice/PropertiesI.cpp`) -/

/-- The record `IceInternal::Property` of an entry of the table of the legal properties:
`deprecatedBy` is a C string, `none` when null. -/
structure Property where
  pattern : String
  deprecated : Bool
  deprecatedBy : Option String
deriving DecidableEq, Repr

/-- The record `IceInternal::PropertyArray`: the array `properties`, which has a first entry, and
its `length`. -/
structure PropertyArray where
  first : Property
  others : List Property
deriving DecidableEq, Repr

/-- The entries of the array, in order. -/
def PropertyArray.properties (a : PropertyArray) : List Property := a.first :: a.others

/-- The functions and the table that `setProperty` and `parseLine` use and that are not among the
sources: `IceUtilInternal::trim`, `IceUtilInternal::toUpper`, `IceUtilInternal::match` (`match_
s pattern`), the table `IceInternal::PropertyNames::validProps` up to its terminator, and
`UTF8ToNative` with the string converter handed to `parseLine`. -/
structure PropertyTools where
  trim : String → String
  toUpper : String → String
  match_ : String → String → Bool
  validProps : List PropertyArray
  UTF8ToNative : String → String

/-- Why a member function did not return: an exception or a fault. -/
inductive Stopped where
  | thrown (e : LocalException)
  | fault (f : Fault)
deriving DecidableEq, Repr

/-- The map after `m[key] = value`, for a map given as the list of its entries in the order of
the keys. -/
def mapSet (key value : String) : List (String × String) → List (String × String)
  | [] => [(key, value)]
  | x :: xs =>
    if key < x.1 then (key, value) :: x :: xs
    else if key = x.1 then (key, value) :: xs
    else x :: mapSet key value xs

/-- The map after `m.erase(key)`. -/
def mapErase (key : String) (m : List (String × String)) : List (String × String) :=
  m.filter (fun x => x.1 ≠ key)

/-- The characters of `s` before its first `.`, when it has one: `s.substr(0, s.find('.'))`. -/
def beforeDot (s : String) : Option String :=
  if '.' ∈ s.toList then some (String.mk (s.toList.takeWhile (fun c => c ≠ '.'))) else none

/-- What the inner loop of `setProperty` over the entries of one array leaves. -/
structure CheckResult where
  found : Bool
  mismatchCase : Bool
  otherKey : String
  currentKey : String
  warnings : List Warning
deriving DecidableEq, Repr

namespace PropertiesI

/-- The inner loop of `setProperty`: the entries of one array are tried in order until one is
found. -/
def checkProperties (tools : PropertyTools) (currentKey : String) : List Property → CheckResult
  | [] =>
    { found := false, mismatchCase := false, otherKey := "", currentKey := currentKey,
      warnings := [] }
  | prop :: rest =>
    if tools.match_ currentKey prop.pattern then
      if prop.deprecated then
        { found := true, mismatchCase := false, otherKey := ""
          currentKey :=
            match prop.deprecatedBy with
            | some newKey => newKey
            | none => currentKey
          warnings := [Warning.processLogger ("deprecated property: " ++ currentKey)] }
      else
        { found := true, mismatchCase := false, otherKey := "", currentKey := currentKey,
          warnings := [] }
    else if tools.match_ (tools.toUpper currentKey) (tools.toUpper prop.pattern) then
      { found := true, mismatchCase := true, otherKey := prop.pattern,
        currentKey := currentKey, warnings := [] }
    else checkProperties tools currentKey rest

/-- The outer loop of `setProperty` over the arrays of the table, for a key whose part before
the first `.` is `pfx`: the key afterwards and the warnings, or the failed assertion. -/
def checkLegal (tools : PropertyTools) (pfx : String) (currentKey : String) :
    List PropertyArray → Except Fault (String × List Warning)
  | [] => .ok (currentKey, [])
  | array :: rest =>
    match beforeDot array.first.pattern with
    | none => .error Fault.assertionFailed
    | some propPrefix =>
      if tools.toUpper propPrefix ≠ tools.toUpper pfx then checkLegal tools pfx currentKey rest
      else
        let r := checkProperties tools currentKey array.properties
        let warning : List Warning :=
          if !r.found then
            [Warning.processLogger ("unknown property: `" ++ r.currentKey ++ "'")]
          else if r.mismatchCase then
            [Warning.processLogger ("unknown property: `" ++ r.currentKey
              ++ "'; did you mean `" ++ r.otherKey ++ "'")]
          else []
        match checkLegal tools pfx r.currentKey rest with
        | .error f => .error f
        | .ok (key, warnings) => .ok (key, r.warnings ++ warning ++ warnings)

/-- The part of `setProperty` that checks if the property is legal: the key afterwards and the
warnings, or the failed assertion. -/
def checkKey (tools : PropertyTools) (currentKey : String) : Except Fault (String × List Warning) :=
  match beforeDot currentKey with
  | some pfx => checkLegal tools pfx currentKey tools.validProps
  | none => .ok (currentKey, [])

/-- `PropertiesI::setProperty(key, value)`. -/
def setProperty (tools : PropertyTools) (p : PropertiesI) (key value : String) :
    Except Stopped (PropertiesI × List Warning) :=
  let currentKey := tools.trim key
  if currentKey.isEmpty then
    .error (Stopped.thrown
      (LocalException.InitializationException "Attempt to set property with empty key"))
  else
    match checkKey tools currentKey with
    | .error f => .error (Stopped.fault f)
    | .ok (legalKey, warnings) =>
      if !value.isEmpty then
        .ok ({ _properties := mapSet legalKey value p._properties }, warnings)
      else .ok ({ _properties := mapErase legalKey p._properties }, warnings)

/-- `PropertiesI::getPropertiesForPrefix(prefix)` (`pfx` is the argument): the dictionary it
returns, as the list of its entries. -/
def getPropertiesForPrefix (p : PropertiesI) (pfx : String) : List (String × String) :=
  (p._properties.filter
      (fun e => pfx.isEmpty || pfx.toList.isPrefixOf e.1.toList)).foldl
    (fun result e => mapSet e.1 e.2 result) []

end PropertiesI

/-- The characters that `parseLine` takes for white space: space, tab, carriage return and line
feed. -/
def isBlank (c : Char) : Prop := c = ' ' ∨ c = '\t' ∨ c = '\r' ∨ c = '\n'

/-- The characters that `parseLine` takes as they are: neither white space nor `#`, `=` or a
backslash. -/
def isPlain (c : Char) : Prop := ¬ isBlank c ∧ c ≠ '#' ∧ c ≠ '=' ∧ c ≠ '\\'

instance (c : Char) : Decidable (isBlank c) := by unfold isBlank; infer_instance

instance (c : Char) : Decidable (isPlain c) := by unfold isPlain; infer_instance

/-- The local variables of `PropertiesI::parseLine`; `inValue` says that `state` is `Value`. -/
structure LineState where
  key : List Char
  value : List Char
  whitespace : List Char
  escapedspace : List Char
  inValue : Bool
deriving DecidableEq, Repr

namespace LineState

/-- What `value += value.length() == 0 ? escapedspace : whitespace` appends. -/
def pending (st : LineState) : List Char :=
  if st.value.isEmpty then st.escapedspace else st.whitespace

/-- The step of the loop of `parseLine` for a backslash followed by the character `c`. -/
def escaped (st : LineState) (c : Char) : LineState :=
  if !st.inValue then
    if c = '\\' ∨ c = '#' ∨ c = '=' then
      { st with key := st.key ++ st.whitespace ++ [c], whitespace := [] }
    else if c = ' ' then
      if st.key.length ≠ 0 then { st with whitespace := st.whitespace ++ [c] } else st
    else { st with key := st.key ++ st.whitespace ++ ['\\', c], whitespace := [] }
  else
    if c = '\\' ∨ c = '#' ∨ c = '=' then
      { st with value := st.value ++ st.pending ++ [c], whitespace := [], escapedspace := [] }
    else if c = ' ' then
      { st with whitespace := st.whitespace ++ [c], escapedspace := st.escapedspace ++ [c] }
    else
      { st with value := st.value ++ st.pending ++ ['\\', c], whitespace := [],
                escapedspace := [] }

/-- The step of the loop of `parseLine` for a backslash that is the last character. -/
def lastBackslash (st : LineState) : LineState :=
  if !st.inValue then { st with key := st.key ++ st.whitespace ++ ['\\'] }
  else { st with value := st.value ++ st.pending ++ ['\\'] }

/-- The step of the loop of `parseLine` for a character `c` other than a backslash and `#`. -/
def plain (st : LineState) (c : Char) : LineState :=
  if !st.inValue then
    if c = ' ' ∨ c = '\t' ∨ c = '\r' ∨ c = '\n' then
      if st.key.length ≠ 0 then { st with whitespace := st.whitespace ++ [c] } else st
    else if c = '=' then { st with whitespace := [], inValue := true }
    else { st with key := st.key ++ st.whitespace ++ [c], whitespace := [] }
  else
    if c = ' ' ∨ c = '\t' ∨ c = '\r' ∨ c = '\n' then
      if st.value.length ≠ 0 then { st with whitespace := st.whitespace ++ [c] } else st
    else
      { st with value := st.value ++ st.pending ++ [c], whitespace := [], escapedspace := [] }

end LineState

/-- The loop of `parseLine` over the characters that are left; it ends at an unescaped `#`. -/
def parseChars (st : LineState) : List Char → LineState
  | [] => st
  | c :: rest =>
    if c = '\\' then
      match rest with
      | [] => st.lastBackslash
      | c1 :: rest1 => parseChars (st.escaped c1) rest1
    else if c = '#' then st
    else parseChars (st.plain c) rest

/-- `PropertiesI::parseLine(line, converter)`. -/
def PropertiesI.parseLine (tools : PropertyTools) (p : PropertiesI) (line : String) :
    Except Stopped (PropertiesI × List Warning) :=
  let st := parseChars
    { key := [], value := [], whitespace := [], escapedspace := [], inValue := false }
    line.toList
  let key := st.key
  let value := st.value ++ st.escapedspace
  if (!st.inValue && key.length ≠ 0) || (st.inValue && key.length = 0) then
    .ok (p, [Warning.processLogger ("invalid config file entry: \"" ++ line ++ "\"")])
  else if key.length = 0 then .ok (p, [])
  else
    PropertiesI.setProperty tools p (tools.UTF8ToNative (String.mk key))
      (tools.UTF8ToNative (String.mk value))

/-- Functions and a table to evaluate `setProperty` and `parseLine` with: `trim` drops the white
space at both ends, `toUpper` maps the characters to upper case, a pattern is matched by the
string equal to it, the table has one array, for the prefix `Ice`, and the converter leaves the
strings as they are. -/
def PropertyTools.simple : PropertyTools where
  trim := fun s => String.mk ((s.toList.dropWhile isSpace).reverse.dropWhile isSpace).reverse
  toUpper := fun s => String.mk (s.toList.map Char.toUpper)
  match_ := fun s pattern => s = pattern
  validProps :=
    [{ first := { pattern := "Ice.Old", deprecated := true, deprecatedBy := some "Ice.New" },
       others := [{ pattern := "Ice.New", deprecated := false, deprecatedBy := none }] }]
  UTF8ToNative := fun s => s

/-! ## `IceSSL::TrustManager` (`cpp/src/IceSSL/TrustManager.cpp`)

The class `DistinguishedName` is not among the sources: its values are those of a type `DN`, and
the two member functions that `verify` calls are handed over in a record. A certificate is given
by what `getSubjectDN()` returns for it. -/

/-- The member functions of `DistinguishedName` that the trust manager calls:
`subjectMatch subject r` is `subject.match(r)` and `toString` the conversion to a string. -/
structure DistinguishedNameCalls (DN : Type) where
  subjectMatch : DN → DN → Bool
  toString : DN → String

/-- The members of `IceSSL::ConnectionInfo` that `verify` reads; `certs` holds the subject of
each certificate. -/
structure ConnectionInfo (DN : Type) where
  incoming : Bool
  adapterName : String
  certs : List DN

/-- The data members of `IceSSL::TrustManager` (the communicator apart); a map is the list of its
entries. -/
structure TrustManager (DN : Type) where
  _traceLevel : Int
  _rejectAll : List DN
  _rejectClient : List DN
  _rejectAllServer : List DN
  _acceptAll : List DN
  _acceptClient : List DN
  _acceptAllServer : List DN
  _rejectServer : List (String × List DN)
  _acceptServer : List (String × List DN)

namespace TrustManager

/-- `TrustManager::match(matchSet, subject)`. -/
def match_ {DN : Type} (calls : DistinguishedNameCalls DN) : List DN → DN → Bool
  | [], _ => false
  | r :: rest, subject => if calls.subjectMatch subject r then true else match_ calls rest subject

/-- The list `reject` that `verify` builds or, with the accepting members, the list `accept`: the
lists of all, then for an incoming connection those of the servers and, if the adapter has a
name, of the adapter, and else those of the clients. -/
def ruleLists {DN : Type} (all client allServer : List DN) (server : List (String × List DN))
    (info : ConnectionInfo DN) : List (List DN) :=
  (if all.length > 0 then [all] else []) ++
  (if info.incoming then
    (if allServer.length > 0 then [allServer] else []) ++
    (if info.adapterName.length > 0 then
      match server.lookup info.adapterName with
      | some l => [l]
      | none => []
    else [])
  else
    (if client.length > 0 then [client] else []))

/-- One of the two loops of `verify` over the lists of `reject` or of `accept`, up to the first
list that the subject matches: whether there is one, and the traces. -/
def matchLists {DN : Type} (calls : DistinguishedNameCalls DN) (traceLevel : Int)
    (heading : String) (subject : DN) : List (List DN) → Bool × List String
  | [] => (false, [])
  | p :: rest =>
    let trace : List String :=
      if traceLevel > 1 then [heading ++ ";".intercalate (p.map calls.toString)] else []
    if match_ calls p subject then (true, trace)
    else
      let r := matchLists calls traceLevel heading subject rest
      (r.1, trace ++ r.2)

/-- `TrustManager::verify(info, desc)`: what it returns and the traces it writes. -/
def verify {DN : Type} (calls : DistinguishedNameCalls DN) (tm : TrustManager DN)
    (info : ConnectionInfo DN) (desc : String) : Bool × List String :=
  let reject := ruleLists tm._rejectAll tm._rejectClient tm._rejectAllServer tm._rejectServer info
  let accept := ruleLists tm._acceptAll tm._acceptClient tm._acceptAllServer tm._acceptServer info
  if reject.isEmpty && accept.isEmpty then (true, [])
  else
    match info.certs with
    | subject :: _ =>
      let trace : List String :=
        if tm._traceLevel > 0 then
          [(if info.incoming then
              "trust manager evaluating client:\nsubject = " ++ calls.toString subject
                ++ "\nadapter = " ++ info.adapterName ++ "\n"
            else
              "trust manager evaluating server:\nsubject = " ++ calls.toString subject ++ "\n")
            ++ desc]
        else []
      let rejected :=
        matchLists calls tm._traceLevel "trust manager rejecting PDNs:\n" subject reject
      if rejected.1 then (false, trace ++ rejected.2)
      else
        let accepted :=
          matchLists calls tm._traceLevel "trust manager accepting PDNs:\n" subject accept
        if accepted.1 then (true, trace ++ rejected.2 ++ accepted.2)
        else (accept.isEmpty, trace ++ rejected.2 ++ accepted.2)
    | [] => (false, [])

/-- The rules of one kind that apply to a connection, in the words of the decision rule: the
global ones and, for an incoming connection, those of the servers and those of the adapter of
the connection, and for an outgoing connection those of the clients. -/
def applicable {DN : Type} (all client allServer : List DN) (server : List (String × List DN))
    (info : ConnectionInfo DN) : List DN :=
  all ++
  (if info.incoming then
    allServer ++
    (if info.adapterName = "" then []
     else
      match server.lookup info.adapterName with
      | some l => l
      | none => [])
  else client)

/-- The reject rules that apply to a connection. -/
def applicableReject {DN : Type} (tm : TrustManager DN) (info : ConnectionInfo DN) : List DN :=
  applicable tm._rejectAll tm._rejectClient tm._rejectAllServer tm._rejectServer info

/-- The accept rules that apply to a connection. -/
def applicableAccept {DN : Type} (tm : TrustManager DN) (info : ConnectionInfo DN) : List DN :=
  applicable tm._acceptAll tm._acceptClient tm._acceptAllServer tm._acceptServer info

/-- What the constructor sees to: no entry of the two maps holds an empty list. -/
def WellFormed {DN : Type} (tm : TrustManager DN) : Prop :=
  (∀ e ∈ tm._rejectServer, e.2 ≠ []) ∧ (∀ e ∈ tm._acceptServer, e.2 ≠ [])

end TrustManager

/-! ## The implicit contexts (`cpp/src/Ice/ImplicitContextI.cpp`)

`Ice::Context` is a `std::map<string, string>`: the list of its entries, in the order of the
keys. -/

/-- `Ice::Context`. -/
abbrev Context := List (String × String)

/-- The data member of `SharedImplicitContext` (the mutex apart). -/
structure SharedImplicitContext where
  _context : Context
deriving DecidableEq, Repr

namespace SharedImplicitContext

/-- `SharedImplicitContext::getContext()`. -/
def getContext (s : SharedImplicitContext) : Context := s._context

end SharedImplicitContext

/-- `PerThreadImplicitContext::Slot`; `context` is `none` for the null pointer. -/
structure Slot where
  context : Option Context
  owner : Int
deriving DecidableEq, Repr

/-- What the constructor `Slot()` makes. -/
def Slot.new : Slot := { context := none, owner := -1 }

/-- The data members of `PerThreadImplicitContext`. -/
structure PerThreadImplicitContext where
  _index : Nat
  _id : Int
deriving DecidableEq, Repr

namespace PerThreadImplicitContext

/-- The end of `getThreadContext(allocate)`, from `Slot& slot = (*sv)[_index]` on, for a slot
vector `sv` longer than `_index`: the vector afterwards and the context returned. -/
def useSlot (c : PerThreadImplicitContext) (sv : List Slot) (allocate : Bool) :
    List Slot × Option Context :=
  let slot := sv.getD c._index Slot.new
  match slot.context with
  | some context =>
    if slot.owner ≠ c._id then (sv.set c._index { context := some [], owner := c._id }, some [])
    else (sv, some context)
  | none =>
    if allocate then (sv.set c._index { context := some [], owner := c._id }, some [])
    else (sv, none)

/-- `PerThreadImplicitContext::getThreadContext(allocate)` in a thread whose slot vector is `sv`
(`none` when `pthread_getspecific` gives null), `pthread_setspecific` returning `setspecific`:
the slot vector of the thread afterwards and the context returned (`none` for null), or the
exception. The counter `_slotVectors` is left out. -/
def getThreadContext (setspecific : Int) (c : PerThreadImplicitContext) (sv : Option (List Slot))
    (allocate : Bool) : Except ThreadException (Option (List Slot) × Option Context) :=
  match sv with
  | none =>
    if !allocate then .ok (none, none)
    else if setspecific ≠ 0 then .error (ThreadException.ThreadSyscallException setspecific)
    else
      let r := c.useSlot (List.replicate (c._index + 1) Slot.new) allocate
      .ok (some r.1, r.2)
  | some v =>
    if v.length ≤ c._index then
      if !allocate then .ok (some v, none)
      else
        let r := c.useSlot (v ++ List.replicate (c._index + 1 - v.length) Slot.new) allocate
        .ok (some r.1, r.2)
    else
      let r := c.useSlot v allocate
      .ok (some r.1, r.2)

/-- `PerThreadImplicitContext::getContext()`: the slot vector of the thread afterwards and the
context returned. -/
def getContext (setspecific : Int) (c : PerThreadImplicitContext) (sv : Option (List Slot)) :
    Except ThreadException (Option (List Slot) × Context) :=
  match c.getThreadContext setspecific sv false with
  | .error e => .error e
  | .ok (sv1, none) => .ok (sv1, [])
  | .ok (sv1, some ctx) => .ok (sv1, ctx)

end PerThreadImplicitContext

/-! ## The getters and the change operations of `Reference`

The header defines the getters of the class `Reference` inline. The getters of the two final
classes and all change operations are declared in the header and defined in a file that is not
among the sources. -/

namespace Reference

/-- `Reference::getSecure()`. -/
def getSecure (r : Reference) : Bool := r._secure

/-- `Reference::getProtocol()`. -/
def getProtocol (r : Reference) : ProtocolVersion := r._protocol

/-- `Reference::getEncoding()`. -/
def getEncoding (r : Reference) : EncodingVersion := r._encoding

/-- `Reference::getIdentity()`. -/
def getIdentity (r : Reference) : Identity := r._identity

/-- `Reference::getFacet()`. -/
def getFacet (r : Reference) : String := r._facet

/-- `Reference::getInstance()`. -/
def getInstance (r : Reference) : InstancePtr := r._instance

/-- `Reference::getContext()`: the map behind the shared context. -/
def getContext (r : Reference) : List (String × String) := r._context

/-- `Reference::getInvocationTimeout()`. -/
def getInvocationTimeout (r : Reference) : Int := r._invocationTimeout

/-- `Reference::getCompress()`. -/
def getCompress (r : Reference) : Option Bool :=
  if r._overrideCompress then some r._compress else none

/-- What the inline getters of `Reference` return for a reference. -/
structure Observed where
  mode : Reference.Mode
  secure : Bool
  protocol : ProtocolVersion
  encoding : EncodingVersion
  identity : Identity
  facet : String
  inst : InstancePtr
  context : List (String × String)
  invocationTimeout : Int
  compress : Option Bool
deriving DecidableEq, Repr

/-- The values of the inline getters of `Reference`. -/
def observe (r : Reference) : Observed :=
  { mode := r.getMode, secure := r.getSecure, protocol := r.getProtocol,
    encoding := r.getEncoding, identity := r.getIdentity, facet := r.getFacet,
    inst := r.getInstance, context := r.getContext,
    invocationTimeout := r.getInvocationTimeout, compress := r.getCompress }

/-- Modelled from the spec: `Reference::changeEncoding`, declared virtual in the header and
defined outside the sources: a new instance equal to this one except for the encoding. -/
def changeEncoding (r : Reference) (newEncoding : EncodingVersion) : Reference :=
  { r with _encoding := newEncoding, _hashInitialized := false }

/-- Modelled from the spec: `Reference::changeCompress`, declared virtual in the header and
defined outside the sources: a new instance equal to this one except for the compress override,
which is forced to the value. -/
def changeCompress (r : Reference) (newCompress : Bool) : Reference :=
  { r with _overrideCompress := true, _compress := newCompress, _hashInitialized := false }

/-- Modelled from the spec: `Reference::changeMode`, declared virtual in the header and defined
outside the sources: a new instance equal to this one except for the mode. -/
def changeMode (r : Reference) (newMode : Reference.Mode) : Reference :=
  { r with _mode := newMode, _hashInitialized := false }

end Reference

namespace RoutableReference

/-- Modelled from the spec: what the getters of `RoutableReference` return for the members of its
own (`getEndpoints`, `getAdapterId`, `getLocatorInfo`, `getRouterInfo`,
`getCollocationOptimized`, `getCacheConnection`, `getPreferSecure`, `getEndpointSelection`,
`getLocatorCacheTimeout`, `getConnectionId`, `getTimeout`); they are declared in the header and
defined outside the sources. -/
structure Observed where
  endpoints : List Nat
  adapterId : String
  locatorInfo : Option Nat
  routerInfo : Option Nat
  collocationOptimized : Bool
  cacheConnection : Bool
  preferSecure : Bool
  endpointSelection : EndpointSelectionType
  locatorCacheTimeout : Int
  connectionId : String
  timeout : Option Int
deriving DecidableEq, Repr

/-- Modelled from the spec: the values of the getters of `RoutableReference` for the members of
its own; each returns the member, and `getTimeout` the timeout if it is overridden, as
`getCompress` does for the compression. -/
def observe (r : RoutableReference) : Observed :=
  { endpoints := r._endpoints, adapterId := r._adapterId, locatorInfo := r._locatorInfo,
    routerInfo := r._routerInfo, collocationOptimized := r._collocationOptimized,
    cacheConnection := r._cacheConnection, preferSecure := r._preferSecure,
    endpointSelection := r._endpointSelection, locatorCacheTimeout := r._locatorCacheTimeout,
    connectionId := r._connectionId,
    timeout := if r._overrideTimeout then some r._timeout else none }

/-- Modelled from the spec: `RoutableReference::changeEncoding`, declared in the header and
defined outside the sources: a new instance equal to this one except for the encoding. -/
def changeEncoding (r : RoutableReference) (newEncoding : EncodingVersion) : RoutableReference :=
  { r with toReference := r.toReference.changeEncoding newEncoding }

/-- Modelled from the spec: `RoutableReference::changeCompress`, declared in the header and
defined outside the sources: a new instance equal to this one except for the compress
override. -/
def changeCompress (r : RoutableReference) (newCompress : Bool) : RoutableReference :=
  { r with toReference := r.toReference.changeCompress newCompress }

/-- Modelled from the spec: `RoutableReference::changeMode`, declared in the header and defined
outside the sources: a new instance equal to this one except for the mode. -/
def changeMode (r : RoutableReference) (newMode : Reference.Mode) : RoutableReference :=
  { r with toReference := r.toReference.changeMode newMode }

/-- Modelled from the spec: `RoutableReference::changeEndpoints`, declared in the header and
defined outside the sources: a new instance with the endpoints and without an adapter id, since
a routable reference has endpoints or an adapter id and not both (the header: `_adapterId` is
empty if the proxy is direct); the other members are those of this one. -/
def changeEndpoints (r : RoutableReference) (newEndpoints : List Nat) : RoutableReference :=
  { r with _endpoints := newEndpoints, _adapterId := "", _hashInitialized := false }

/-- Modelled from the spec: `RoutableReference::changeAdapterId`, declared in the header and
defined outside the sources: a new instance with the adapter id and without endpoints, since a
routable reference has endpoints or an adapter id and not both (the header: `_endpoints` is
empty if the proxy is indirect); the other members are those of this one. -/
def changeAdapterId (r : RoutableReference) (newAdapterId : String) : RoutableReference :=
  { r with _adapterId := newAdapterId, _endpoints := [], _hashInitialized := false }

/-- Modelled from the spec: `RoutableReference::changeLocator`, declared in the header and
defined outside the sources: a new instance equal to this one except for the locator. The
argument and the locator info are handles of the same locator. -/
def changeLocator (r : RoutableReference) (newLocator : Option Nat) : RoutableReference :=
  { r with _locatorInfo := newLocator, _hashInitialized := false }

/-- Modelled from the spec: `RoutableReference::changeRouter`, declared in the header and defined
outside the sources: a new instance equal to this one except for the router. The argument and
the router info are handles of the same router. -/
def changeRouter (r : RoutableReference) (newRouter : Option Nat) : RoutableReference :=
  { r with _routerInfo := newRouter, _hashInitialized := false }

/-- Modelled from the spec: `RoutableReference::changeCollocationOptimized`, declared in the
header and defined outside the sources: a new instance equal to this one except for the flag. -/
def changeCollocationOptimized (r : RoutableReference) (newCollocationOptimized : Bool) :
    RoutableReference :=
  { r with _collocationOptimized := newCollocationOptimized, _hashInitialized := false }

/-- Modelled from the spec: `RoutableReference::changeCacheConnection`, declared in the header
and defined outside the sources: a new instance equal to this one except for the flag. -/
def changeCacheConnection (r : RoutableReference) (newCache : Bool) : RoutableReference :=
  { r with _cacheConnection := newCache, _hashInitialized := false }

/-- Modelled from the spec: `RoutableReference::changePreferSecure`, declared in the header and
defined outside the sources: a new instance equal to this one except for the flag. -/
def changePreferSecure (r : RoutableReference) (newPreferSecure : Bool) : RoutableReference :=
  { r with _preferSecure := newPreferSecure, _hashInitialized := false }

/-- Modelled from the spec: `RoutableReference::changeEndpointSelection`, declared in the header
and defined outside the sources: a new instance equal to this one except for the policy. -/
def changeEndpointSelection (r : RoutableReference) (newType : EndpointSelectionType) :
    RoutableReference :=
  { r with _endpointSelection := newType, _hashInitialized := false }

/-- Modelled from the spec: `RoutableReference::changeLocatorCacheTimeout`, declared in the
header and defined outside the sources: a new instance equal to this one except for the
timeout of the locator cache. -/
def changeLocatorCacheTimeout (r : RoutableReference) (newTimeout : Int) : RoutableReference :=
  { r with _locatorCacheTimeout := newTimeout, _hashInitialized := false }

/-- The invariant that the data model gives for the endpoints and the adapter id: not both are
there. -/
def EndpointsOrAdapterId (r : RoutableReference) : Prop :=
  ¬ (r._endpoints ≠ [] ∧ r._adapterId ≠ "")

end RoutableReference

namespace FixedReference

end FixedReference

namespace ReferencePtr

/-- The virtual `changeEncoding` through the pointer: `FixedReference` has the function of
`Reference`, `RoutableReference` its own. -/
def changeEncoding (p : ReferencePtr) (newEncoding : EncodingVersion) : ReferencePtr :=
  match p with
  | fixed r => fixed { r with toReference := r.toReference.changeEncoding newEncoding }
  | routable r => routable (r.changeEncoding newEncoding)

/-- The virtual `changeCompress` through the pointer: `FixedReference` has the function of
`Reference`, `RoutableReference` its own. -/
def changeCompress (p : ReferencePtr) (newCompress : Bool) : ReferencePtr :=
  match p with
  | fixed r => fixed { r with toReference := r.toReference.changeCompress newCompress }
  | routable r => routable (r.changeCompress newCompress)

/-- The virtual `changeMode` through the pointer: `FixedReference` has the function of
`Reference`, `RoutableReference` its own. -/
def changeMode (p : ReferencePtr) (newMode : Reference.Mode) : ReferencePtr :=
  match p with
  | fixed r => fixed { r with toReference := r.toReference.changeMode newMode }
  | routable r => routable (r.changeMode newMode)

end ReferencePtr

/-- In the words of the spec: whether the connection `c` is registered once the pending changes
have been applied to the registered set `s` in the order of their arrival. The last change that
names `c` decides, an add registering it and a removal not; when no change names `c`, it is
registered exactly if it was. -/
def registeredAfter (s : List ConnectionIPtr) (changes : List (ConnectionIPtr × Bool))
    (c : ConnectionIPtr) : Bool :=
  match changes.reverse.find? (fun p => p.1 == c) with
  | some p => p.2
  | none => decide (c ∈ s)

/-- The decimal numeral with the digits `digits`, the most significant first, after a minus sign
when `negative`. -/
def numeral (negative : Bool) (digits : List Nat) : String :=
  String.mk ((if negative then ['-'] else []) ++ digits.map Nat.digitChar)

/-- The integer that the decimal numeral with these digits denotes. -/
def numeralValue (negative : Bool) (digits : List Nat) : Int :=
  if negative then -((Nat.ofDigits 10 digits.reverse : Nat) : Int)
  else ((Nat.ofDigits 10 digits.reverse : Nat) : Int)

/-- In the words of the spec, the integer value of a property: the string `v` is a decimal
numeral, an optional minus sign and one or more decimal digits, that denotes `n`, and `n` is a
value of `int`. -/
def IsNumeral (v : String) (n : Int) : Prop :=
  ∃ (negative : Bool) (digits : List Nat), digits ≠ [] ∧ (∀ d ∈ digits, d < 10) ∧
    v = numeral negative digits ∧ n = numeralValue negative digits ∧
    -2147483648 ≤ n ∧ n ≤ 2147483647

/-! ## Lemmas on the set operations -/

theorem mem_setInsert (c x : ConnectionIPtr) (s : List ConnectionIPtr) :
    x ∈ setInsert c s ↔ x = c ∨ x ∈ s := by
  induction s with
  | nil => simp [setInsert]
  | cons y ys ih =>
    unfold setInsert
    split_ifs with h1 h2
    · simp
    · subst h2; simp
    · simp only [List.mem_cons, ih]; tauto

theorem mem_setErase (c x : ConnectionIPtr) (s : List ConnectionIPtr) :
    x ∈ setErase c s ↔ x ≠ c ∧ x ∈ s := by
  simp [setErase, and_comm]

theorem setInsert_sorted (c : ConnectionIPtr) (s : List ConnectionIPtr)
    (hs : s.Sorted (· < ·)) : (setInsert c s).Sorted (· < ·) := by
  induction s with
  | nil => simp [setInsert]
  | cons y ys ih =>
    have hys := (List.sorted_cons.1 hs).2
    have hy := (List.sorted_cons.1 hs).1
    unfold setInsert
    split_ifs with h1 h2
    · refine List.sorted_cons.2 ⟨?_, hs⟩
      intro b hb
      rcases List.mem_cons.1 hb with rfl | hb
      · exact h1
      · exact lt_trans h1 (hy b hb)
    · exact hs
    · have hyc : y < c := lt_of_le_of_ne (not_lt.1 h1) (Ne.symm h2)
      refine List.sorted_cons.2 ⟨?_, ih hys⟩
      intro b hb
      rcases (mem_setInsert c b ys).1 hb with rfl | hb
      · exact hyc
      · exact hy b hb

theorem setErase_sorted (c : ConnectionIPtr) (s : List ConnectionIPtr)
    (hs : s.Sorted (· < ·)) : (setErase c s).Sorted (· < ·) :=
  List.Pairwise.sublist (List.filter_sublist s) hs

/-- Two sets with the same elements are the same list. -/
theorem sorted_ext {s t : List ConnectionIPtr} (hs : s.Sorted (· < ·)) (ht : t.Sorted (· < ·))
    (h : ∀ x, x ∈ s ↔ x ∈ t) : s = t :=
  List.eq_of_perm_of_sorted ((List.perm_ext_iff_of_nodup hs.nodup ht.nodup).2 h) hs ht

/-! ## Lemmas on the observations -/

theorem monitorCalls_append (a b : List Event) :
    monitorCalls (a ++ b) = monitorCalls a ++ monitorCalls b := by
  induction a with
  | nil => rfl
  | cons e es ih => cases e <;> simp [monitorCalls, ih]

theorem timerCalls_append (a b : List Event) :
    timerCalls (a ++ b) = timerCalls a ++ timerCalls b := by
  induction a with
  | nil => rfl
  | cons e es ih => cases e <;> simp [timerCalls, ih]

theorem monitorCalls_monitorConnection (mon : MonitorFn) (now : Int) (m : FactoryACMMonitor)
    (c : ConnectionIPtr) :
    monitorCalls (FactoryACMMonitor.monitorConnection mon now m c) = [(c, now, m._config)] := by
  unfold FactoryACMMonitor.monitorConnection
  cases mon c now m._config <;> cases h : m._instance <;>
    simp [monitorCalls, FactoryACMMonitor.handleException,
      FactoryACMMonitor.handleExceptionUnknown, h]

theorem timerCalls_monitorConnection (mon : MonitorFn) (now : Int) (m : FactoryACMMonitor)
    (c : ConnectionIPtr) :
    timerCalls (FactoryACMMonitor.monitorConnection mon now m c) = [] := by
  unfold FactoryACMMonitor.monitorConnection
  cases mon c now m._config <;> cases h : m._instance <;>
    simp [timerCalls, FactoryACMMonitor.handleException,
      FactoryACMMonitor.handleExceptionUnknown, h]

theorem monitorCalls_monitorConnections (mon : MonitorFn) (now : Int) (m : FactoryACMMonitor)
    (s : List ConnectionIPtr) :
    monitorCalls (FactoryACMMonitor.monitorConnections mon now m s)
      = s.map (fun c => (c, now, m._config)) := by
  induction s with
  | nil => rfl
  | cons c cs ih =>
    simp [FactoryACMMonitor.monitorConnections, monitorCalls_append,
      monitorCalls_monitorConnection, ih]

theorem timerCalls_monitorConnections (mon : MonitorFn) (now : Int) (m : FactoryACMMonitor)
    (s : List ConnectionIPtr) :
    timerCalls (FactoryACMMonitor.monitorConnections mon now m s) = [] := by
  induction s with
  | nil => rfl
  | cons c cs ih =>
    simp [FactoryACMMonitor.monitorConnections, timerCalls_append,
      timerCalls_monitorConnection, ih]

theorem applyChange_sorted (s : List ConnectionIPtr) (p : ConnectionIPtr × Bool)
    (hs : s.Sorted (· < ·)) : (FactoryACMMonitor.applyChange s p).Sorted (· < ·) := by
  unfold FactoryACMMonitor.applyChange
  split_ifs
  · exact setInsert_sorted _ _ hs
  · exact setErase_sorted _ _ hs

theorem applyChanges_sorted (q : List (ConnectionIPtr × Bool)) (s : List ConnectionIPtr)
    (hs : s.Sorted (· < ·)) : (FactoryACMMonitor.applyChanges s q).Sorted (· < ·) := by
  induction q generalizing s with
  | nil => exact hs
  | cons p ps ih => exact ih _ (applyChange_sorted s p hs)

theorem applyChanges_append (s : List ConnectionIPtr) (q r : List (ConnectionIPtr × Bool)) :
    FactoryACMMonitor.applyChanges s (q ++ r)
      = FactoryACMMonitor.applyChanges (FactoryACMMonitor.applyChanges s q) r := by
  simp [FactoryACMMonitor.applyChanges, List.foldl_append]

/-- The state and the events of a tick of a monitor that has not been destroyed. -/
theorem runTimerTask_live (mon : MonitorFn) (now : Int) (m : FactoryACMMonitor)
    (inst : InstancePtr) (hi : m._instance = some inst) :
    FactoryACMMonitor.runTimerTask mon now m =
      .ok ({ m with _connections := FactoryACMMonitor.applyChanges m._connections m._changes,
                    _changes := [] },
           if (FactoryACMMonitor.applyChanges m._connections m._changes).isEmpty
           then [Event.cancel]
           else FactoryACMMonitor.monitorConnections mon now
                  { m with _connections :=
                             FactoryACMMonitor.applyChanges m._connections m._changes,
                           _changes := [] }
                  (FactoryACMMonitor.applyChanges m._connections m._changes)) := by
  unfold FactoryACMMonitor.runTimerTask
  simp only [hi]
  split_ifs <;> rfl

/-- In a list without repetition, each member is counted once in the calls of `monitor` made on
the list. -/
theorem count_monitor_map (s : List ConnectionIPtr) (now : Int) (config : ACMConfig)
    (hs : s.Nodup) (c : ConnectionIPtr) (hc : c ∈ s) :
    ((s.map (fun x => (x, now, config))).map Prod.fst).count c = 1 := by
  have : (s.map (fun x => (x, now, config))).map Prod.fst = s := by
    simp [List.map_map, Function.comp_def]
  rw [this]
  exact List.count_eq_one_of_mem hs hc

/-! ## Lemmas on `add`, `remove` and sequences of calls -/

theorem isEmpty_eq_false_of_ne_nil {s : List ConnectionIPtr} (h : s ≠ []) : s.isEmpty = false := by
  cases s with
  | nil => exact absurd rfl h
  | cons x xs => rfl

theorem add_of_nonempty (m : FactoryACMMonitor) (c : ConnectionIPtr)
    (hT : m._config.timeout ≠ 0) (hS : m._connections ≠ []) :
    FactoryACMMonitor.add m c = .ok ({ m with _changes := m._changes ++ [(c, true)] }, []) := by
  simp [FactoryACMMonitor.add, hT, isEmpty_eq_false_of_ne_nil hS]

theorem add_of_empty (m : FactoryACMMonitor) (c : ConnectionIPtr) (inst : InstancePtr)
    (hi : m._instance = some inst) (hT : m._config.timeout ≠ 0) (hS : m._connections = []) :
    FactoryACMMonitor.add m c
      = .ok ({ m with _connections := [c] }, [Event.scheduleRepeated (halfTimeout m._config)]) := by
  simp [FactoryACMMonitor.add, hT, hS, hi, setInsert]

theorem remove_of_live (m : FactoryACMMonitor) (c : ConnectionIPtr) (inst : InstancePtr)
    (hi : m._instance = some inst) (hT : m._config.timeout ≠ 0) :
    FactoryACMMonitor.remove m c
      = .ok ({ m with _changes := m._changes ++ [(c, false)] }, []) := by
  simp [FactoryACMMonitor.remove, hT, hi]

theorem applyCallsInOrder_eq (calls : List Call) (s : List ConnectionIPtr) :
    applyCallsInOrder s calls = FactoryACMMonitor.applyChanges s (calls.map Call.toChange) := by
  induction calls generalizing s with
  | nil => rfl
  | cons call rest ih =>
    cases call <;>
      simp [applyCallsInOrder, ih, FactoryACMMonitor.applyChanges, FactoryACMMonitor.applyChange,
        Call.toChange]

/-- While the registered set is non-empty, every call is queued and nothing else happens. -/
theorem runCalls_of_nonempty (calls : List Call) (m : FactoryACMMonitor) (inst : InstancePtr)
    (hi : m._instance = some inst) (hT : m._config.timeout ≠ 0) (hS : m._connections ≠ []) :
    runCalls m calls
      = .ok ({ m with _changes := m._changes ++ calls.map Call.toChange }, []) := by
  induction calls generalizing m with
  | nil => simp [runCalls]
  | cons call rest ih =>
    cases call with
    | add c =>
      have h := ih { m with _changes := m._changes ++ [(c, true)] } hi hT hS
      simp only [runCalls, add_of_nonempty m c hT hS, h]
      simp [Call.toChange]
    | remove c =>
      have h := ih { m with _changes := m._changes ++ [(c, false)] } hi hT hS
      simp only [runCalls, remove_of_live m c inst hi hT, h]
      simp [Call.toChange]

/-- Removals do not change the empty set. -/
theorem applyChanges_nil_of_removals (q : List (ConnectionIPtr × Bool))
    (hq : ∀ p ∈ q, p.2 = false) : FactoryACMMonitor.applyChanges [] q = [] := by
  induction q with
  | nil => rfl
  | cons p ps ih =>
    have hp : p.2 = false := hq p (List.mem_cons_self _ _)
    have hps : ∀ p ∈ ps, p.2 = false := fun x hx => hq x (List.mem_cons_of_mem _ hx)
    have := ih hps
    simp only [FactoryACMMonitor.applyChanges] at this ⊢
    simp [List.foldl_cons, FactoryACMMonitor.applyChange, hp, setErase, this]

/-- Removals of other connections do not change a singleton set. -/
theorem applyChanges_singleton_of_removals (c : ConnectionIPtr) (q : List (ConnectionIPtr × Bool))
    (hq : ∀ p ∈ q, p.2 = false) (hc : c ∉ q.map Prod.fst) :
    FactoryACMMonitor.applyChanges [c] q = [c] := by
  induction q with
  | nil => rfl
  | cons p ps ih =>
    have hp : p.2 = false := hq p (List.mem_cons_self _ _)
    have hps : ∀ p ∈ ps, p.2 = false := fun x hx => hq x (List.mem_cons_of_mem _ hx)
    have hcp : c ≠ p.1 := fun h => hc (by simp [h])
    have hcps : c ∉ ps.map Prod.fst := fun h => hc (by
      rw [List.map_cons]; exact List.mem_cons_of_mem _ h)
    have := ih hps hcps
    simp only [FactoryACMMonitor.applyChanges] at this ⊢
    simp [List.foldl_cons, FactoryACMMonitor.applyChange, hp, setErase, hcp, this]

/-- From an empty registered set with only removals pending: the calls return, and the set and the
changes they leave give, at the next tick, the set of the calls applied in order, provided the
first `add` names a connection that no earlier removal names. -/
theorem runCalls_of_empty (calls : List Call) (m : FactoryACMMonitor) (inst : InstancePtr)
    (hi : m._instance = some inst) (hT : m._config.timeout ≠ 0) (hS : m._connections = [])
    (hq : ∀ p ∈ m._changes, p.2 = false)
    (hsafe : firstAddNotRemoved (m._changes.map Prod.fst) calls = true) :
    ∃ m1 ev1, runCalls m calls = .ok (m1, ev1) ∧ m1._instance = some inst ∧
      FactoryACMMonitor.applyChanges m1._connections m1._changes
        = applyCallsInOrder [] calls := by
  induction calls generalizing m with
  | nil =>
    refine ⟨m, [], rfl, hi, ?_⟩
    rw [hS]
    exact applyChanges_nil_of_removals _ hq
  | cons call rest ih =>
    cases call with
    | remove d =>
      have hq1 : ∀ p ∈ m._changes ++ [(d, false)], p.2 = false := by
        intro p hp
        rcases List.mem_append.1 hp with h | h
        · exact hq p h
        · simp at h; simp [h]
      have hsafe1 : firstAddNotRemoved ((m._changes ++ [(d, false)]).map Prod.fst) rest
          = true := by
        simpa [firstAddNotRemoved] using hsafe
      obtain ⟨m1, ev1, h1, h2, h3⟩ :=
        ih { m with _changes := m._changes ++ [(d, false)] } hi hT hS hq1 hsafe1
      refine ⟨m1, [] ++ ev1, ?_, h2, ?_⟩
      · simp only [runCalls, remove_of_live m d inst hi hT, h1]
      · rw [h3]; simp [applyCallsInOrder, setErase]
    | add c =>
      have hc : c ∉ m._changes.map Prod.fst := by
        simpa [firstAddNotRemoved] using hsafe
      have hne : ({ m with _connections := [c] } : FactoryACMMonitor)._connections ≠ [] := by
        simp
      have h := runCalls_of_nonempty rest { m with _connections := [c] } inst hi hT hne
      refine ⟨{ m with _connections := [c], _changes := m._changes ++ rest.map Call.toChange },
        [Event.scheduleRepeated (halfTimeout m._config)] ++ [], ?_, hi, ?_⟩
      · simp only [runCalls, add_of_empty m c inst hi hT hS, h]
      · show FactoryACMMonitor.applyChanges [c] (m._changes ++ rest.map Call.toChange) = _
        rw [applyChanges_append, applyChanges_singleton_of_removals c _ hq hc]
        simp [applyCallsInOrder, applyCallsInOrder_eq, setInsert]

/-! ## Lemmas on a connection that the pending changes do not name -/

theorem setErase_setInsert_of_not_mem (c : ConnectionIPtr) (s : List ConnectionIPtr)
    (hs : s.Sorted (· < ·)) (hc : c ∉ s) : setErase c (setInsert c s) = s := by
  refine sorted_ext (setErase_sorted _ _ (setInsert_sorted _ _ hs)) hs ?_
  intro x
  rw [mem_setErase, mem_setInsert]
  constructor
  · rintro ⟨hne, h | h⟩
    · exact absurd h hne
    · exact h
  · intro h
    exact ⟨fun hx => hc (hx ▸ h), Or.inr h⟩

theorem applyChange_setInsert_comm (c : ConnectionIPtr) (s : List ConnectionIPtr)
    (p : ConnectionIPtr × Bool) (hs : s.Sorted (· < ·)) (hp : p.1 ≠ c) :
    FactoryACMMonitor.applyChange (setInsert c s) p
      = setInsert c (FactoryACMMonitor.applyChange s p) := by
  refine sorted_ext (applyChange_sorted _ _ (setInsert_sorted _ _ hs))
    (setInsert_sorted _ _ (applyChange_sorted _ _ hs)) ?_
  intro x
  unfold FactoryACMMonitor.applyChange
  split_ifs
  · simp only [mem_setInsert]; tauto
  · simp only [mem_setInsert, mem_setErase]
    constructor
    · rintro ⟨hne, h | h⟩
      · exact Or.inl h
      · exact Or.inr ⟨hne, h⟩
    · rintro (h | ⟨hne, h⟩)
      · exact ⟨fun hx => hp (hx ▸ h ▸ rfl), Or.inl h⟩
      · exact ⟨hne, Or.inr h⟩

theorem applyChanges_setInsert_comm (c : ConnectionIPtr) (q : List (ConnectionIPtr × Bool))
    (s : List ConnectionIPtr) (hs : s.Sorted (· < ·)) (hq : ∀ p ∈ q, p.1 ≠ c) :
    FactoryACMMonitor.applyChanges (setInsert c s) q
      = setInsert c (FactoryACMMonitor.applyChanges s q) := by
  induction q generalizing s with
  | nil => rfl
  | cons p ps ih =>
    have hp : p.1 ≠ c := hq p (List.mem_cons_self _ _)
    have hps : ∀ p ∈ ps, p.1 ≠ c := fun x hx => hq x (List.mem_cons_of_mem _ hx)
    show FactoryACMMonitor.applyChanges (FactoryACMMonitor.applyChange (setInsert c s) p) ps = _
    rw [applyChange_setInsert_comm c s p hs hp, ih _ (applyChange_sorted s p hs) hps]
    rfl

theorem not_mem_applyChanges (c : ConnectionIPtr) (q : List (ConnectionIPtr × Bool))
    (s : List ConnectionIPtr) (hc : c ∉ s) (hq : ∀ p ∈ q, p.1 ≠ c) :
    c ∉ FactoryACMMonitor.applyChanges s q := by
  induction q generalizing s with
  | nil => exact hc
  | cons p ps ih =>
    have hp : p.1 ≠ c := hq p (List.mem_cons_self _ _)
    have hps : ∀ p ∈ ps, p.1 ≠ c := fun x hx => hq x (List.mem_cons_of_mem _ hx)
    refine ih (FactoryACMMonitor.applyChange s p) ?_ hps
    unfold FactoryACMMonitor.applyChange
    split_ifs
    · rw [mem_setInsert]
      rintro (h | h)
      · exact hp h.symm
      · exact hc h
    · rw [mem_setErase]
      exact fun h => hc h.2

/-- The set that a tick reaches when `c`, which is not registered and which the pending changes do
not name, is inserted before the changes and erased after them. -/
theorem applyChanges_insert_erase (c : ConnectionIPtr) (q : List (ConnectionIPtr × Bool))
    (s : List ConnectionIPtr) (hs : s.Sorted (· < ·)) (hc : c ∉ s) (hq : ∀ p ∈ q, p.1 ≠ c) :
    FactoryACMMonitor.applyChanges (setInsert c s) (q ++ [(c, false)])
      = FactoryACMMonitor.applyChanges s q ∧
    FactoryACMMonitor.applyChanges s (q ++ [(c, true)] ++ [(c, false)])
      = FactoryACMMonitor.applyChanges s q := by
  have key : setErase c (setInsert c (FactoryACMMonitor.applyChanges s q))
      = FactoryACMMonitor.applyChanges s q :=
    setErase_setInsert_of_not_mem c _ (applyChanges_sorted q s hs) (not_mem_applyChanges c q s hc hq)
  constructor
  · rw [applyChanges_append, applyChanges_setInsert_comm c q s hs hq]
    exact key
  · rw [applyChanges_append, applyChanges_append]
    exact key

/-- A tick of a live monitor that leaves a non-empty set: what it returns and whom it calls. -/
theorem runTimerTask_monitors (mon : MonitorFn) (now : Int) (m : FactoryACMMonitor)
    (inst : InstancePtr) (hi : m._instance = some inst) (hs : m._connections.Sorted (· < ·))
    (hne : FactoryACMMonitor.applyChanges m._connections m._changes ≠ []) :
    ∃ m1 ev, FactoryACMMonitor.runTimerTask mon now m = .ok (m1, ev) ∧
      m1._instance = some inst ∧ m1._config = m._config ∧ m1._changes = [] ∧
      m1._connections = FactoryACMMonitor.applyChanges m._connections m._changes ∧
      monitorCalls ev = m1._connections.map (fun c => (c, now, m._config)) ∧
      (∀ c ∈ m1._connections, ((monitorCalls ev).map Prod.fst).count c = 1) := by
  have hnd := (applyChanges_sorted m._changes m._connections hs).nodup
  have hcalls :
      monitorCalls
        (if (FactoryACMMonitor.applyChanges m._connections m._changes).isEmpty
         then [Event.cancel]
         else FactoryACMMonitor.monitorConnections mon now
           { m with _connections := FactoryACMMonitor.applyChanges m._connections m._changes,
                    _changes := [] }
           (FactoryACMMonitor.applyChanges m._connections m._changes))
      = (FactoryACMMonitor.applyChanges m._connections m._changes).map
          (fun c => (c, now, m._config)) := by
    rw [isEmpty_eq_false_of_ne_nil hne]
    exact monitorCalls_monitorConnections mon now _ _
  refine ⟨_, _, runTimerTask_live mon now m inst hi, hi, rfl, rfl, rfl, hcalls, ?_⟩
  intro c hc
  rw [hcalls]
  exact count_monitor_map _ now m._config hnd c hc

/-- A tick of a live monitor: the state it leaves and the calls of `monitor` it makes. -/
theorem runTimerTask_calls (mon : MonitorFn) (now : Int) (m : FactoryACMMonitor)
    (inst : InstancePtr) (hi : m._instance = some inst) :
    ∃ m1 ev, FactoryACMMonitor.runTimerTask mon now m = .ok (m1, ev) ∧
      m1._connections = FactoryACMMonitor.applyChanges m._connections m._changes ∧
      monitorCalls ev = m1._connections.map (fun c => (c, now, m._config)) := by
  refine ⟨_, _, runTimerTask_live mon now m inst hi, rfl, ?_⟩
  by_cases he : FactoryACMMonitor.applyChanges m._connections m._changes = []
  · simp [he, monitorCalls]
  · rw [isEmpty_eq_false_of_ne_nil he]
    exact monitorCalls_monitorConnections mon now _ _

/-! ## Claims -/

/-- C1: let a monitor that has not been destroyed run a tick that leaves a non-empty registered
set `S` (with no change pending, `S` is the set before the tick). Whatever each call of `monitor`
does (return, throw a `std::exception`, throw anything else), the tick returns, it has called
`monitor` once on every connection of `S`, and the registered set is `S`; the next tick, whatever
`monitor` does then, again returns, leaves `S` and calls `monitor` once on every connection of
`S`. -/
theorem C1_monitor_fault_isolation (mon mon2 : MonitorFn) (now now2 : Int)
    (m : FactoryACMMonitor) (inst : InstancePtr) (hi : m._instance = some inst)
    (hs : m._connections.Sorted (· < ·))
    (hne : FactoryACMMonitor.applyChanges m._connections m._changes ≠ []) :
    ∃ m1 ev, FactoryACMMonitor.runTimerTask mon now m = .ok (m1, ev) ∧
      m1._connections = FactoryACMMonitor.applyChanges m._connections m._changes ∧
      (m._changes = [] → m1._connections = m._connections) ∧
      monitorCalls ev = m1._connections.map (fun c => (c, now, m._config)) ∧
      (∀ c ∈ m1._connections, ((monitorCalls ev).map Prod.fst).count c = 1) ∧
      ∃ m2 ev2, FactoryACMMonitor.runTimerTask mon2 now2 m1 = .ok (m2, ev2) ∧
        m2._connections = m1._connections ∧
        monitorCalls ev2 = m1._connections.map (fun c => (c, now2, m._config)) ∧
        (∀ c ∈ m1._connections, ((monitorCalls ev2).map Prod.fst).count c = 1) := by
  obtain ⟨m1, ev, h1, hi1, hc1, hq1, hS1, hm1, hn1⟩ :=
    runTimerTask_monitors mon now m inst hi hs hne
  have hs1 : m1._connections.Sorted (· < ·) := by
    rw [hS1]; exact applyChanges_sorted _ _ hs
  have hne1 : FactoryACMMonitor.applyChanges m1._connections m1._changes ≠ [] := by
    rw [hq1, hS1]; exact hne
  obtain ⟨m2, ev2, h2, _, _, _, hS2, hm2, hn2⟩ :=
    runTimerTask_monitors mon2 now2 m1 inst hi1 hs1 hne1
  have hS21 : m2._connections = m1._connections := by
    rw [hS2, hq1]; rfl
  refine ⟨m1, ev, h1, hS1, ?_, hm1, hn1, m2, ev2, h2, hS21, ?_, ?_⟩
  · intro hq
    rw [hS1, hq]; rfl
  · rw [hm2, hS21, hc1]
  · intro c hc
    exact hn2 c (hS21 ▸ hc)

theorem C1_monitor_fault_isolation_witness :
    ∃ m1 ev, FactoryACMMonitor.runTimerTask
          (fun c _ _ => if c = 2 then MonitorOutcome.throwsException "lost"
                        else if c = 3 then MonitorOutcome.throwsOther
                        else MonitorOutcome.returns) 5
          ⟨some 1, ⟨2, .HeartbeatOnDispatch, .CloseOnInvocation⟩, [1, 2, 3], [], []⟩
        = .ok (m1, ev) ∧
      m1._connections = FactoryACMMonitor.applyChanges [1, 2, 3] [] ∧
      (([] : List (ConnectionIPtr × Bool)) = [] → m1._connections = [1, 2, 3]) ∧
      monitorCalls ev
        = m1._connections.map
            (fun c => (c, 5, (⟨2, .HeartbeatOnDispatch, .CloseOnInvocation⟩ : ACMConfig))) ∧
      (∀ c ∈ m1._connections, ((monitorCalls ev).map Prod.fst).count c = 1) ∧
      ∃ m2 ev2, FactoryACMMonitor.runTimerTask (fun _ _ _ => MonitorOutcome.returns) 6 m1
          = .ok (m2, ev2) ∧
        m2._connections = m1._connections ∧
        monitorCalls ev2
          = m1._connections.map
              (fun c => (c, 6, (⟨2, .HeartbeatOnDispatch, .CloseOnInvocation⟩ : ACMConfig))) ∧
        (∀ c ∈ m1._connections, ((monitorCalls ev2).map Prod.fst).count c = 1) :=
  C1_monitor_fault_isolation
    (fun c _ _ => if c = 2 then MonitorOutcome.throwsException "lost"
                  else if c = 3 then MonitorOutcome.throwsOther
                  else MonitorOutcome.returns)
    (fun _ _ _ => MonitorOutcome.returns) 5 6
    ⟨some 1, ⟨2, .HeartbeatOnDispatch, .CloseOnInvocation⟩, [1, 2, 3], [], []⟩ 1 rfl
    (by decide) (by decide)

/-- C2 fails as stated: on a live monitor with timeout 60 s, an empty registered set and no
pending change, `remove(7)` is queued, the following `add(7)` is inserted directly, and the tick
applies the queued removal after it: the registered set is empty (and the timer task is
cancelled), whereas the two calls applied in arrival order give the set holding 7. -/
theorem C2_remove_before_direct_add_not_fifo :
    runCalls ⟨some 1, ⟨60, .HeartbeatOnDispatch, .CloseOnInvocation⟩, [], [], []⟩
        [Call.remove 7, Call.add 7]
      = .ok (⟨some 1, ⟨60, .HeartbeatOnDispatch, .CloseOnInvocation⟩, [7], [(7, false)], []⟩,
             [Event.scheduleRepeated 30000000000]) ∧
    FactoryACMMonitor.runTimerTask (fun _ _ _ => MonitorOutcome.returns) 0
        ⟨some 1, ⟨60, .HeartbeatOnDispatch, .CloseOnInvocation⟩, [7], [(7, false)], []⟩
      = .ok (⟨some 1, ⟨60, .HeartbeatOnDispatch, .CloseOnInvocation⟩, [], [], []⟩,
             [Event.cancel]) ∧
    applyCallsInOrder [] [Call.remove 7, Call.add 7] = [7] := by
  exact ⟨rfl, rfl, rfl⟩

/-- C2 (amended): on a monitor that has not been destroyed, with a non-zero timeout, let the calls
of a finite sequence of `add`/`remove` be made and then a tick run. If the registered set `S` is
non-empty when the calls start, or it is empty, only removals are pending and the first `add` of
the sequence names a connection that no removal pending or made before it names, then the calls
and the tick return, the registered set after the tick is the set obtained from `S` by the pending
changes and then the calls, applied one by one in arrival order, and no change is pending. -/
theorem C2_fifo_pending_changes (mon : MonitorFn) (now : Int) (m : FactoryACMMonitor)
    (inst : InstancePtr) (calls : List Call)
    (hi : m._instance = some inst) (hT : m._config.timeout ≠ 0)
    (hc : m._connections ≠ [] ∨
      (m._connections = [] ∧ (∀ p ∈ m._changes, p.2 = false) ∧
        firstAddNotRemoved (m._changes.map Prod.fst) calls = true)) :
    ∃ m1 ev1 m2 ev2, runCalls m calls = .ok (m1, ev1) ∧
      FactoryACMMonitor.runTimerTask mon now m1 = .ok (m2, ev2) ∧
      m2._connections
        = applyCallsInOrder (FactoryACMMonitor.applyChanges m._connections m._changes) calls ∧
      m2._changes = [] := by
  rcases hc with hS | ⟨hS, hq, hsafe⟩
  · refine ⟨_, _, _, _, runCalls_of_nonempty calls m inst hi hT hS,
      runTimerTask_live mon now _ inst hi, ?_, rfl⟩
    show FactoryACMMonitor.applyChanges m._connections (m._changes ++ calls.map Call.toChange) = _
    rw [applyChanges_append, applyCallsInOrder_eq]
  · obtain ⟨m1, ev1, h1, h2, h3⟩ := runCalls_of_empty calls m inst hi hT hS hq hsafe
    refine ⟨m1, ev1, _, _, h1, runTimerTask_live mon now m1 inst h2, ?_, rfl⟩
    show FactoryACMMonitor.applyChanges m1._connections m1._changes = _
    rw [h3, hS, applyChanges_nil_of_removals _ hq]

theorem C2_fifo_pending_changes_witness :
    ∃ m1 ev1 m2 ev2,
      runCalls ⟨some 1, ⟨60, .HeartbeatOnDispatch, .CloseOnInvocation⟩, [], [(7, false)], []⟩
          [Call.remove 3, Call.add 5, Call.add 3, Call.remove 5, Call.add 4]
        = .ok (m1, ev1) ∧
      FactoryACMMonitor.runTimerTask (fun _ _ _ => MonitorOutcome.throwsOther) 9 m1
        = .ok (m2, ev2) ∧
      m2._connections
        = applyCallsInOrder (FactoryACMMonitor.applyChanges [] [(7, false)])
            [Call.remove 3, Call.add 5, Call.add 3, Call.remove 5, Call.add 4] ∧
      m2._changes = [] :=
  C2_fifo_pending_changes (fun _ _ _ => MonitorOutcome.throwsOther) 9
    ⟨some 1, ⟨60, .HeartbeatOnDispatch, .CloseOnInvocation⟩, [], [(7, false)], []⟩ 1
    [Call.remove 3, Call.add 5, Call.add 3, Call.remove 5, Call.add 4] rfl (by decide)
    (Or.inr ⟨rfl, by decide, by decide⟩)

/-- C3: when the timeout of the configuration is zero, `add(c)` and `remove(c)` return the
monitor as it was (registered set, pending changes and reaped list) and make no call on the timer
or on anything else; in particular an empty registered set still has size 0 after `add`. -/
theorem C3_disabled_add_remove_noop (m : FactoryACMMonitor) (c : ConnectionIPtr)
    (h0 : m._config.timeout = 0) :
    FactoryACMMonitor.add m c = .ok (m, []) ∧ FactoryACMMonitor.remove m c = .ok (m, []) ∧
    (m._connections.length = 0 →
      ∀ r, FactoryACMMonitor.add m c = .ok r → r.1._connections.length = 0 ∧ r.2 = []) := by
  have ha : FactoryACMMonitor.add m c = .ok (m, []) := by simp [FactoryACMMonitor.add, h0]
  refine ⟨ha, by simp [FactoryACMMonitor.remove, h0], ?_⟩
  intro hlen r hr
  rw [ha] at hr
  cases hr
  exact ⟨hlen, rfl⟩

theorem C3_disabled_add_remove_noop_witness :
    FactoryACMMonitor.add ⟨some 1, ⟨0, .HeartbeatOnDispatch, .CloseOnInvocation⟩, [], [], []⟩ 7
      = .ok (⟨some 1, ⟨0, .HeartbeatOnDispatch, .CloseOnInvocation⟩, [], [], []⟩, []) :=
  (C3_disabled_add_remove_noop
    ⟨some 1, ⟨0, .HeartbeatOnDispatch, .CloseOnInvocation⟩, [], [], []⟩ 7 rfl).1

/-- The nanosecond count of a timeout of `T` seconds is exact when `T * 10^9` fits in 64 bits. -/
theorem halfTimeout_eq (config : ACMConfig) (hT : 0 < config.timeout)
    (hR : config.timeout ≤ 9223372036) :
    halfTimeout config = config.timeout * 500000000 := by
  unfold halfTimeout toNanoseconds wrapInt64
  have h1 : (config.timeout * 1000000000 + 9223372036854775808) % 18446744073709551616
      = config.timeout * 1000000000 + 9223372036854775808 :=
    Int.emod_eq_of_lt (by omega) (by omega)
  rw [h1]
  have h2 : config.timeout * 1000000000 + 9223372036854775808 - 9223372036854775808
      = config.timeout * 1000000000 := by omega
  rw [h2, Int.tdiv_eq_ediv (by omega) (by omega)]
  omega

/-- C4: on a monitor that has not been destroyed, with a timeout of `T > 0` seconds (whose
nanosecond count fits the 64-bit duration) and an empty registered set, `add(c)` puts `c` in the
registered set, leaves the pending changes as they are, and makes one call,
`scheduleRepeated` with the interval `T * 500000000` ns; twice that interval is `T` seconds. -/
theorem C4_first_add_schedules_half_timeout (m : FactoryACMMonitor) (c : ConnectionIPtr)
    (inst : InstancePtr) (hi : m._instance = some inst)
    (hT : 0 < m._config.timeout) (hR : m._config.timeout ≤ 9223372036)
    (hS : m._connections = []) :
    FactoryACMMonitor.add m c
      = .ok ({ m with _connections := [c] },
             [Event.scheduleRepeated (m._config.timeout * 500000000)]) ∧
    2 * (m._config.timeout * 500000000) = m._config.timeout * 1000000000 := by
  refine ⟨?_, by ring⟩
  have hne : m._config.timeout ≠ 0 := by omega
  simp [FactoryACMMonitor.add, hne, hS, hi, setInsert, halfTimeout_eq m._config hT hR]

theorem C4_first_add_schedules_half_timeout_witness :
    FactoryACMMonitor.add ⟨some 1, ⟨3, .HeartbeatOnDispatch, .CloseOnInvocation⟩, [], [], []⟩ 7
      = .ok (⟨some 1, ⟨3, .HeartbeatOnDispatch, .CloseOnInvocation⟩, [7], [], []⟩,
             [Event.scheduleRepeated 1500000000]) ∧
    (2 : Int) * (3 * 500000000) = 3 * 1000000000 :=
  C4_first_add_schedules_half_timeout
    ⟨some 1, ⟨3, .HeartbeatOnDispatch, .CloseOnInvocation⟩, [], [], []⟩ 7 1 rfl
    (by decide) (by decide) rfl

/-- C5: with a non-zero timeout and a non-empty registered set, `add(c)` and `remove(c)` make no
call on the timer (or on anything else) and change nothing but the pending changes, to which they
append `(c, true)` resp. `(c, false)`; `remove` does so on a monitor that has not been destroyed,
which is what it asserts. -/
theorem C5_deferred_mutation (m : FactoryACMMonitor) (c : ConnectionIPtr)
    (hT : m._config.timeout ≠ 0) (hS : m._connections ≠ []) :
    FactoryACMMonitor.add m c
      = .ok ({ m with _changes := m._changes ++ [(c, true)] }, []) ∧
    (∀ inst : InstancePtr, m._instance = some inst →
      FactoryACMMonitor.remove m c
        = .ok ({ m with _changes := m._changes ++ [(c, false)] }, [])) :=
  ⟨add_of_nonempty m c hT hS, fun inst hi => remove_of_live m c inst hi hT⟩

theorem C5_deferred_mutation_witness :
    FactoryACMMonitor.add
        ⟨some 1, ⟨60, .HeartbeatOnDispatch, .CloseOnInvocation⟩, [2, 5], [(5, false)], [9]⟩ 7
      = .ok (⟨some 1, ⟨60, .HeartbeatOnDispatch, .CloseOnInvocation⟩, [2, 5],
              [(5, false), (7, true)], [9]⟩, []) ∧
    FactoryACMMonitor.remove
        ⟨some 1, ⟨60, .HeartbeatOnDispatch, .CloseOnInvocation⟩, [2, 5], [(5, false)], [9]⟩ 7
      = .ok (⟨some 1, ⟨60, .HeartbeatOnDispatch, .CloseOnInvocation⟩, [2, 5],
              [(5, false), (7, false)], [9]⟩, []) :=
  ⟨(C5_deferred_mutation
      ⟨some 1, ⟨60, .HeartbeatOnDispatch, .CloseOnInvocation⟩, [2, 5], [(5, false)], [9]⟩ 7
      (by decide) (by decide)).1,
   (C5_deferred_mutation
      ⟨some 1, ⟨60, .HeartbeatOnDispatch, .CloseOnInvocation⟩, [2, 5], [(5, false)], [9]⟩ 7
      (by decide) (by decide)).2 1 rfl⟩

/-- The connections of the set after the first loop of `runTimerTask` are those that the pending
changes, taken in the order of their arrival, leave registered. -/
theorem mem_applyChanges (s : List ConnectionIPtr) (q : List (ConnectionIPtr × Bool))
    (c : ConnectionIPtr) :
    c ∈ FactoryACMMonitor.applyChanges s q ↔ registeredAfter s q c = true := by
  induction q using List.reverseRecOn with
  | nil => simp [FactoryACMMonitor.applyChanges, registeredAfter]
  | append_singleton q p ih =>
    have hstep : FactoryACMMonitor.applyChanges s (q ++ [p])
        = FactoryACMMonitor.applyChange (FactoryACMMonitor.applyChanges s q) p := by
      rw [applyChanges_append]
      rfl
    rw [hstep]
    unfold registeredAfter at ih ⊢
    rw [List.reverse_append, List.reverse_singleton, List.singleton_append, List.find?_cons]
    obtain ⟨a, b⟩ := p
    unfold FactoryACMMonitor.applyChange
    by_cases hc : a = c
    · subst hc
      cases b
      · simp [mem_setErase]
      · simp [mem_setInsert]
    · have hne : (a == c) = false := by simpa using hc
      have hcne : c ≠ a := fun h => hc h.symm
      simp only [hne]
      cases b
      · simp only [Bool.false_eq_true, if_false, mem_setErase]
        rw [ih]
        simp [hcne]
      · simp only [if_true, mem_setInsert]
        rw [ih]
        simp [hcne]

/-- C6: a tick of a monitor that has not been destroyed returns and leaves the queue of pending
changes empty and the other members but the registered set as they were. The pending changes
have been applied: the registered set is again a set, and a connection is in it exactly when the
last pending change that names it is an add or, no change naming it, it was registered before.
If the set is then empty, the only call of the tick is `cancel` on the timer and `monitor` is
called on no connection. Otherwise the tick makes no call on the timer and calls
`monitor(now, _config)` on the connections of the set, in the order of the set, with the one
timestamp and the configuration of the factory; each registered connection is called once. -/
theorem C6_tick_applies_changes_then_monitors (mon : MonitorFn) (now : Int)
    (m : FactoryACMMonitor) (inst : InstancePtr) (hi : m._instance = some inst)
    (hs : m._connections.Sorted (· < ·)) :
    ∃ m1 ev, FactoryACMMonitor.runTimerTask mon now m = .ok (m1, ev) ∧
      m1._changes = [] ∧ m1._instance = m._instance ∧ m1._config = m._config ∧
      m1._reapedConnections = m._reapedConnections ∧
      m1._connections.Sorted (· < ·) ∧
      (∀ c, c ∈ m1._connections ↔ registeredAfter m._connections m._changes c = true) ∧
      ((m1._connections = [] ∧ ev = [Event.cancel] ∧ monitorCalls ev = []) ∨
       (m1._connections ≠ [] ∧
          timerCalls ev = [] ∧
          monitorCalls ev = m1._connections.map (fun c => (c, now, m._config)) ∧
          ∀ c ∈ m1._connections, ((monitorCalls ev).map Prod.fst).count c = 1)) := by
  refine ⟨_, _, runTimerTask_live mon now m inst hi, rfl, rfl, rfl, rfl,
    applyChanges_sorted _ _ hs, fun c => mem_applyChanges _ _ c, ?_⟩
  by_cases he : FactoryACMMonitor.applyChanges m._connections m._changes = []
  · left
    simp [he, monitorCalls]
  · right
    have hcalls := monitorCalls_monitorConnections mon now
      { m with _connections := FactoryACMMonitor.applyChanges m._connections m._changes,
               _changes := [] }
      (FactoryACMMonitor.applyChanges m._connections m._changes)
    refine ⟨he, ?_, ?_, ?_⟩
    · rw [isEmpty_eq_false_of_ne_nil he]
      exact timerCalls_monitorConnections mon now _ _
    · rw [isEmpty_eq_false_of_ne_nil he]
      exact hcalls
    · intro c hc
      rw [isEmpty_eq_false_of_ne_nil he]
      simp only [Bool.false_eq_true, if_false]
      rw [hcalls]
      exact count_monitor_map _ now m._config (applyChanges_sorted _ _ hs).nodup c hc

/-- C6 at the registered set 1, 2, 3 with the pending changes add 4, remove 1, add 1, remove 1,
while `monitor` throws on connection 2: the tick leaves the set 2, 3, 4. -/
theorem C6_tick_applies_changes_then_monitors_witness :
    ∃ m1 ev, FactoryACMMonitor.runTimerTask
          (fun c _ _ => if c = 2 then MonitorOutcome.throwsOther else MonitorOutcome.returns) 5
          ⟨some 1, ⟨60, .HeartbeatOnDispatch, .CloseOnInvocation⟩, [1, 2, 3],
            [(4, true), (1, false), (1, true), (1, false)], []⟩ = .ok (m1, ev) ∧
      m1._connections = [2, 3, 4] ∧ m1._changes = [] ∧
      monitorCalls ev
        = [(2, 5, ⟨60, .HeartbeatOnDispatch, .CloseOnInvocation⟩),
           (3, 5, ⟨60, .HeartbeatOnDispatch, .CloseOnInvocation⟩),
           (4, 5, ⟨60, .HeartbeatOnDispatch, .CloseOnInvocation⟩)] := by
  obtain ⟨m1, ev, h1, h2, _, _, _, h6, h7, h8⟩ :=
    C6_tick_applies_changes_then_monitors
      (fun c _ _ => if c = 2 then MonitorOutcome.throwsOther else MonitorOutcome.returns) 5
      ⟨some 1, ⟨60, .HeartbeatOnDispatch, .CloseOnInvocation⟩, [1, 2, 3],
        [(4, true), (1, false), (1, true), (1, false)], []⟩ 1 rfl (by decide)
  have hset : m1._connections = [2, 3, 4] := by
    apply sorted_ext h6 (by decide)
    intro c
    rw [h7]
    by_cases c1 : c = 1
    · subst c1; decide
    · by_cases c2 : c = 2
      · subst c2; decide
      · by_cases c3 : c = 3
        · subst c3; decide
        · by_cases c4 : c = 4
          · subst c4; decide
          · have e1 : ((1 : ConnectionIPtr) == c) = false := by simpa using Ne.symm c1
            have e4 : ((4 : ConnectionIPtr) == c) = false := by simpa using Ne.symm c4
            simp [registeredAfter, List.find?, e1, e4, c1, c2, c3, c4]
  refine ⟨m1, ev, h1, hset, h2, ?_⟩
  rcases h8 with ⟨h, _, _⟩ | ⟨_, _, h, _⟩
  · rw [hset] at h
    exact absurd h (by decide)
  · rw [h, hset]
    rfl

/-- C7: on a monitor that has not been destroyed, with a non-zero timeout, let `c` be neither
registered nor named by a pending change. Then `add(c)`, `remove(c)` and the next tick return,
whether the registered set was empty or not; the tick does not call `monitor` on `c`, `c` is not
registered after it, and the registered set it leaves and the calls of `monitor` it makes are those
of the tick that would have run without the two calls. -/
theorem C7_add_then_remove_before_tick (mon : MonitorFn) (now : Int) (m : FactoryACMMonitor)
    (inst : InstancePtr) (c : ConnectionIPtr)
    (hi : m._instance = some inst) (hT : m._config.timeout ≠ 0)
    (hs : m._connections.Sorted (· < ·))
    (hc : c ∉ m._connections) (hq : ∀ p ∈ m._changes, p.1 ≠ c) :
    ∃ m1 ev1 m2 ev2 m3 ev3 m4 ev4,
      FactoryACMMonitor.add m c = .ok (m1, ev1) ∧
      FactoryACMMonitor.remove m1 c = .ok (m2, ev2) ∧
      FactoryACMMonitor.runTimerTask mon now m2 = .ok (m3, ev3) ∧
      c ∉ m3._connections ∧
      (∀ t config, (c, t, config) ∉ monitorCalls ev3) ∧
      FactoryACMMonitor.runTimerTask mon now m = .ok (m4, ev4) ∧
      m3._connections = m4._connections ∧
      monitorCalls ev3 = monitorCalls ev4 := by
  obtain ⟨m4, ev4, h4, hS4, hm4⟩ := runTimerTask_calls mon now m inst hi
  have hnot : c ∉ FactoryACMMonitor.applyChanges m._connections m._changes :=
    not_mem_applyChanges c _ _ hc hq
  have hset := applyChanges_insert_erase c m._changes m._connections hs hc hq
  -- the state after the two calls, in the two cases of `add`
  have hcalls : ∃ m1 ev1 m2 ev2, FactoryACMMonitor.add m c = .ok (m1, ev1) ∧
      FactoryACMMonitor.remove m1 c = .ok (m2, ev2) ∧ m2._instance = some inst ∧
      m2._config = m._config ∧
      FactoryACMMonitor.applyChanges m2._connections m2._changes
        = FactoryACMMonitor.applyChanges m._connections m._changes := by
    by_cases hS : m._connections = []
    · refine ⟨_, _, _, _, add_of_empty m c inst hi hT hS,
        remove_of_live { m with _connections := [c] } c inst hi hT, hi, rfl, ?_⟩
      have h := hset.1
      rw [hS] at h ⊢
      exact h
    · refine ⟨_, _, _, _, add_of_nonempty m c hT hS,
        remove_of_live { m with _changes := m._changes ++ [(c, true)] } c inst hi hT, hi, rfl,
        hset.2⟩
  obtain ⟨m1, ev1, m2, ev2, ha, hr, hi2, hc2, hS2⟩ := hcalls
  obtain ⟨m3, ev3, h3, hS3, hm3⟩ := runTimerTask_calls mon now m2 inst hi2
  have hS34 : m3._connections = m4._connections := by rw [hS3, hS2, hS4]
  refine ⟨m1, ev1, m2, ev2, m3, ev3, m4, ev4, ha, hr, h3, ?_, ?_, h4, hS34, ?_⟩
  · rw [hS3, hS2]; exact hnot
  · intro t config hmem
    rw [hm3, hS3, hS2] at hmem
    obtain ⟨d, hd, hde⟩ := List.mem_map.1 hmem
    have : d = c := congrArg Prod.fst hde
    exact hnot (this ▸ hd)
  · rw [hm3, hm4, hS34, hc2]

theorem C7_add_then_remove_before_tick_witness :
    ∃ m1 ev1 m2 ev2 m3 ev3 m4 ev4,
      FactoryACMMonitor.add
          ⟨some 1, ⟨60, .HeartbeatOnDispatch, .CloseOnInvocation⟩, [2, 5], [(5, false)], []⟩ 3
        = .ok (m1, ev1) ∧
      FactoryACMMonitor.remove m1 3 = .ok (m2, ev2) ∧
      FactoryACMMonitor.runTimerTask (fun _ _ _ => MonitorOutcome.returns) 9 m2
        = .ok (m3, ev3) ∧
      3 ∉ m3._connections ∧
      (∀ t config, (3, t, config) ∉ monitorCalls ev3) ∧
      FactoryACMMonitor.runTimerTask (fun _ _ _ => MonitorOutcome.returns) 9
          ⟨some 1, ⟨60, .HeartbeatOnDispatch, .CloseOnInvocation⟩, [2, 5], [(5, false)], []⟩
        = .ok (m4, ev4) ∧
      m3._connections = m4._connections ∧
      monitorCalls ev3 = monitorCalls ev4 :=
  C7_add_then_remove_before_tick (fun _ _ _ => MonitorOutcome.returns) 9
    ⟨some 1, ⟨60, .HeartbeatOnDispatch, .CloseOnInvocation⟩, [2, 5], [(5, false)], []⟩ 1 3
    rfl (by decide) (by decide) (by decide) (by decide)

/-- C9: `destroy()` on a monitor that has not been destroyed returns the monitor with the instance
reference dropped and no pending change; with a non-empty registered set its calls are `cancel`,
one `schedule` with zero delay and then the wait, with an empty set only the wait. From then on
the instance reference stays dropped (no member function that returns sets it), and every tick of
a monitor whose instance reference is dropped returns with the registered set cleared and makes
one call, `notify_all`: none on a connection, on the timer or on the logger. -/
theorem C9_destroy_hand_over (m : FactoryACMMonitor) (inst : InstancePtr)
    (hi : m._instance = some inst) :
    FactoryACMMonitor.destroy m
      = .ok ({ m with _instance := none, _changes := [] },
             (if m._connections = [] then []
              else [Event.cancel, Event.schedule 0]) ++ [Event.waitUntilConnectionsEmpty]) ∧
    (∀ (mon : MonitorFn) (now : Int) (d : FactoryACMMonitor), d._instance = none →
      FactoryACMMonitor.runTimerTask mon now d
        = .ok ({ d with _connections := [] }, [Event.notifyAll])) ∧
    (∀ (mon : MonitorFn) (now : Int) (c : ConnectionIPtr) (d d1 : FactoryACMMonitor)
        (ev : List Event), d._instance = none →
      (FactoryACMMonitor.runTimerTask mon now d = .ok (d1, ev) ∨
       FactoryACMMonitor.add d c = .ok (d1, ev) ∨
       FactoryACMMonitor.remove d c = .ok (d1, ev) ∨
       FactoryACMMonitor.destroy d = .ok (d1, ev)) →
      d1._instance = none) := by
  refine ⟨?_, ?_, ?_⟩
  · unfold FactoryACMMonitor.destroy
    simp only [hi]
    cases h : m._connections <;> simp
  · intro mon now d hd
    simp [FactoryACMMonitor.runTimerTask, hd]
  · intro mon now c d d1 ev hd h
    rcases h with h | h | h | h
    · simp only [FactoryACMMonitor.runTimerTask, hd, Except.ok.injEq, Prod.mk.injEq] at h
      rw [← h.1]
    · unfold FactoryACMMonitor.add at h
      simp only [hd] at h
      split_ifs at h
      · simp only [Except.ok.injEq, Prod.mk.injEq] at h
        rw [← h.1]; exact hd
      · simp only [Except.ok.injEq, Prod.mk.injEq] at h
        rw [← h.1]
    · unfold FactoryACMMonitor.remove at h
      simp only [hd] at h
      split_ifs at h
      simp only [Except.ok.injEq, Prod.mk.injEq] at h
      rw [← h.1]; exact hd
    · simp only [FactoryACMMonitor.destroy, hd, Except.ok.injEq, Prod.mk.injEq] at h
      rw [← h.1]; exact hd

theorem C9_destroy_hand_over_witness :
    FactoryACMMonitor.destroy
        ⟨some 1, ⟨2, .HeartbeatOnDispatch, .CloseOnInvocation⟩, [1, 2, 3], [(2, false)], []⟩
      = .ok (⟨none, ⟨2, .HeartbeatOnDispatch, .CloseOnInvocation⟩, [1, 2, 3], [], []⟩,
             [Event.cancel, Event.schedule 0, Event.waitUntilConnectionsEmpty]) :=
  (C9_destroy_hand_over
    ⟨some 1, ⟨2, .HeartbeatOnDispatch, .CloseOnInvocation⟩, [1, 2, 3], [(2, false)], []⟩ 1
    rfl).1

/-- C10 fails as stated: `add(7)` on a per-connection monitor with timeout 0 and no bound
connection makes no call on the timer, but it binds the connection: the monitor holds 7. -/
theorem C10_disabled_add_binds_connection :
    ConnectionACMMonitor.add ⟨⟨0, .HeartbeatOnDispatch, .CloseOnInvocation⟩, none⟩ 7
      = .ok (⟨⟨0, .HeartbeatOnDispatch, .CloseOnInvocation⟩, some 7⟩, []) ∧
    (⟨⟨0, .HeartbeatOnDispatch, .CloseOnInvocation⟩, some 7⟩ : ConnectionACMMonitor)._connection
      ≠ none := by
  exact ⟨rfl, by decide⟩

/-- C10 (amended): on a per-connection monitor whose timeout is zero and which holds no
connection, `add(c)` returns, makes no call on the timer (or on anything else), and binds `c`:
afterwards the monitor holds `c`. -/
theorem C10_disabled_add_schedules_nothing (m : ConnectionACMMonitor) (c : ConnectionIPtr)
    (h0 : m._config.timeout = 0) (hfree : m._connection = none) :
    ConnectionACMMonitor.add m c = .ok ({ m with _connection := some c }, []) := by
  simp [ConnectionACMMonitor.add, h0, hfree]

theorem C10_disabled_add_schedules_nothing_witness :
    ConnectionACMMonitor.add ⟨⟨0, .HeartbeatAlways, .CloseOff⟩, none⟩ 4
      = .ok (⟨⟨0, .HeartbeatAlways, .CloseOff⟩, some 4⟩, []) :=
  C10_disabled_add_schedules_nothing ⟨⟨0, .HeartbeatAlways, .CloseOff⟩, none⟩ 4 rfl rfl

/-- The nanosecond count of half a timeout of `T` seconds, of either sign, is exact when
`T * 10^9` fits in 64 bits. -/
theorem halfTimeout_eq_of_range (config : ACMConfig) (hL : -9223372036 ≤ config.timeout)
    (hR : config.timeout ≤ 9223372036) :
    halfTimeout config = config.timeout * 500000000 := by
  unfold halfTimeout toNanoseconds wrapInt64
  have h1 : (config.timeout * 1000000000 + 9223372036854775808) % 18446744073709551616
      = config.timeout * 1000000000 + 9223372036854775808 :=
    Int.emod_eq_of_lt (by omega) (by omega)
  rw [h1]
  have h2 : config.timeout * 1000000000 + 9223372036854775808 - 9223372036854775808
      = config.timeout * 500000000 * 2 := by omega
  rw [h2]
  exact Int.mul_tdiv_cancel _ (by decide)

/-- A tick of a per-connection monitor that holds a connection. -/
theorem connection_runTimerTask_bound (mon : MonitorFn) (now : Int) (parent : FactoryACMMonitor)
    (m : ConnectionACMMonitor) (c : ConnectionIPtr) (hc : m._connection = some c) :
    ∃ ev, ConnectionACMMonitor.runTimerTask mon now parent m = .ok (m, ev) ∧
      monitorCalls ev = [(c, now, m._config)] ∧ timerCalls ev = [] := by
  unfold ConnectionACMMonitor.runTimerTask
  simp only [hc]
  refine ⟨_, rfl, ?_, ?_⟩
  · cases mon c now m._config <;> cases h : parent._instance <;>
      simp [monitorCalls, FactoryACMMonitor.handleException,
        FactoryACMMonitor.handleExceptionUnknown, h]
  · cases mon c now m._config <;> cases h : parent._instance <;>
      simp [timerCalls, FactoryACMMonitor.handleException,
        FactoryACMMonitor.handleExceptionUnknown, h]

/-- C11: let a per-connection monitor have a timeout of `T ≠ 0` seconds (whose nanosecond count
fits the 64-bit duration) and hold no connection. Then `add(c)` binds `c` and makes one call,
`scheduleRepeated` with the interval `T * 500000000` ns, half of `T`; a tick then calls `monitor`
once, on `c`, with the configuration of the monitor itself, whatever the configuration of the
factory monitor behind `_parent` is; `remove(c)` then makes one call, `cancel`, and clears the
connection, and a tick after it makes no call at all. In general a tick calls `monitor` exactly
when a connection is bound. -/
theorem C11_connection_monitor_lifecycle (mon : MonitorFn) (now : Int)
    (parent : FactoryACMMonitor) (m : ConnectionACMMonitor) (c : ConnectionIPtr)
    (hfree : m._connection = none) (hT : m._config.timeout ≠ 0)
    (hL : -9223372036 ≤ m._config.timeout) (hR : m._config.timeout ≤ 9223372036) :
    ConnectionACMMonitor.add m c
      = .ok ({ m with _connection := some c },
             [Event.scheduleRepeated (m._config.timeout * 500000000)]) ∧
    2 * (m._config.timeout * 500000000) = m._config.timeout * 1000000000 ∧
    (∃ ev, ConnectionACMMonitor.runTimerTask mon now parent { m with _connection := some c }
        = .ok ({ m with _connection := some c }, ev) ∧
      monitorCalls ev = [(c, now, m._config)] ∧ timerCalls ev = []) ∧
    ConnectionACMMonitor.remove { m with _connection := some c } c
      = .ok ({ m with _connection := none }, [Event.cancel]) ∧
    ConnectionACMMonitor.runTimerTask mon now parent { m with _connection := none }
      = .ok ({ m with _connection := none }, []) ∧
    (∀ (k : ConnectionACMMonitor) (ev : List Event) (k1 : ConnectionACMMonitor),
      ConnectionACMMonitor.runTimerTask mon now parent k = .ok (k1, ev) →
      (monitorCalls ev ≠ [] ↔ k._connection ≠ none)) := by
  refine ⟨?_, by ring, ?_, ?_, ?_, ?_⟩
  · simp [ConnectionACMMonitor.add, hfree, hT, halfTimeout_eq_of_range m._config hL hR]
  · exact connection_runTimerTask_bound mon now parent { m with _connection := some c } c rfl
  · simp [ConnectionACMMonitor.remove, hT]
  · simp [ConnectionACMMonitor.runTimerTask]
  · intro k ev k1 h
    cases hk : k._connection with
    | none =>
      simp only [ConnectionACMMonitor.runTimerTask, hk, Except.ok.injEq, Prod.mk.injEq] at h
      simp [← h.2, monitorCalls]
    | some d =>
      obtain ⟨ev1, h1, h2, _⟩ := connection_runTimerTask_bound mon now parent k d hk
      rw [h1] at h
      simp only [Except.ok.injEq, Prod.mk.injEq] at h
      simp [← h.2, h2]

theorem C11_connection_monitor_lifecycle_witness :
    ConnectionACMMonitor.add ⟨⟨-3, .HeartbeatAlways, .CloseOff⟩, none⟩ 4
      = .ok (⟨⟨-3, .HeartbeatAlways, .CloseOff⟩, some 4⟩, [Event.scheduleRepeated (-1500000000)]) ∧
    ConnectionACMMonitor.remove ⟨⟨-3, .HeartbeatAlways, .CloseOff⟩, some 4⟩ 4
      = .ok (⟨⟨-3, .HeartbeatAlways, .CloseOff⟩, none⟩, [Event.cancel]) :=
  ⟨(C11_connection_monitor_lifecycle (fun _ _ _ => MonitorOutcome.returns) 0
      ⟨some 1, ⟨60, .HeartbeatOnDispatch, .CloseOnInvocation⟩, [], [], []⟩
      ⟨⟨-3, .HeartbeatAlways, .CloseOff⟩, none⟩ 4 rfl (by decide) (by decide) (by decide)).1,
   (C11_connection_monitor_lifecycle (fun _ _ _ => MonitorOutcome.returns) 0
      ⟨some 1, ⟨60, .HeartbeatOnDispatch, .CloseOnInvocation⟩, [], [], []⟩
      ⟨⟨-3, .HeartbeatAlways, .CloseOff⟩, none⟩ 4 rfl (by decide) (by decide)
      (by decide)).2.2.2.1⟩

/-- The calls of `reap` append their connections to the reaped list and change nothing else. -/
theorem runReaps_eq (calls : List ReapCall) (m : FactoryACMMonitor) :
    runReaps m calls
      = .ok ({ m with _reapedConnections := m._reapedConnections ++ calls.map Prod.snd }, []) := by
  induction calls generalizing m with
  | nil => simp [runReaps]
  | cons call rest ih =>
    obtain ⟨via, c⟩ := call
    have h := ih { m with _reapedConnections := m._reapedConnections ++ [c] }
    cases via <;>
      simp [runReaps, ConnectionACMMonitor.reap, FactoryACMMonitor.reap, h]

/-- C12: `reap(c)` on a factory monitor, and `reap(c)` on any per-connection monitor, which
forwards it to the factory monitor behind `_parent` (among them every monitor that `acm` of the
factory creates), returns, makes no call and changes nothing but the reaped list of the factory
monitor, to which it appends `c`. `swapReapedConnections(v)` exchanges `v` and the reaped list.
So after any calls of `reap`, the swap with an empty `v` leaves in `v` the reaped list followed by
the connections of the calls in their order, and leaves the reaped list empty. -/
theorem C12_reap_deferred (m : FactoryACMMonitor) (child : ConnectionACMMonitor)
    (c : ConnectionIPtr) (v : List ConnectionIPtr) (calls : List ReapCall) :
    FactoryACMMonitor.reap m c
      = .ok ({ m with _reapedConnections := m._reapedConnections ++ [c] }, []) ∧
    ConnectionACMMonitor.reap m child c
      = .ok ({ m with _reapedConnections := m._reapedConnections ++ [c] }, []) ∧
    (∀ t cl hb k ev, FactoryACMMonitor.acm m t cl hb = .ok (k, ev) →
      ConnectionACMMonitor.reap m k c
        = .ok ({ m with _reapedConnections := m._reapedConnections ++ [c] }, [])) ∧
    FactoryACMMonitor.swapReapedConnections m v
      = ({ m with _reapedConnections := v }, m._reapedConnections) ∧
    (∃ m1, runReaps m calls = .ok (m1, []) ∧
      m1._connections = m._connections ∧ m1._changes = m._changes ∧
      FactoryACMMonitor.swapReapedConnections m1 []
        = ({ m with _reapedConnections := [] },
           m._reapedConnections ++ calls.map Prod.snd)) :=
  ⟨rfl, rfl, fun _ _ _ _ _ _ => rfl, rfl, _, runReaps_eq calls m, rfl, rfl, rfl⟩

/-- C13 fails as stated: the default configuration of the client role (`server = false`) closes
`OnInvocationAndIdle`, not `OnInvocation`, and that of the server role (`server = true`) closes
`OnInvocation`, not `OnInvocationAndIdle`. -/
theorem C13_default_close_not_as_claimed :
    (ACMConfig.ofServer false).close ≠ ACMClose.CloseOnInvocation ∧
    (ACMConfig.ofServer true).close ≠ ACMClose.CloseOnInvocationAndIdle := by
  decide

/-- C13 (amended): the default `ACMConfig` of the client role (`ACMConfig(server = false)`) has
`close = OnInvocationAndIdle`, and that of the server role (`ACMConfig(server = true)`) has
`close = OnInvocation`. -/
theorem C13_default_close_by_role :
    (ACMConfig.ofServer false).close = ACMClose.CloseOnInvocationAndIdle ∧
    (ACMConfig.ofServer true).close = ACMClose.CloseOnInvocation :=
  ⟨rfl, rfl⟩

theorem wrapInt32_eq_self (x : Int) (hL : -2147483648 ≤ x) (hR : x ≤ 2147483647) :
    wrapInt32 x = x := by
  unfold wrapInt32
  rw [Int.emod_eq_of_lt (by omega) (by omega)]
  omega

theorem heartbeat_ofInt_toInt (h : ACMHeartbeat) : ACMHeartbeat.ofInt h.toInt = h := by
  cases h <;> rfl

theorem close_ofInt_toInt (c : ACMClose) : ACMClose.ofInt c.toInt = c := by
  cases c <;> rfl

theorem heartbeat_toInt_ofInt (n : Int) (h0 : 0 ≤ n) (h4 : n ≤ 4) :
    (ACMHeartbeat.ofInt n).toInt = n := by
  have : n = 0 ∨ n = 1 ∨ n = 2 ∨ n = 3 ∨ n = 4 := by omega
  rcases this with h | h | h | h | h <;> subst h <;> rfl

theorem close_toInt_ofInt (n : Int) (h0 : 0 ≤ n) (h4 : n ≤ 4) :
    (ACMClose.ofInt n).toInt = n := by
  have : n = 0 ∨ n = 1 ∨ n = 2 ∨ n = 3 ∨ n = 4 := by omega
  rcases this with h | h | h | h | h <;> subst h <;> rfl

theorem heartbeat_toInt_bounds :
    ACMHeartbeat.HeartbeatOff.toInt = 0 ∧ ACMHeartbeat.HeartbeatAlways.toInt = 4 :=
  ⟨rfl, rfl⟩

theorem close_toInt_bounds :
    ACMClose.CloseOff.toInt = 0 ∧ ACMClose.CloseOnIdleForceful.toInt = 4 :=
  ⟨rfl, rfl⟩

theorem heartbeat_toInt_range (h : ACMHeartbeat) : 0 ≤ h.toInt ∧ h.toInt ≤ 4 := by
  cases h <;> decide

theorem close_toInt_range (c : ACMClose) : 0 ≤ c.toInt ∧ c.toInt ≤ 4 := by
  cases c <;> decide

/-- A property that is not set is read as the default, without a warning. -/
theorem getPropertyAsIntWithDefault_of_unset (p : PropertiesI) (key : String) (value : Int)
    (h : p.find key = none) : p.getPropertyAsIntWithDefault key value = (value, []) := by
  simp [PropertiesI.getPropertyAsIntWithDefault, h]

/-- The timeout is read from `prefix` or from `prefix.Timeout`. -/
theorem timeoutProperty_cases (p : PropertiesI) (pfx : String) :
    ACMConfig.timeoutProperty p pfx = pfx ∨
    ACMConfig.timeoutProperty p pfx = pfx ++ ".Timeout" := by
  unfold ACMConfig.timeoutProperty
  split_ifs
  · exact Or.inl rfl
  · exact Or.inr rfl

/-- C14: for both roles the default `ACMConfig` has a timeout of 60 seconds and the heartbeat
`OnDispatch`; and the `ACMConfig` built from properties among which none of `prefix.Timeout`,
`prefix`, `prefix.Heartbeat` and `prefix.Close` is set has the three fields of the default that
was supplied, for a default whose timeout is a value of `int`. -/
theorem C14_defaults_when_unset (p : PropertiesI) (pfx : String) (d : ACMConfig)
    (hT : p.find (pfx ++ ".Timeout") = none) (hP : p.find pfx = none)
    (hH : p.find (pfx ++ ".Heartbeat") = none) (hC : p.find (pfx ++ ".Close") = none)
    (hL : -2147483648 ≤ d.timeout) (hR : d.timeout ≤ 2147483647) :
    (∀ server, (ACMConfig.ofServer server).timeout = 60 ∧
      (ACMConfig.ofServer server).heartbeat = ACMHeartbeat.HeartbeatOnDispatch) ∧
    (ACMConfig.ofProperties p pfx d).1 = d ∧
    (ACMConfig.ofProperties p pfx d).1.timeout = d.timeout ∧
    (ACMConfig.ofProperties p pfx d).1.heartbeat = d.heartbeat ∧
    (ACMConfig.ofProperties p pfx d).1.close = d.close := by
  have hkey : p.find (ACMConfig.timeoutProperty p pfx) = none := by
    rcases timeoutProperty_cases p pfx with h | h <;> rw [h] <;> assumption
  have ht : (ACMConfig.ofProperties p pfx d).1.timeout = d.timeout := by
    simp only [ACMConfig.ofProperties, getPropertyAsIntWithDefault_of_unset _ _ _ hkey,
      wrapInt32_eq_self d.timeout hL hR]
    split_ifs <;> rfl
  have hh : (ACMConfig.ofProperties p pfx d).1.heartbeat = d.heartbeat := by
    simp only [ACMConfig.ofProperties, getPropertyAsIntWithDefault_of_unset _ _ _ hH]
    generalize d.heartbeat = h
    cases h <;> rfl
  have hc : (ACMConfig.ofProperties p pfx d).1.close = d.close := by
    simp only [ACMConfig.ofProperties, getPropertyAsIntWithDefault_of_unset _ _ _ hC]
    generalize d.close = c
    cases c <;> rfl
  refine ⟨fun server => ⟨rfl, rfl⟩, ?_, ht, hh, hc⟩
  cases d
  cases h : (ACMConfig.ofProperties p pfx _).1
  simp only [h] at ht hh hc
  simp_all

theorem C14_defaults_when_unset_witness :
    (ACMConfig.ofProperties ⟨[("Ice.ACM.Server.Close", "1"), ("Ice.Default.Host", "h")]⟩
        "Ice.ACM.Client" ⟨20, .HeartbeatAlways, .CloseOff⟩).1
      = ⟨20, .HeartbeatAlways, .CloseOff⟩ :=
  (C14_defaults_when_unset ⟨[("Ice.ACM.Server.Close", "1"), ("Ice.Default.Host", "h")]⟩
    "Ice.ACM.Client" ⟨20, .HeartbeatAlways, .CloseOff⟩ (by decide) (by decide) (by decide)
    (by decide) (by decide) (by decide)).2.1

/-! ## Lemmas on the numbers that the properties are read as -/

/-- The character of a decimal digit: it is a digit, stands for its number, and is neither white
space nor a sign. -/
theorem digitChar_facts (d : Nat) (h : d < 10) :
    (Nat.digitChar d).isDigit = true ∧ (Nat.digitChar d).toNat - 48 = d ∧
    isSpace (Nat.digitChar d) = false ∧ Nat.digitChar d ≠ '-' ∧ Nat.digitChar d ≠ '+' := by
  interval_cases d <;> decide

/-- The number that `readInt32` accumulates over the characters of decimal digits. -/
theorem foldl_digits (digits : List Nat) (h : ∀ d ∈ digits, d < 10) :
    (digits.map Nat.digitChar).foldl (fun a d => 10 * a + (d.toNat - 48)) 0
      = Nat.ofDigits 10 digits.reverse := by
  induction digits using List.reverseRecOn with
  | nil => rfl
  | append_singleton ds d ih =>
    have hd := (digitChar_facts d (h d (by simp))).2.1
    rw [List.map_append, List.foldl_append, ih (fun x hx => h x (by simp [hx])),
      List.reverse_append, List.reverse_singleton, List.singleton_append, Nat.ofDigits_cons]
    simp only [List.map_cons, List.map_nil, List.foldl_cons, List.foldl_nil, hd]
    omega

/-- The characters of decimal digits are digits. -/
theorem all_isDigit (digits : List Nat) (h : ∀ d ∈ digits, d < 10) :
    (digits.map Nat.digitChar).all Char.isDigit = true := by
  rw [List.all_eq_true]
  intro c hc
  obtain ⟨d, hd, rfl⟩ := List.mem_map.1 hc
  exact (digitChar_facts d (h d hd)).1

/-- The number that `readInt32` reads from a decimal numeral is the number that the numeral
denotes. -/
theorem readInt32_numeral (v : String) (n : Int) (h : IsNumeral v n) : readInt32 v = some n := by
  obtain ⟨negative, digits, hne, hd, rfl, rfl, hlo, hhi⟩ := h
  cases digits with
  | nil => exact absurd rfl hne
  | cons d0 ds =>
    have f0 := digitChar_facts d0 (hd d0 (List.mem_cons_self _ _))
    have hall := all_isDigit (d0 :: ds) hd
    have hfold := foldl_digits (d0 :: ds) hd
    rw [List.map_cons] at hall hfold
    cases negative with
    | true =>
      have hcs : (numeral true (d0 :: ds)).toList.dropWhile isSpace
          = '-' :: Nat.digitChar d0 :: ds.map Nat.digitChar := by
        simp [numeral, String.toList, List.dropWhile, isSpace]
      unfold readInt32
      simp only [hcs, List.head?_cons, List.isEmpty_cons, Bool.false_or, hall, Bool.not_true,
        Bool.false_eq_true, if_false, if_true, decide_True, hfold]
      simp only [numeralValue, if_true] at hlo hhi ⊢
      have : (decide (-2147483648 ≤ -((Nat.ofDigits 10 (d0 :: ds).reverse : Nat) : Int))
          && decide (-((Nat.ofDigits 10 (d0 :: ds).reverse : Nat) : Int) ≤ 2147483647)) = true := by
        simp only [Bool.and_eq_true, decide_eq_true_eq]
        exact ⟨hlo, hhi⟩
      rw [if_pos this]
    | false =>
      have hcs : (numeral false (d0 :: ds)).toList.dropWhile isSpace
          = Nat.digitChar d0 :: ds.map Nat.digitChar := by
        simp [numeral, String.toList, List.dropWhile, f0.2.2.1]
      have hhead : (some (Nat.digitChar d0) = some '-') = False := by
        simp [f0.2.2.2.1]
      have hmatch : readInt32.match_1 (fun _ => List Char)
          (Nat.digitChar d0 :: ds.map Nat.digitChar) (fun r => r) (fun r => r) (fun r => r)
            = Nat.digitChar d0 :: ds.map Nat.digitChar := by
        split
        · rename_i heq
          exact absurd (List.cons.inj heq).1 f0.2.2.2.1
        · rename_i heq
          exact absurd (List.cons.inj heq).1 f0.2.2.2.2
        · rfl
      unfold readInt32
      simp only [hcs, List.head?_cons, hhead, hmatch, List.isEmpty_cons, Bool.false_or, hall,
        Bool.not_true, Bool.false_eq_true, if_false, decide_False, hfold]
      simp only [numeralValue, Bool.false_eq_true, if_false] at hlo hhi ⊢
      have : (decide (-2147483648 ≤ ((Nat.ofDigits 10 (d0 :: ds).reverse : Nat) : Int))
          && decide (((Nat.ofDigits 10 (d0 :: ds).reverse : Nat) : Int) ≤ 2147483647))
            = true := by
        simp only [Bool.and_eq_true, decide_eq_true_eq]
        exact ⟨hlo, hhi⟩
      rw [if_pos this]

/-- A decimal numeral is not the empty string. -/
theorem numeral_ne_empty (v : String) (n : Int) (h : IsNumeral v n) : v.isEmpty = false := by
  obtain ⟨negative, digits, hne, _, rfl, _⟩ := h
  cases digits with
  | nil => exact absurd rfl hne
  | cons d0 ds =>
    have h : (numeral negative (d0 :: ds)).data ≠ [] := by
      cases negative <;> simp [numeral]
    have := String.isEmpty_iff (numeral negative (d0 :: ds))
    cases hb : (numeral negative (d0 :: ds)).isEmpty
    · rfl
    · exact absurd (congrArg String.data (this.1 hb)) h

/-- The number read for a property that is set to a decimal numeral is the number that the
numeral denotes, whatever the default, and nothing is written. -/
theorem getPropertyAsIntWithDefault_of_numeral (p : PropertiesI) (key v : String) (n dflt : Int)
    (hf : p.find key = some v) (hn : IsNumeral v n) :
    p.getPropertyAsIntWithDefault key dflt = (n, []) := by
  unfold PropertiesI.getPropertyAsIntWithDefault
  rw [hf]
  simp only [readInt32_numeral v n hn]

/-- What the constructor of `ACMConfig` makes of the numbers that it reads for the timeout, the
heartbeat and the close: a negative timeout gives `d.timeout`, a heartbeat or close outside 0..4
gives that of `d`, each with its warning written to the logger; a timeout that is not negative
gives that number of seconds, and a heartbeat or close in 0..4 the constant with that ordinal.
The timeout it gives is not negative when that of `d` is not. -/
theorem ofProperties_by_number (p : PropertiesI) (pfx : String) (d : ACMConfig) :
    ((p.getPropertyAsIntWithDefault (ACMConfig.timeoutProperty p pfx) (wrapInt32 d.timeout)).1 < 0 →
      (ACMConfig.ofProperties p pfx d).1.timeout = d.timeout ∧
      Warning.logger ("invalid value for property `" ++ ACMConfig.timeoutProperty p pfx
        ++ "', default value will be used instead") ∈ (ACMConfig.ofProperties p pfx d).2) ∧
    (0 ≤ (p.getPropertyAsIntWithDefault (ACMConfig.timeoutProperty p pfx)
            (wrapInt32 d.timeout)).1 →
      (ACMConfig.ofProperties p pfx d).1.timeout
        = (p.getPropertyAsIntWithDefault (ACMConfig.timeoutProperty p pfx)
            (wrapInt32 d.timeout)).1) ∧
    ((p.getPropertyAsIntWithDefault (pfx ++ ".Heartbeat") d.heartbeat.toInt).1 < 0 ∨
      4 < (p.getPropertyAsIntWithDefault (pfx ++ ".Heartbeat") d.heartbeat.toInt).1 →
      (ACMConfig.ofProperties p pfx d).1.heartbeat = d.heartbeat ∧
      Warning.logger ("invalid value for property `" ++ pfx ++ ".Heartbeat"
        ++ "', default value will be used instead") ∈ (ACMConfig.ofProperties p pfx d).2) ∧
    (0 ≤ (p.getPropertyAsIntWithDefault (pfx ++ ".Heartbeat") d.heartbeat.toInt).1 ∧
      (p.getPropertyAsIntWithDefault (pfx ++ ".Heartbeat") d.heartbeat.toInt).1 ≤ 4 →
      (ACMConfig.ofProperties p pfx d).1.heartbeat.toInt
        = (p.getPropertyAsIntWithDefault (pfx ++ ".Heartbeat") d.heartbeat.toInt).1) ∧
    ((p.getPropertyAsIntWithDefault (pfx ++ ".Close") d.close.toInt).1 < 0 ∨
      4 < (p.getPropertyAsIntWithDefault (pfx ++ ".Close") d.close.toInt).1 →
      (ACMConfig.ofProperties p pfx d).1.close = d.close ∧
      Warning.logger ("invalid value for property `" ++ pfx ++ ".Close"
        ++ "', default value will be used instead") ∈ (ACMConfig.ofProperties p pfx d).2) ∧
    (0 ≤ (p.getPropertyAsIntWithDefault (pfx ++ ".Close") d.close.toInt).1 ∧
      (p.getPropertyAsIntWithDefault (pfx ++ ".Close") d.close.toInt).1 ≤ 4 →
      (ACMConfig.ofProperties p pfx d).1.close.toInt
        = (p.getPropertyAsIntWithDefault (pfx ++ ".Close") d.close.toInt).1) ∧
    (0 ≤ d.timeout → 0 ≤ (ACMConfig.ofProperties p pfx d).1.timeout) := by
  refine ⟨?_, ?_, ?_, ?_, ?_, ?_, ?_⟩
  · intro h
    have h' : ¬ (p.getPropertyAsIntWithDefault (ACMConfig.timeoutProperty p pfx)
        (wrapInt32 d.timeout)).1 ≥ 0 := by omega
    simp [ACMConfig.ofProperties, h']
  · intro h
    have h' : (p.getPropertyAsIntWithDefault (ACMConfig.timeoutProperty p pfx)
        (wrapInt32 d.timeout)).1 ≥ 0 := h
    simp [ACMConfig.ofProperties, h']
  · intro h
    have h' : ¬ ((p.getPropertyAsIntWithDefault (pfx ++ ".Heartbeat") d.heartbeat.toInt).1 ≥ 0 ∧
        (p.getPropertyAsIntWithDefault (pfx ++ ".Heartbeat") d.heartbeat.toInt).1 ≤ 4) := by
      omega
    simp [ACMConfig.ofProperties, heartbeat_toInt_bounds.1, heartbeat_toInt_bounds.2, h']
  · intro h
    have h' : (p.getPropertyAsIntWithDefault (pfx ++ ".Heartbeat") d.heartbeat.toInt).1 ≥ 0 ∧
        (p.getPropertyAsIntWithDefault (pfx ++ ".Heartbeat") d.heartbeat.toInt).1 ≤ 4 := h
    simp [ACMConfig.ofProperties, heartbeat_toInt_bounds.1, heartbeat_toInt_bounds.2, h',
      heartbeat_toInt_ofInt _ h.1 h.2]
  · intro h
    have h' : ¬ ((p.getPropertyAsIntWithDefault (pfx ++ ".Close") d.close.toInt).1 ≥ 0 ∧
        (p.getPropertyAsIntWithDefault (pfx ++ ".Close") d.close.toInt).1 ≤ 4) := by
      omega
    simp [ACMConfig.ofProperties, close_toInt_bounds.1, close_toInt_bounds.2, h']
  · intro h
    have h' : (p.getPropertyAsIntWithDefault (pfx ++ ".Close") d.close.toInt).1 ≥ 0 ∧
        (p.getPropertyAsIntWithDefault (pfx ++ ".Close") d.close.toInt).1 ≤ 4 := h
    simp [ACMConfig.ofProperties, close_toInt_bounds.1, close_toInt_bounds.2, h',
      close_toInt_ofInt _ h.1 h.2]
  · intro h
    simp only [ACMConfig.ofProperties]
    split_ifs with h1
    · exact h1
    · exact h

/-- C15: let an `ACMConfig` be built from properties with the default `d`, and let the property
of the timeout, `<prefix>.Heartbeat` or `<prefix>.Close` be set to a decimal numeral of the
integer `n`. A Timeout `n < 0` gives `d.timeout`, a Heartbeat `n` outside 0..4 gives
`d.heartbeat` and a Close `n` outside 0..4 gives `d.close`, each with its warning written to the
logger; a Timeout `n ≥ 0` gives `n` seconds, and a Heartbeat or Close `n` in 0..4 gives the
constant with the ordinal `n`. The constructor returns in every case, and whatever the
properties are set to, the timeout it gives is not negative when that of `d` is not. -/
theorem C15_acm_config_validation (p : PropertiesI) (pfx : String) (d : ACMConfig) :
    (∀ v n, p.find (ACMConfig.timeoutProperty p pfx) = some v → IsNumeral v n →
      (n < 0 →
        (ACMConfig.ofProperties p pfx d).1.timeout = d.timeout ∧
        Warning.logger ("invalid value for property `" ++ ACMConfig.timeoutProperty p pfx
          ++ "', default value will be used instead") ∈ (ACMConfig.ofProperties p pfx d).2) ∧
      (0 ≤ n → (ACMConfig.ofProperties p pfx d).1.timeout = n)) ∧
    (∀ v n, p.find (pfx ++ ".Heartbeat") = some v → IsNumeral v n →
      (n < 0 ∨ 4 < n →
        (ACMConfig.ofProperties p pfx d).1.heartbeat = d.heartbeat ∧
        Warning.logger ("invalid value for property `" ++ pfx ++ ".Heartbeat"
          ++ "', default value will be used instead") ∈ (ACMConfig.ofProperties p pfx d).2) ∧
      (0 ≤ n ∧ n ≤ 4 → (ACMConfig.ofProperties p pfx d).1.heartbeat.toInt = n)) ∧
    (∀ v n, p.find (pfx ++ ".Close") = some v → IsNumeral v n →
      (n < 0 ∨ 4 < n →
        (ACMConfig.ofProperties p pfx d).1.close = d.close ∧
        Warning.logger ("invalid value for property `" ++ pfx ++ ".Close"
          ++ "', default value will be used instead") ∈ (ACMConfig.ofProperties p pfx d).2) ∧
      (0 ≤ n ∧ n ≤ 4 → (ACMConfig.ofProperties p pfx d).1.close.toInt = n)) ∧
    (0 ≤ d.timeout → 0 ≤ (ACMConfig.ofProperties p pfx d).1.timeout) := by
  obtain ⟨t1, t2, h1, h2, c1, c2, hnn⟩ := ofProperties_by_number p pfx d
  refine ⟨?_, ?_, ?_, hnn⟩
  · intro v n hf hn
    have e := getPropertyAsIntWithDefault_of_numeral p _ v n (wrapInt32 d.timeout) hf hn
    rw [e] at t1 t2
    exact ⟨t1, t2⟩
  · intro v n hf hn
    have e := getPropertyAsIntWithDefault_of_numeral p _ v n d.heartbeat.toInt hf hn
    rw [e] at h1 h2
    exact ⟨h1, h2⟩
  · intro v n hf hn
    have e := getPropertyAsIntWithDefault_of_numeral p _ v n d.close.toInt hf hn
    rw [e] at c1 c2
    exact ⟨c1, c2⟩

/-- C15 at the properties `P.Close = 4`, `P.Heartbeat = 9` and `P.Timeout = -5` with the default
of 20 seconds, `HeartbeatAlways` and `CloseOff`: the close has the ordinal 4, the heartbeat and
the timeout are those of the default, and the two warnings are written. -/
theorem C15_acm_config_validation_witness :
    (ACMConfig.ofProperties ⟨[("P.Close", "4"), ("P.Heartbeat", "9"), ("P.Timeout", "-5")]⟩ "P"
      ⟨20, .HeartbeatAlways, .CloseOff⟩).1.close.toInt = 4 ∧
    ((ACMConfig.ofProperties ⟨[("P.Close", "4"), ("P.Heartbeat", "9"), ("P.Timeout", "-5")]⟩ "P"
        ⟨20, .HeartbeatAlways, .CloseOff⟩).1.heartbeat = ACMHeartbeat.HeartbeatAlways ∧
      Warning.logger "invalid value for property `P.Heartbeat', default value will be used instead"
        ∈ (ACMConfig.ofProperties
            ⟨[("P.Close", "4"), ("P.Heartbeat", "9"), ("P.Timeout", "-5")]⟩ "P"
            ⟨20, .HeartbeatAlways, .CloseOff⟩).2) ∧
    ((ACMConfig.ofProperties ⟨[("P.Close", "4"), ("P.Heartbeat", "9"), ("P.Timeout", "-5")]⟩ "P"
        ⟨20, .HeartbeatAlways, .CloseOff⟩).1.timeout = 20 ∧
      Warning.logger "invalid value for property `P.Timeout', default value will be used instead"
        ∈ (ACMConfig.ofProperties
            ⟨[("P.Close", "4"), ("P.Heartbeat", "9"), ("P.Timeout", "-5")]⟩ "P"
            ⟨20, .HeartbeatAlways, .CloseOff⟩).2) :=
  ⟨((C15_acm_config_validation
        ⟨[("P.Close", "4"), ("P.Heartbeat", "9"), ("P.Timeout", "-5")]⟩ "P"
        ⟨20, .HeartbeatAlways, .CloseOff⟩).2.2.1 "4" 4 rfl
      ⟨false, [4], by decide, by decide, by decide, by simp [numeralValue, Nat.ofDigits],
        by decide, by decide⟩).2 (by decide),
   ((C15_acm_config_validation
        ⟨[("P.Close", "4"), ("P.Heartbeat", "9"), ("P.Timeout", "-5")]⟩ "P"
        ⟨20, .HeartbeatAlways, .CloseOff⟩).2.1 "9" 9 rfl
      ⟨false, [9], by decide, by decide, by decide, by simp [numeralValue, Nat.ofDigits],
        by decide, by decide⟩).1 (by decide),
   ((C15_acm_config_validation
        ⟨[("P.Close", "4"), ("P.Heartbeat", "9"), ("P.Timeout", "-5")]⟩ "P"
        ⟨20, .HeartbeatAlways, .CloseOff⟩).1 "-5" (-5) rfl
      ⟨true, [5], by decide, by decide, by decide, by simp [numeralValue, Nat.ofDigits],
        by decide, by decide⟩).1 (by decide)⟩

/-- What the constructor of `DefaultsAndOverrides` has computed when it returns: every block has
run, the endpoint selection was legal, and the fields are the results of the blocks. -/
theorem create_ok_fields (h : Helpers) (p : PropertiesI) (w : List Warning)
    (d : DefaultsAndOverrides) (hd : DefaultsAndOverrides.create h p = (w, .ok d)) :
    DefaultsAndOverrides.readEndpointSelection p = .ok d.defaultEndpointSelection ∧
    d.defaultCollocationOptimization
      = decide ((p.getPropertyAsIntWithDefault "Ice.Default.CollocationOptimized" 1).1 > 0) ∧
    d.defaultPreferSecure
      = decide ((p.getPropertyAsIntWithDefault "Ice.Default.PreferSecure" 0).1 > 0) ∧
    d.defaultLocatorCacheTimeout = (DefaultsAndOverrides.readDefaultLocatorCacheTimeout p).1 ∧
    d.overrideTimeout = (DefaultsAndOverrides.readOverrideTimeout p "Ice.Override.Timeout").1.1 ∧
    d.overrideTimeoutValue
      = (DefaultsAndOverrides.readOverrideTimeout p "Ice.Override.Timeout").1.2 ∧
    d.overrideCompress = (DefaultsAndOverrides.readOverrideFlag p "Ice.Override.Compress").1.1 ∧
    d.overrideCompressValue
      = (DefaultsAndOverrides.readOverrideFlag p "Ice.Override.Compress").1.2 ∧
    d.overrideSecure = (DefaultsAndOverrides.readOverrideFlag p "Ice.Override.Secure").1.1 ∧
    d.overrideSecureValue
      = (DefaultsAndOverrides.readOverrideFlag p "Ice.Override.Secure").1.2 ∧
    (∀ x, x ∈ (DefaultsAndOverrides.readOverrideTimeout p "Ice.Override.Timeout").2 → x ∈ w) := by
  unfold DefaultsAndOverrides.create at hd
  simp only at hd
  by_cases hA : (!(p.getProperty "Ice.Default.SourceAddress").isEmpty
      && !h.isValidNumericAddress (p.getProperty "Ice.Default.SourceAddress")) = true
  · rw [if_pos hA] at hd
    simp only [Prod.mk.injEq, reduceCtorEq, and_false] at hd
  · rw [if_neg hA] at hd
    cases hsel : DefaultsAndOverrides.readEndpointSelection p with
    | error e => simp only [hsel, Prod.mk.injEq, reduceCtorEq, and_false] at hd
    | ok sel =>
      simp only [hsel] at hd
      cases henc : h.supportedEncoding
          (p.getPropertyWithDefault "Ice.Default.EncodingVersion" h.currentEncodingString) with
      | error e => simp only [henc, Prod.mk.injEq, reduceCtorEq, and_false] at hd
      | ok enc =>
        simp only [henc, Prod.mk.injEq, Except.ok.injEq] at hd
        obtain ⟨hw, hd⟩ := hd
        subst hd
        refine ⟨rfl, rfl, rfl, rfl, rfl, rfl, rfl, rfl, rfl, rfl, ?_⟩
        intro x hx
        rw [← hw]
        repeat (first | exact hx | apply List.mem_append_left)

/-- The constructor returns when the source address passes, the endpoint selection is legal and
the encoding is supported. -/
theorem create_returns (h : Helpers) (p : PropertiesI) (sel : EndpointSelectionType)
    (enc : EncodingVersion)
    (hA : (p.getProperty "Ice.Default.SourceAddress").isEmpty = true ∨
      h.isValidNumericAddress (p.getProperty "Ice.Default.SourceAddress") = true)
    (hsel : DefaultsAndOverrides.readEndpointSelection p = .ok sel)
    (henc : h.supportedEncoding
      (p.getPropertyWithDefault "Ice.Default.EncodingVersion" h.currentEncodingString)
        = .ok enc) :
    ∃ w d, DefaultsAndOverrides.create h p = (w, .ok d) := by
  have hA' : ¬ ((!(p.getProperty "Ice.Default.SourceAddress").isEmpty
      && !h.isValidNumericAddress (p.getProperty "Ice.Default.SourceAddress")) = true) := by
    rcases hA with hA | hA <;> simp [hA]
  unfold DefaultsAndOverrides.create
  simp only []
  rw [if_neg hA']
  simp only [hsel, henc]
  exact ⟨_, _, rfl⟩

/-- C16 fails as stated: with `Ice.Default.EndpointSelection` set to `Sorted` (and nothing else
set) the constructor does not return an object: it throws
`EndpointSelectionTypeParseException`, and it writes no warning. -/
theorem C16_malformed_endpoint_selection_throws :
    DefaultsAndOverrides.create
        ⟨fun _ => true, "1.1", fun _ => .ok ⟨1, 1⟩⟩
        ⟨[("Ice.Default.EndpointSelection", "Sorted")]⟩
      = ([], .error (LocalException.EndpointSelectionTypeParseException
          "illegal value `Sorted'; expected `Random' or `Ordered'")) :=
  rfl

/-- C16 (amended): for every value `v` of `Ice.Default.EndpointSelection` other than `Random` and
`Ordered` the constructor of `DefaultsAndOverrides` throws and constructs no object. When
`Ice.Default.SourceAddress` is not set or is a valid address, what it throws is
`EndpointSelectionTypeParseException` with the text that names `v`, and the warnings written
before are those of the override blocks and of `Ice.Default.CollocationOptimized`: none is about
the endpoint selection and no default is put in its place. -/
theorem C16_malformed_endpoint_selection (h : Helpers) (p : PropertiesI) (v : String)
    (hv : p.find "Ice.Default.EndpointSelection" = some v)
    (hR : v ≠ "Random") (hO : v ≠ "Ordered") :
    (∃ w e, DefaultsAndOverrides.create h p = (w, .error e)) ∧
    ((p.getProperty "Ice.Default.SourceAddress").isEmpty = true ∨
      h.isValidNumericAddress (p.getProperty "Ice.Default.SourceAddress") = true →
      DefaultsAndOverrides.create h p
        = ((DefaultsAndOverrides.readOverrideTimeout p "Ice.Override.Timeout").2
            ++ (DefaultsAndOverrides.readOverrideTimeout p "Ice.Override.ConnectTimeout").2
            ++ (DefaultsAndOverrides.readOverrideTimeout p "Ice.Override.CloseTimeout").2
            ++ (DefaultsAndOverrides.readOverrideFlag p "Ice.Override.Compress").2
            ++ (DefaultsAndOverrides.readOverrideFlag p "Ice.Override.Secure").2
            ++ (p.getPropertyAsIntWithDefault "Ice.Default.CollocationOptimized" 1).2,
           .error (LocalException.EndpointSelectionTypeParseException
             ("illegal value `" ++ v ++ "'; expected `Random' or `Ordered'")))) := by
  have hsel : DefaultsAndOverrides.readEndpointSelection p
      = .error (LocalException.EndpointSelectionTypeParseException
          ("illegal value `" ++ v ++ "'; expected `Random' or `Ordered'")) := by
    simp [DefaultsAndOverrides.readEndpointSelection, PropertiesI.getPropertyWithDefault, hv, hR,
      hO]
  constructor
  · by_cases hA : (!(p.getProperty "Ice.Default.SourceAddress").isEmpty
        && !h.isValidNumericAddress (p.getProperty "Ice.Default.SourceAddress")) = true
    · unfold DefaultsAndOverrides.create
      simp only []
      rw [if_pos hA]
      exact ⟨_, _, rfl⟩
    · unfold DefaultsAndOverrides.create
      simp only []
      rw [if_neg hA]
      simp only [hsel]
      exact ⟨_, _, rfl⟩
  · intro hA
    have hA' : ¬ ((!(p.getProperty "Ice.Default.SourceAddress").isEmpty
        && !h.isValidNumericAddress (p.getProperty "Ice.Default.SourceAddress")) = true) := by
      rcases hA with hA | hA <;> simp [hA]
    unfold DefaultsAndOverrides.create
    simp only []
    rw [if_neg hA']
    simp only [hsel]

theorem C16_malformed_endpoint_selection_witness :
    ∃ w e, DefaultsAndOverrides.create ⟨fun _ => false, "1.1", fun _ => .ok ⟨1, 1⟩⟩
      ⟨[("Ice.Default.SourceAddress", "nowhere"), ("Ice.Default.EndpointSelection", "random")]⟩
        = (w, .error e) :=
  (C16_malformed_endpoint_selection ⟨fun _ => false, "1.1", fun _ => .ok ⟨1, 1⟩⟩
    ⟨[("Ice.Default.SourceAddress", "nowhere"), ("Ice.Default.EndpointSelection", "random")]⟩
    "random" (by decide) (by decide) (by decide)).1

/-- The value of a property is not empty exactly when the property is set to a non-empty
string. -/
theorem getProperty_not_empty_iff (p : PropertiesI) (key : String) :
    (!(p.getProperty key).isEmpty) = true ↔ ∃ v, p.find key = some v ∧ v ≠ "" := by
  unfold PropertiesI.getProperty
  cases hk : p.find key with
  | none => simp [String.isEmpty_iff]
  | some v =>
    have hv := String.isEmpty_iff v
    cases hb : v.isEmpty <;> simp_all

/-- A property that is not set to a non-empty string is read as 0 by `getPropertyAsInt`. -/
theorem getPropertyAsInt_of_empty (p : PropertiesI) (key : String)
    (he : (p.getProperty key).isEmpty = true) : (p.getPropertyAsInt key).1 = 0 := by
  unfold PropertiesI.getProperty at he
  unfold PropertiesI.getPropertyAsInt PropertiesI.getPropertyAsIntWithDefault
  cases hk : p.find key with
  | none => rfl
  | some v =>
    simp only [hk, String.isEmpty_iff] at he
    subst he
    rfl

/-- What the constructor of `DefaultsAndOverrides` makes of the defaults, by the numbers that it
reads: with none of the properties `Ice.Default.*` set the object has the selection `Random`,
`defaultPreferSecure` false, `defaultLocatorCacheTimeout` -1 and `defaultCollocationOptimization`
true; for every object returned, `Ordered` and `Random` select themselves, the two flags are true
exactly when the number read is above 0, and a locator cache timeout below -1 is replaced by -1. -/
theorem create_defaults_by_number (h : Helpers) (p : PropertiesI)
    (enc : EncodingVersion)
    (hunset : ∀ key ∈ DefaultsAndOverrides.defaultKeys, p.find key = none)
    (henc : h.supportedEncoding h.currentEncodingString = .ok enc) :
    (∃ w d, DefaultsAndOverrides.create h p = (w, .ok d) ∧
      d.defaultEndpointSelection = EndpointSelectionType.Random ∧
      d.defaultPreferSecure = false ∧ d.defaultLocatorCacheTimeout = -1 ∧
      d.defaultCollocationOptimization = true) ∧
    (∀ (q : PropertiesI) (w : List Warning) (d : DefaultsAndOverrides),
      DefaultsAndOverrides.create h q = (w, .ok d) →
      (q.find "Ice.Default.EndpointSelection" = some "Ordered" →
        d.defaultEndpointSelection = EndpointSelectionType.Ordered) ∧
      (q.find "Ice.Default.EndpointSelection" = some "Random" →
        d.defaultEndpointSelection = EndpointSelectionType.Random) ∧
      (d.defaultPreferSecure = true ↔
        (q.getPropertyAsIntWithDefault "Ice.Default.PreferSecure" 0).1 > 0) ∧
      (d.defaultCollocationOptimization = true ↔
        (q.getPropertyAsIntWithDefault "Ice.Default.CollocationOptimized" 1).1 > 0) ∧
      ((q.getPropertyAsIntWithDefault "Ice.Default.LocatorCacheTimeout" (-1)).1 < -1 →
        d.defaultLocatorCacheTimeout = -1) ∧
      (-1 ≤ (q.getPropertyAsIntWithDefault "Ice.Default.LocatorCacheTimeout" (-1)).1 →
        d.defaultLocatorCacheTimeout
          = (q.getPropertyAsIntWithDefault "Ice.Default.LocatorCacheTimeout" (-1)).1)) := by
  constructor
  · have hk : ∀ key, key ∈ DefaultsAndOverrides.defaultKeys → p.find key = none := hunset
    have hSA := hk "Ice.Default.SourceAddress" (by decide)
    have hES := hk "Ice.Default.EndpointSelection" (by decide)
    have hEV := hk "Ice.Default.EncodingVersion" (by decide)
    have hCO := hk "Ice.Default.CollocationOptimized" (by decide)
    have hPS := hk "Ice.Default.PreferSecure" (by decide)
    have hLC := hk "Ice.Default.LocatorCacheTimeout" (by decide)
    have hsel : DefaultsAndOverrides.readEndpointSelection p = .ok EndpointSelectionType.Random := by
      simp [DefaultsAndOverrides.readEndpointSelection, PropertiesI.getPropertyWithDefault, hES]
    have henc' : h.supportedEncoding
        (p.getPropertyWithDefault "Ice.Default.EncodingVersion" h.currentEncodingString)
          = .ok enc := by
      simp only [PropertiesI.getPropertyWithDefault, hEV, henc]
    have hA : (p.getProperty "Ice.Default.SourceAddress").isEmpty = true ∨
        h.isValidNumericAddress (p.getProperty "Ice.Default.SourceAddress") = true := by
      left
      simp only [PropertiesI.getProperty, hSA]
      rfl
    obtain ⟨w, d, hd⟩ := create_returns h p _ enc hA hsel henc'
    obtain ⟨f1, f2, f3, f4, _⟩ := create_ok_fields h p w d hd
    refine ⟨w, d, hd, ?_, ?_, ?_, ?_⟩
    · rw [hsel] at f1
      exact (Except.ok.inj f1).symm
    · rw [f3, getPropertyAsIntWithDefault_of_unset _ _ _ hPS]; rfl
    · rw [f4]
      simp only [DefaultsAndOverrides.readDefaultLocatorCacheTimeout,
        getPropertyAsIntWithDefault_of_unset _ _ _ hLC]
      rfl
    · rw [f2, getPropertyAsIntWithDefault_of_unset _ _ _ hCO]; rfl
  · intro q w d hd
    obtain ⟨f1, f2, f3, f4, _⟩ := create_ok_fields h q w d hd
    refine ⟨?_, ?_, ?_, ?_, ?_, ?_⟩
    · intro hv
      have : DefaultsAndOverrides.readEndpointSelection q
          = .ok EndpointSelectionType.Ordered := by
        simp [DefaultsAndOverrides.readEndpointSelection, PropertiesI.getPropertyWithDefault, hv]
      rw [this] at f1
      exact (Except.ok.inj f1).symm
    · intro hv
      have : DefaultsAndOverrides.readEndpointSelection q
          = .ok EndpointSelectionType.Random := by
        simp [DefaultsAndOverrides.readEndpointSelection, PropertiesI.getPropertyWithDefault, hv]
      rw [this] at f1
      exact (Except.ok.inj f1).symm
    · rw [f3]; simp
    · rw [f2]; simp
    · intro hn
      rw [f4]
      simp [DefaultsAndOverrides.readDefaultLocatorCacheTimeout, hn]
    · intro hn
      rw [f4]
      have : ¬ (q.getPropertyAsIntWithDefault "Ice.Default.LocatorCacheTimeout" (-1)).1 < -1 := by
        omega
      simp [DefaultsAndOverrides.readDefaultLocatorCacheTimeout, this]

/-- C17: with none of the properties `Ice.Default.*` set (and the current encoding supported) the
constructor of `DefaultsAndOverrides` returns an object with the endpoint selection `Random`,
`defaultPreferSecure` false, `defaultLocatorCacheTimeout` -1 and `defaultCollocationOptimization`
true. For every object that the constructor returns: the value `Ordered` gives the selection
`Ordered` and `Random` gives `Random`; with `Ice.Default.PreferSecure` or
`Ice.Default.CollocationOptimized` set to a decimal numeral of the integer `n` the field is true
exactly when `n > 0`, and with the property not set it is false resp. true; with
`Ice.Default.LocatorCacheTimeout` set to a numeral of `n` the field is -1 when `n < -1` and is `n`
otherwise, and with the property not set it is -1. -/
theorem C17_defaults_of_defaults_and_overrides (h : Helpers) (p : PropertiesI)
    (enc : EncodingVersion)
    (hunset : ∀ key ∈ DefaultsAndOverrides.defaultKeys, p.find key = none)
    (henc : h.supportedEncoding h.currentEncodingString = .ok enc) :
    (∃ w d, DefaultsAndOverrides.create h p = (w, .ok d) ∧
      d.defaultEndpointSelection = EndpointSelectionType.Random ∧
      d.defaultPreferSecure = false ∧ d.defaultLocatorCacheTimeout = -1 ∧
      d.defaultCollocationOptimization = true) ∧
    (∀ (q : PropertiesI) (w : List Warning) (d : DefaultsAndOverrides),
      DefaultsAndOverrides.create h q = (w, .ok d) →
      (q.find "Ice.Default.EndpointSelection" = some "Ordered" →
        d.defaultEndpointSelection = EndpointSelectionType.Ordered) ∧
      (q.find "Ice.Default.EndpointSelection" = some "Random" →
        d.defaultEndpointSelection = EndpointSelectionType.Random) ∧
      (q.find "Ice.Default.PreferSecure" = none → d.defaultPreferSecure = false) ∧
      (∀ v n, q.find "Ice.Default.PreferSecure" = some v → IsNumeral v n →
        (d.defaultPreferSecure = true ↔ n > 0)) ∧
      (q.find "Ice.Default.CollocationOptimized" = none →
        d.defaultCollocationOptimization = true) ∧
      (∀ v n, q.find "Ice.Default.CollocationOptimized" = some v → IsNumeral v n →
        (d.defaultCollocationOptimization = true ↔ n > 0)) ∧
      (q.find "Ice.Default.LocatorCacheTimeout" = none → d.defaultLocatorCacheTimeout = -1) ∧
      (∀ v n, q.find "Ice.Default.LocatorCacheTimeout" = some v → IsNumeral v n →
        (n < -1 → d.defaultLocatorCacheTimeout = -1) ∧
        (-1 ≤ n → d.defaultLocatorCacheTimeout = n))) := by
  obtain ⟨h1, h2⟩ := create_defaults_by_number h p enc hunset henc
  refine ⟨h1, ?_⟩
  intro q w d hd
  obtain ⟨e1, e2, e3, e4, e5, e6⟩ := h2 q w d hd
  refine ⟨e1, e2, ?_, ?_, ?_, ?_, ?_, ?_⟩
  · intro hf
    rw [getPropertyAsIntWithDefault_of_unset _ _ _ hf] at e3
    cases hb : d.defaultPreferSecure
    · rfl
    · exact absurd (e3.1 hb) (by decide)
  · intro v n hf hn
    rw [getPropertyAsIntWithDefault_of_numeral q _ v n 0 hf hn] at e3
    exact e3
  · intro hf
    rw [getPropertyAsIntWithDefault_of_unset _ _ _ hf] at e4
    exact e4.2 (by decide)
  · intro v n hf hn
    rw [getPropertyAsIntWithDefault_of_numeral q _ v n 1 hf hn] at e4
    exact e4
  · intro hf
    rw [getPropertyAsIntWithDefault_of_unset _ _ _ hf] at e6
    exact e6 (by decide)
  · intro v n hf hn
    rw [getPropertyAsIntWithDefault_of_numeral q _ v n (-1) hf hn] at e5 e6
    exact ⟨e5, e6⟩

/-- C17 at the properties `Ice.Default.CollocationOptimized = 0`,
`Ice.Default.EndpointSelection = Ordered`, `Ice.Default.LocatorCacheTimeout = -7` and
`Ice.Default.PreferSecure = 1`: the constructor returns, with the selection `Ordered`,
`defaultPreferSecure` true, `defaultCollocationOptimization` false and the locator cache timeout
-1. -/
theorem C17_defaults_of_defaults_and_overrides_witness :
    ∃ w d, DefaultsAndOverrides.create ⟨fun _ => true, "1.1", fun _ => .ok ⟨1, 1⟩⟩
        ⟨[("Ice.Default.CollocationOptimized", "0"), ("Ice.Default.EndpointSelection", "Ordered"),
          ("Ice.Default.LocatorCacheTimeout", "-7"), ("Ice.Default.PreferSecure", "1")]⟩
          = (w, .ok d) ∧
      d.defaultEndpointSelection = EndpointSelectionType.Ordered ∧
      d.defaultPreferSecure = true ∧ d.defaultCollocationOptimization = false ∧
      d.defaultLocatorCacheTimeout = -1 := by
  have T := (C17_defaults_of_defaults_and_overrides
    ⟨fun _ => true, "1.1", fun _ => .ok ⟨1, 1⟩⟩ ⟨[("Ice.Override.Secure", "1")]⟩ ⟨1, 1⟩
    (by decide) rfl).2
    ⟨[("Ice.Default.CollocationOptimized", "0"), ("Ice.Default.EndpointSelection", "Ordered"),
      ("Ice.Default.LocatorCacheTimeout", "-7"), ("Ice.Default.PreferSecure", "1")]⟩
    [Warning.logger "invalid value for Ice.Default.LocatorCacheTimeout `-7': defaulting to -1"]
    { defaultHost := "", defaultSourceAddress := none, defaultProtocol := "tcp",
      defaultCollocationOptimization := false,
      defaultEndpointSelection := EndpointSelectionType.Ordered,
      defaultTimeout := 60000, defaultInvocationTimeout := -1,
      defaultLocatorCacheTimeout := -1, defaultPreferSecure := true,
      defaultEncoding := ⟨1, 1⟩, defaultFormat := FormatType.CompactFormat,
      overrideTimeout := false, overrideTimeoutValue := -1,
      overrideConnectTimeout := false, overrideConnectTimeoutValue := -1,
      overrideCloseTimeout := false, overrideCloseTimeoutValue := -1,
      overrideCompress := false, overrideCompressValue := false,
      overrideSecure := false, overrideSecureValue := false } rfl
  obtain ⟨t1, _, _, t4, _, t6, _, t8⟩ := T
  refine ⟨_, _, rfl, t1 rfl, ?_, ?_, ?_⟩
  · exact (t4 "1" 1 rfl ⟨false, [1], by decide, by decide, by decide,
      by simp [numeralValue, Nat.ofDigits], by decide, by decide⟩).2 (by decide)
  · rfl
  · rfl

/-- What the constructor of `DefaultsAndOverrides` makes of the overrides, by the numbers that it
reads: a flag is true exactly when the property is set to a non-empty string; the compress and
the secure value are true exactly when the number read is above 0; the timeout value is that
number when it is -1 or at least 1 and is -1 otherwise, and when the flag is true and the number
is neither, the warning that names the property has been written. -/
theorem create_overrides_by_number (h : Helpers) (p : PropertiesI) (w : List Warning)
    (d : DefaultsAndOverrides) (hd : DefaultsAndOverrides.create h p = (w, .ok d)) :
    (d.overrideTimeout = true ↔ ∃ v, p.find "Ice.Override.Timeout" = some v ∧ v ≠ "") ∧
    (d.overrideCompress = true ↔ ∃ v, p.find "Ice.Override.Compress" = some v ∧ v ≠ "") ∧
    (d.overrideSecure = true ↔ ∃ v, p.find "Ice.Override.Secure" = some v ∧ v ≠ "") ∧
    (d.overrideCompressValue = true ↔ (p.getPropertyAsInt "Ice.Override.Compress").1 > 0) ∧
    (d.overrideSecureValue = true ↔ (p.getPropertyAsInt "Ice.Override.Secure").1 > 0) ∧
    ((p.getPropertyAsInt "Ice.Override.Timeout").1 = -1 ∨
        (p.getPropertyAsInt "Ice.Override.Timeout").1 ≥ 1 →
      d.overrideTimeoutValue = (p.getPropertyAsInt "Ice.Override.Timeout").1) ∧
    (¬ ((p.getPropertyAsInt "Ice.Override.Timeout").1 = -1 ∨
        (p.getPropertyAsInt "Ice.Override.Timeout").1 ≥ 1) →
      d.overrideTimeoutValue = -1 ∧
      (d.overrideTimeout = true →
        Warning.logger ("invalid value for Ice.Override.Timeout `"
          ++ p.getProperty "Ice.Override.Timeout" ++ "': defaulting to -1") ∈ w)) := by
  obtain ⟨_, _, _, _, t1, t2, c1, c2, s1, s2, hw⟩ := create_ok_fields h p w d hd
  have flag : ∀ key, (DefaultsAndOverrides.readOverrideFlag p key).1.1
      = !(p.getProperty key).isEmpty := by
    intro key
    unfold DefaultsAndOverrides.readOverrideFlag
    simp only
    split_ifs with he <;> simp [he]
  have value : ∀ key, ((DefaultsAndOverrides.readOverrideFlag p key).1.2 = true
      ↔ (p.getPropertyAsInt key).1 > 0) := by
    intro key
    unfold DefaultsAndOverrides.readOverrideFlag
    simp only
    split_ifs with he
    · simp
    · have he' : (p.getProperty key).isEmpty = true := by simpa using he
      simp [getPropertyAsInt_of_empty p key he']
  refine ⟨?_, ?_, ?_, ?_, ?_, ?_, ?_⟩
  · rw [t1, ← getProperty_not_empty_iff]
    unfold DefaultsAndOverrides.readOverrideTimeout
    simp only
    split_ifs with he <;> simp [he]
  · rw [c1, flag, getProperty_not_empty_iff]
  · rw [s1, flag, getProperty_not_empty_iff]
  · rw [c2]; exact value _
  · rw [s2]; exact value _
  · intro hn
    rw [t2]
    unfold DefaultsAndOverrides.readOverrideTimeout
    simp only
    split_ifs with he hbad
    · exfalso
      simp only [Bool.and_eq_true, decide_eq_true_eq, bne_iff_ne, ne_eq] at hbad
      omega
    · rfl
    · have he' : (p.getProperty "Ice.Override.Timeout").isEmpty = true := by simpa using he
      have := getPropertyAsInt_of_empty p _ he'
      omega
  · intro hn
    have hbad : ((p.getPropertyAsInt "Ice.Override.Timeout").1 < 1
        && (p.getPropertyAsInt "Ice.Override.Timeout").1 != -1) = true := by
      simp only [Bool.and_eq_true, decide_eq_true_eq, bne_iff_ne, ne_eq]
      omega
    constructor
    · rw [t2]
      unfold DefaultsAndOverrides.readOverrideTimeout
      simp only
      split_ifs with he <;> rfl
    · intro hflag
      apply hw
      have he : (!(p.getProperty "Ice.Override.Timeout").isEmpty) = true := by
        by_contra hne
        rw [t1] at hflag
        unfold DefaultsAndOverrides.readOverrideTimeout at hflag
        simp only at hflag
        rw [if_neg hne] at hflag
        exact Bool.noConfusion hflag
      unfold DefaultsAndOverrides.readOverrideTimeout
      simp only
      rw [if_pos he, if_pos hbad]
      simp

/-- C18: for every object that the constructor of `DefaultsAndOverrides` returns, and for each of
`Ice.Override.Timeout`, `Ice.Override.Compress` and `Ice.Override.Secure`: the override flag is
true exactly when the property is set to a non-empty string. With `Ice.Override.Compress` or
`Ice.Override.Secure` set to a decimal numeral of the integer `n` the forced value is true exactly
when `n > 0`, so that 0 forces false. With `Ice.Override.Timeout` set to a numeral of `n` the
forced value is `n` when `n` is -1 or at least 1, and is -1 for every other `n`, and then the
warning that names the property and its value has been written. -/
theorem C18_overrides (h : Helpers) (p : PropertiesI) (w : List Warning)
    (d : DefaultsAndOverrides) (hd : DefaultsAndOverrides.create h p = (w, .ok d)) :
    (d.overrideTimeout = true ↔ ∃ v, p.find "Ice.Override.Timeout" = some v ∧ v ≠ "") ∧
    (d.overrideCompress = true ↔ ∃ v, p.find "Ice.Override.Compress" = some v ∧ v ≠ "") ∧
    (d.overrideSecure = true ↔ ∃ v, p.find "Ice.Override.Secure" = some v ∧ v ≠ "") ∧
    (∀ v n, p.find "Ice.Override.Compress" = some v → IsNumeral v n →
      (d.overrideCompressValue = true ↔ n > 0)) ∧
    (∀ v n, p.find "Ice.Override.Secure" = some v → IsNumeral v n →
      (d.overrideSecureValue = true ↔ n > 0)) ∧
    (∀ v n, p.find "Ice.Override.Timeout" = some v → IsNumeral v n →
      (n = -1 ∨ n ≥ 1 → d.overrideTimeoutValue = n) ∧
      (¬ (n = -1 ∨ n ≥ 1) →
        d.overrideTimeoutValue = -1 ∧
        Warning.logger ("invalid value for Ice.Override.Timeout `" ++ v
          ++ "': defaulting to -1") ∈ w)) := by
  obtain ⟨f1, f2, f3, c, s, t1, t2⟩ := create_overrides_by_number h p w d hd
  have hnum : ∀ key v n, p.find key = some v → IsNumeral v n →
      (p.getPropertyAsInt key).1 = n := by
    intro key v n hf hn
    unfold PropertiesI.getPropertyAsInt
    rw [getPropertyAsIntWithDefault_of_numeral p key v n 0 hf hn]
  refine ⟨f1, f2, f3, ?_, ?_, ?_⟩
  · intro v n hf hn
    rw [hnum _ v n hf hn] at c
    exact c
  · intro v n hf hn
    rw [hnum _ v n hf hn] at s
    exact s
  · intro v n hf hn
    rw [hnum _ v n hf hn] at t1 t2
    refine ⟨t1, fun hbad => ?_⟩
    obtain ⟨t3, t4⟩ := t2 hbad
    refine ⟨t3, ?_⟩
    have hv : p.getProperty "Ice.Override.Timeout" = v := by
      unfold PropertiesI.getProperty
      rw [hf]
    rw [hv] at t4
    apply t4
    rw [f1]
    refine ⟨v, hf, ?_⟩
    intro he
    have := numeral_ne_empty v n hn
    rw [he] at this
    exact absurd this (by decide)

/-- C18 at the properties `Ice.Override.Compress = 1`, `Ice.Override.Secure = 0` and
`Ice.Override.Timeout = 0`: the constructor returns, compression is forced to true, security is
forced to false, and the timeout is forced to -1 with the warning written. -/
theorem C18_overrides_witness :
    ∃ w d, DefaultsAndOverrides.create ⟨fun _ => true, "1.1", fun _ => .ok ⟨1, 1⟩⟩
        ⟨[("Ice.Override.Compress", "1"), ("Ice.Override.Secure", "0"),
          ("Ice.Override.Timeout", "0")]⟩ = (w, .ok d) ∧
      d.overrideCompress = true ∧ d.overrideCompressValue = true ∧
      d.overrideSecure = true ∧ d.overrideSecureValue = false ∧
      d.overrideTimeout = true ∧ d.overrideTimeoutValue = -1 ∧
      Warning.logger "invalid value for Ice.Override.Timeout `0': defaulting to -1" ∈ w := by
  have T := C18_overrides ⟨fun _ => true, "1.1", fun _ => .ok ⟨1, 1⟩⟩
    ⟨[("Ice.Override.Compress", "1"), ("Ice.Override.Secure", "0"),
      ("Ice.Override.Timeout", "0")]⟩
    [Warning.logger "invalid value for Ice.Override.Timeout `0': defaulting to -1"]
    { defaultHost := "", defaultSourceAddress := none, defaultProtocol := "tcp",
      defaultCollocationOptimization := true,
      defaultEndpointSelection := EndpointSelectionType.Random,
      defaultTimeout := 60000, defaultInvocationTimeout := -1,
      defaultLocatorCacheTimeout := -1, defaultPreferSecure := false,
      defaultEncoding := ⟨1, 1⟩, defaultFormat := FormatType.CompactFormat,
      overrideTimeout := true, overrideTimeoutValue := -1,
      overrideConnectTimeout := false, overrideConnectTimeoutValue := -1,
      overrideCloseTimeout := false, overrideCloseTimeoutValue := -1,
      overrideCompress := true, overrideCompressValue := true,
      overrideSecure := true, overrideSecureValue := false } rfl
  obtain ⟨t1, t2, t3, t4, _, t6⟩ := T
  refine ⟨_, _, rfl, t2.2 ⟨"1", rfl, by decide⟩, ?_, t3.2 ⟨"0", rfl, by decide⟩, rfl,
    t1.2 ⟨"0", rfl, by decide⟩, ?_⟩
  · exact (t4 "1" 1 rfl ⟨false, [1], by decide, by decide, by decide,
      by simp [numeralValue, Nat.ofDigits], by decide, by decide⟩).2 (by decide)
  · exact (t6 "0" 0 rfl ⟨false, [0], by decide, by decide, by decide,
      by simp [numeralValue, Nat.ofDigits], by decide, by decide⟩).2 (by decide)

/-- C19: for every reference, whatever its mode among `Twoway`, `Oneway`, `BatchOneway`,
`Datagram` and `BatchDatagram`, `isBatch()` is true exactly when the mode is `BatchOneway` or
`BatchDatagram` and `isTwoway()` is true exactly when the mode is `Twoway`; no reference is both
batch and twoway. -/
theorem C19_mode_predicates (r : Reference) :
    (r.isBatch = true ↔
      r.getMode = Reference.Mode.ModeBatchOneway ∨
      r.getMode = Reference.Mode.ModeBatchDatagram) ∧
    (r.isTwoway = true ↔ r.getMode = Reference.Mode.ModeTwoway) ∧
    ¬ (r.isBatch = true ∧ r.isTwoway = true) := by
  unfold Reference.isBatch Reference.isTwoway Reference.getMode
  cases r._mode <;> decide

/-- C20: for every fixed reference and every argument, `changeAdapterId`, `changeEndpoints`,
`changeLocator`, `changeRouter`, `changeCollocationOptimized`, `changeCacheConnection`,
`changePreferSecure`, `changeEndpointSelection` and `changeLocatorCacheTimeout` signal the
fixed-proxy error and return no reference. -/
theorem C20_fixed_reference_frozen (r : FixedReference) (x : String) (endpoints : List Nat)
    (proxy : Option Nat) (b : Bool) (t : EndpointSelectionType) (n : Int) :
    r.changeAdapterId x = .error LocalException.FixedProxyException ∧
    r.changeEndpoints endpoints = .error LocalException.FixedProxyException ∧
    r.changeLocator proxy = .error LocalException.FixedProxyException ∧
    r.changeRouter proxy = .error LocalException.FixedProxyException ∧
    r.changeCollocationOptimized b = .error LocalException.FixedProxyException ∧
    r.changeCacheConnection b = .error LocalException.FixedProxyException ∧
    r.changePreferSecure b = .error LocalException.FixedProxyException ∧
    r.changeEndpointSelection t = .error LocalException.FixedProxyException ∧
    r.changeLocatorCacheTimeout n = .error LocalException.FixedProxyException ∧
    (∀ p : ReferencePtr, r.changeAdapterId x ≠ .ok p) := by
  refine ⟨rfl, rfl, rfl, rfl, rfl, rfl, rfl, rfl, rfl, ?_⟩
  intro p hp
  cases hp

theorem errorMessages_append (a b : List Event) :
    errorMessages (a ++ b) = errorMessages a ++ errorMessages b := by
  induction a with
  | nil => rfl
  | cons e es ih => cases e <;> simp [errorMessages, ih]

/-- The messages that the body of the loop of a live factory monitor logs for one connection. -/
theorem errorMessages_monitorConnection (mon : MonitorFn) (now : Int) (m : FactoryACMMonitor)
    (inst : InstancePtr) (hi : m._instance = some inst) (c : ConnectionIPtr) :
    errorMessages (FactoryACMMonitor.monitorConnection mon now m c)
      = errorMessageOf (mon c now m._config) := by
  unfold FactoryACMMonitor.monitorConnection
  cases mon c now m._config <;>
    simp [errorMessages, errorMessageOf, FactoryACMMonitor.handleException,
      FactoryACMMonitor.handleExceptionUnknown, hi]

theorem errorMessages_monitorConnections (mon : MonitorFn) (now : Int) (m : FactoryACMMonitor)
    (inst : InstancePtr) (hi : m._instance = some inst) (s : List ConnectionIPtr) :
    errorMessages (FactoryACMMonitor.monitorConnections mon now m s)
      = (s.map (fun c => errorMessageOf (mon c now m._config))).flatten := by
  induction s with
  | nil => rfl
  | cons c cs ih =>
    simp [FactoryACMMonitor.monitorConnections, errorMessages_append,
      errorMessages_monitorConnection mon now m inst hi, ih]

/-- C22 fails as stated: a per-connection monitor that holds connection 4, whose parent factory
monitor has been destroyed, ticks while `monitor` throws an exception: the exception is caught
and the tick returns, but nothing is written to the logger. -/
theorem C22_not_logged_after_parent_destroyed :
    ConnectionACMMonitor.runTimerTask (fun _ _ _ => MonitorOutcome.throwsException "lost") 9
        ⟨none, ⟨60, .HeartbeatOnDispatch, .CloseOnInvocation⟩, [], [], []⟩
        ⟨⟨5, .HeartbeatAlways, .CloseOff⟩, some 4⟩
      = .ok (⟨⟨5, .HeartbeatAlways, .CloseOff⟩, some 4⟩,
             [Event.monitor 4 9 ⟨5, .HeartbeatAlways, .CloseOff⟩]) ∧
    errorMessages [Event.monitor 4 9 ⟨5, .HeartbeatAlways, .CloseOff⟩] = [] :=
  ⟨rfl, rfl⟩

/-- C22 (amended): a tick of a factory monitor and a tick of a per-connection monitor return
whatever the calls of `monitor` do: what `monitor` throws is caught and nothing leaves
`runTimerTask`. A factory monitor that has not been destroyed writes one error message for every
call of `monitor` that throws, in the order of the calls. A per-connection monitor that holds a
connection writes that message exactly when the factory monitor behind `_parent` has not been
destroyed; when it has been, the exception is caught and nothing is written. -/
theorem C22_monitoring_errors_suppressed (mon : MonitorFn) (now : Int)
    (m : FactoryACMMonitor) (k : ConnectionACMMonitor) (parent : FactoryACMMonitor) :
    (∃ m1 ev, FactoryACMMonitor.runTimerTask mon now m = .ok (m1, ev) ∧
      (m._instance ≠ none →
        errorMessages ev
          = (m1._connections.map (fun c => errorMessageOf (mon c now m._config))).flatten)) ∧
    (∃ ev, ConnectionACMMonitor.runTimerTask mon now parent k = .ok (k, ev) ∧
      (∀ c, k._connection = some c →
        (parent._instance ≠ none → errorMessages ev = errorMessageOf (mon c now k._config)) ∧
        (parent._instance = none → errorMessages ev = []))) := by
  constructor
  · cases hi : m._instance with
    | none =>
      refine ⟨{ m with _connections := [] }, [Event.notifyAll],
        by simp [FactoryACMMonitor.runTimerTask, hi], ?_⟩
      intro h; exact absurd rfl h
    | some inst =>
      refine ⟨_, _, runTimerTask_live mon now m inst hi, ?_⟩
      intro _
      by_cases he : FactoryACMMonitor.applyChanges m._connections m._changes = []
      · simp [he, errorMessages]
      · rw [isEmpty_eq_false_of_ne_nil he]
        simp only [Bool.false_eq_true, if_false]
        exact errorMessages_monitorConnections mon now
          { m with _connections := FactoryACMMonitor.applyChanges m._connections m._changes,
                   _changes := [] } inst hi _
  · cases hk : k._connection with
    | none =>
      refine ⟨[], by simp [ConnectionACMMonitor.runTimerTask, hk], ?_⟩
      intro c hc; cases hc
    | some d =>
      unfold ConnectionACMMonitor.runTimerTask
      simp only [hk]
      refine ⟨_, rfl, ?_⟩
      intro c hc
      cases hc
      constructor
      · intro hp
        cases hpi : parent._instance with
        | none => exact absurd hpi hp
        | some inst =>
          cases mon d now k._config <;>
            simp [errorMessages, errorMessageOf, FactoryACMMonitor.handleException,
              FactoryACMMonitor.handleExceptionUnknown, hpi]
      · intro hp
        cases mon d now k._config <;>
          simp [errorMessages, FactoryACMMonitor.handleException,
            FactoryACMMonitor.handleExceptionUnknown, hp]

theorem repeatingTaskScheduled_append (b : Bool) (a c : List Event) :
    repeatingTaskScheduled b (a ++ c)
      = repeatingTaskScheduled (repeatingTaskScheduled b a) c := by
  induction a generalizing b with
  | nil => rfl
  | cons e es ih => cases e <;> simp [repeatingTaskScheduled, ih]

/-- Events without a call on the timer leave the repeating task as it was. -/
theorem repeatingTaskScheduled_of_no_timerCalls (b : Bool) (ev : List Event)
    (h : timerCalls ev = []) : repeatingTaskScheduled b ev = b := by
  induction ev generalizing b with
  | nil => rfl
  | cons e es ih =>
    cases e <;> simp [timerCalls] at h <;> simp [repeatingTaskScheduled, ih _ h]

/-- Every call keeps the invariant, and returns. -/
theorem runOp_invariant (mon : MonitorFn) (inst : InstancePtr) (m : FactoryACMMonitor)
    (scheduled : Bool) (op : Op) (hinv : MonitorInvariant inst m scheduled) :
    ∃ m1 ev, runOp mon m op = .ok (m1, ev) ∧
      MonitorInvariant inst m1 (repeatingTaskScheduled scheduled ev) := by
  obtain ⟨hi, hT, hs, hq⟩ := hinv
  cases op with
  | add c =>
    by_cases hS : m._connections = []
    · refine ⟨_, _, add_of_empty m c inst hi hT hS, hi, hT, ?_, ?_⟩
      · simp [repeatingTaskScheduled]
      · intro h; simp at h
    · refine ⟨_, _, add_of_nonempty m c hT hS, hi, hT, ?_, ?_⟩
      · simpa [repeatingTaskScheduled] using hs
      · intro h; exact absurd h hS
  | remove c =>
    refine ⟨_, _, remove_of_live m c inst hi hT, hi, hT, ?_, ?_⟩
    · simpa [repeatingTaskScheduled] using hs
    · intro h p hp
      rcases List.mem_append.1 hp with hp | hp
      · exact hq h p hp
      · simp at hp; simp [hp]
  | reap c =>
    refine ⟨_, _, rfl, hi, hT, ?_, ?_⟩
    · simpa [repeatingTaskScheduled] using hs
    · exact hq
  | tick now =>
    refine ⟨_, _, runTimerTask_live mon now m inst hi, hi, hT, ?_, ?_⟩
    · by_cases he : FactoryACMMonitor.applyChanges m._connections m._changes = []
      · simp [he, repeatingTaskScheduled]
      · rw [isEmpty_eq_false_of_ne_nil he]
        simp only [Bool.false_eq_true, if_false]
        rw [repeatingTaskScheduled_of_no_timerCalls _ _
          (timerCalls_monitorConnections mon now _ _)]
        have hS : m._connections ≠ [] := by
          intro hS
          apply he
          rw [hS]
          exact applyChanges_nil_of_removals _ (hq hS)
        simp [hs.2 hS, he]
    · intro _ p hp
      simp at hp

/-- Every sequence of calls keeps the invariant, and returns. -/
theorem runOps_invariant (mon : MonitorFn) (inst : InstancePtr) (ops : List Op)
    (m : FactoryACMMonitor) (scheduled : Bool) (hinv : MonitorInvariant inst m scheduled) :
    ∃ m1 ev, runOps mon m ops = .ok (m1, ev) ∧
      MonitorInvariant inst m1 (repeatingTaskScheduled scheduled ev) := by
  induction ops generalizing m scheduled with
  | nil => exact ⟨m, [], rfl, hinv⟩
  | cons op rest ih =>
    obtain ⟨m1, ev1, h1, hinv1⟩ := runOp_invariant mon inst m scheduled op hinv
    obtain ⟨m2, ev2, h2, hinv2⟩ := ih m1 _ hinv1
    refine ⟨m2, ev1 ++ ev2, ?_, ?_⟩
    · simp only [runOps, h1, h2]
    · rw [repeatingTaskScheduled_append]
      exact hinv2

/-- C26: let a factory monitor be constructed with a configuration whose timeout is not zero, and
let any calls of `add`, `remove`, `reap` and ticks be made on it, one after the other. Every call
returns, and after them the repeating timer task is scheduled (the last call on the timer that
concerns it was `scheduleRepeated`, not `cancel`) if and only if the registered set is not
empty. -/
theorem C26_timer_scheduled_iff_registered (mon : MonitorFn) (inst : InstancePtr)
    (config : ACMConfig) (hT : config.timeout ≠ 0) (ops : List Op) :
    ∃ m ev, runOps mon (FactoryACMMonitor.create inst config) ops = .ok (m, ev) ∧
      (repeatingTaskScheduled false ev = true ↔ m._connections ≠ []) := by
  have hinv : MonitorInvariant inst (FactoryACMMonitor.create inst config) false :=
    ⟨rfl, hT, by simp [FactoryACMMonitor.create], fun _ _ hp => by
      simp [FactoryACMMonitor.create] at hp⟩
  obtain ⟨m, ev, h, _, _, hs, _⟩ := runOps_invariant mon inst ops _ false hinv
  exact ⟨m, ev, h, hs⟩

theorem C26_timer_scheduled_iff_registered_witness :
    ∃ m ev, runOps (fun _ _ _ => MonitorOutcome.returns)
        (FactoryACMMonitor.create 1 ⟨2, .HeartbeatOnDispatch, .CloseOnInvocation⟩)
        [Op.remove 3, Op.add 5, Op.add 3, Op.tick 7, Op.remove 5, Op.reap 5, Op.remove 3,
         Op.tick 8] = .ok (m, ev) ∧
      (repeatingTaskScheduled false ev = true ↔ m._connections ≠ []) :=
  C26_timer_scheduled_iff_registered (fun _ _ _ => MonitorOutcome.returns) 1
    ⟨2, .HeartbeatOnDispatch, .CloseOnInvocation⟩ (by decide) _

/-- C27: on a factory monitor that has not been destroyed, `acm(t, c, h)` returns a monitor that
holds no connection and whose `getACM()` has the timeout `t`, the close `c` and the heartbeat `h`
where they are supplied and the field of the configuration of the factory where they are not (the
timeouts being values of `int`); `acm` reads the factory monitor and does not change it. `acm` on
a per-connection monitor forwards to the factory monitor behind `_parent`: it returns the same
monitor whatever the configuration of the monitor it is called on. -/
theorem C27_acm_overrides_relative_to_factory (m : FactoryACMMonitor) (inst : InstancePtr)
    (t : Option Int) (c : Option ACMClose) (h : Option ACMHeartbeat)
    (hi : m._instance = some inst)
    (hm : -2147483648 ≤ m._config.timeout ∧ m._config.timeout ≤ 2147483647)
    (ht : ∀ x, t = some x → -2147483648 ≤ x ∧ x ≤ 2147483647) :
    ∃ k, FactoryACMMonitor.acm m t c h = .ok (k, []) ∧
      k._connection = none ∧
      k.getACM = { timeout := t.getD m._config.timeout
                   close := c.getD m._config.close
                   heartbeat := h.getD m._config.heartbeat } ∧
      m.getACM = { timeout := m._config.timeout
                   close := m._config.close
                   heartbeat := m._config.heartbeat } ∧
      ∀ child : ConnectionACMMonitor, ConnectionACMMonitor.acm m child t c h = .ok (k, []) := by
  unfold FactoryACMMonitor.acm
  simp only [hi]
  refine ⟨_, rfl, rfl, ?_, ?_, fun child => ?_⟩
  · cases t with
    | none =>
      cases c <;> cases h <;>
        simp [ConnectionACMMonitor.getACM, wrapInt32_eq_self _ hm.1 hm.2]
    | some x =>
      have hx := ht x rfl
      cases c <;> cases h <;>
        simp [ConnectionACMMonitor.getACM, wrapInt32_eq_self _ hx.1 hx.2]
  · simp [FactoryACMMonitor.getACM, wrapInt32_eq_self _ hm.1 hm.2]
  · simp [ConnectionACMMonitor.acm, FactoryACMMonitor.acm, hi]

theorem C27_acm_overrides_relative_to_factory_witness :
    ∃ k, FactoryACMMonitor.acm
        ⟨some 1, ⟨60, .HeartbeatOnDispatch, .CloseOnInvocation⟩, [], [], []⟩
        (some 5) none (some ACMHeartbeat.HeartbeatAlways) = .ok (k, []) ∧
      k._connection = none ∧
      k.getACM = { timeout := 5, close := ACMClose.CloseOnInvocation,
                   heartbeat := ACMHeartbeat.HeartbeatAlways } ∧
      FactoryACMMonitor.getACM ⟨some 1, ⟨60, .HeartbeatOnDispatch, .CloseOnInvocation⟩, [], [], []⟩
        = { timeout := 60, close := ACMClose.CloseOnInvocation,
            heartbeat := ACMHeartbeat.HeartbeatOnDispatch } ∧
      ∀ child : ConnectionACMMonitor,
        ConnectionACMMonitor.acm
          ⟨some 1, ⟨60, .HeartbeatOnDispatch, .CloseOnInvocation⟩, [], [], []⟩ child
          (some 5) none (some ACMHeartbeat.HeartbeatAlways) = .ok (k, []) :=
  C27_acm_overrides_relative_to_factory
    ⟨some 1, ⟨60, .HeartbeatOnDispatch, .CloseOnInvocation⟩, [], [], []⟩ 1
    (some 5) none (some ACMHeartbeat.HeartbeatAlways) rfl (by decide)
    (by intro x hx; cases hx; decide)

/-- A call of `countDown` whose pthread calls succeed lowers a positive count by one and leaves
any other count. -/
theorem countDown_count (sys : LatchCalls) (l : CountDownLatch)
    (hlock : sys.pthread_mutex_lock = 0) :
    (CountDownLatch.countDown sys l).1._count
      = if l._count > 0 then l._count - 1 else l._count := by
  unfold CountDownLatch.countDown
  simp only [hlock, ne_eq, not_true_eq_false, if_false]
  split_ifs <;> rfl

theorem countDownTimes_count (sys : LatchCalls) (n : Nat) (l : CountDownLatch)
    (hlock : sys.pthread_mutex_lock = 0) (h0 : 0 ≤ l._count) :
    (CountDownLatch.countDownTimes sys n l)._count = max (l._count - n) 0 := by
  induction n generalizing l with
  | zero => simp [CountDownLatch.countDownTimes, h0]
  | succ n ih =>
    have hc := countDown_count sys l hlock
    have h1 : 0 ≤ (CountDownLatch.countDown sys l).1._count := by
      rw [hc]; split_ifs <;> omega
    rw [CountDownLatch.countDownTimes, ih _ h1, hc]
    split_ifs with hp
    · congr 1
      push_cast
      ring
    · have : l._count = 0 := by omega
      rw [this]
      have h2 : (0 : Int) - (↑(n + 1) : Int) ≤ 0 := by omega
      have h3 : (0 : Int) - (↑n : Int) ≤ 0 := by omega
      rw [max_eq_right h2, max_eq_right h3]

/-- C24: when the calls of the pthread library succeed, a latch constructed with a count `c ≥ 0`
reports `getCount() = c`; a call of `countDown()` returns and lowers the count by exactly one
while it is positive, and leaves it at 0 once it is 0; so after `n` calls `getCount()` is
`max (c - n) 0`, and it is not negative. -/
theorem C24_count_down_latch_counting (sys : LatchCalls) (c : Int) (n : Nat)
    (hinit : sys.pthread_mutex_init = 0 ∧ sys.pthread_cond_init = 0)
    (hlock : sys.pthread_mutex_lock = 0 ∧ sys.pthread_mutex_unlock = 0)
    (hbroadcast : sys.pthread_cond_broadcast = 0) (hc : 0 ≤ c) :
    CountDownLatch.create sys c = .ok { _count := c } ∧
    CountDownLatch.getCount sys { _count := c } = .ok c ∧
    (∀ l : CountDownLatch,
      (∃ b, (CountDownLatch.countDown sys l).2 = .ok b) ∧
      (0 < l._count → (CountDownLatch.countDown sys l).1._count = l._count - 1) ∧
      (l._count = 0 → (CountDownLatch.countDown sys l).1._count = 0)) ∧
    CountDownLatch.getCount sys (CountDownLatch.countDownTimes sys n { _count := c })
      = .ok (max (c - n) 0) ∧
    0 ≤ (CountDownLatch.countDownTimes sys n { _count := c })._count := by
  have hcount := countDownTimes_count sys n { _count := c } hlock.1 hc
  refine ⟨?_, ?_, ?_, ?_, ?_⟩
  · have : ¬ c < 0 := by omega
    simp [CountDownLatch.create, this, hinit.1, hinit.2]
  · simp [CountDownLatch.getCount, hlock.1, hlock.2]
  · intro l
    refine ⟨?_, ?_, ?_⟩
    · unfold CountDownLatch.countDown
      simp only [hlock.1, hlock.2, hbroadcast, ne_eq, not_true_eq_false, if_false]
      split_ifs <;> first | exact ⟨true, rfl⟩ | exact ⟨false, rfl⟩
    · intro hp
      rw [countDown_count sys l hlock.1, if_pos hp]
    · intro hz
      rw [countDown_count sys l hlock.1]
      have : ¬ l._count > 0 := by omega
      rw [if_neg this, hz]
  · simp only [CountDownLatch.getCount, hlock.1, hlock.2, ne_eq, not_true_eq_false, if_false]
    rw [hcount]
  · rw [hcount]
    exact le_max_right _ _

theorem C24_count_down_latch_counting_witness :
    CountDownLatch.getCount ⟨0, 0, 0, 0, 0⟩
        (CountDownLatch.countDownTimes ⟨0, 0, 0, 0, 0⟩ 15 { _count := 11 })
      = .ok (max (11 - ((15 : Nat) : Int)) 0) :=
  (C24_count_down_latch_counting ⟨0, 0, 0, 0, 0⟩ 11 15 (by decide) (by decide) (by decide)
    (by decide)).2.2.2.1

/-- `start` on a thread object that has been started. -/
theorem start_of_started (sys : ThreadCalls) (t : Thread) (stackSize : Nat) (realtime : Bool)
    (priority : Int) (h : t._started = true) :
    Thread.start sys t stackSize realtime priority
      = { thread := t, calls := [],
          outcome := .error ThreadException.ThreadStartedException } := by
  unfold Thread.start
  rw [if_pos h]

/-- A thread object that has been started stays started. -/
theorem runThreadOps_started (ops : List ThreadOp) (t : Thread) (h : t._started = true) :
    (runThreadOps t ops)._started = true := by
  induction ops generalizing t with
  | nil => exact h
  | cons op rest ih =>
    cases op with
    | done => exact ih _ h
    | join => exact ih _ h
    | start sys stackSize realtime priority =>
      apply ih
      rw [start_of_started sys t stackSize realtime priority h]
      exact h

/-- C25: let `start` have returned on a thread object. Then the object is marked as started, and
whatever happens to it afterwards (its `run()` returns, it is joined, `start` is called again),
it stays so, and every later call of `start` throws `ThreadStartedException`, makes no call of
the pthread library, so creates no thread, and leaves the object as it is. -/
theorem C25_thread_started_at_most_once (sys : ThreadCalls) (t : Thread) (stackSize : Nat)
    (realtime : Bool) (priority : Int) (control : ThreadControl)
    (hstart : (Thread.start sys t stackSize realtime priority).outcome = .ok control) :
    (Thread.start sys t stackSize realtime priority).thread._started = true ∧
    ∀ (later : List ThreadOp) (sys2 : ThreadCalls) (stackSize2 : Nat) (realtime2 : Bool)
      (priority2 : Int),
      (runThreadOps (Thread.start sys t stackSize realtime priority).thread later)._started
        = true ∧
      (Thread.start sys2
          (runThreadOps (Thread.start sys t stackSize realtime priority).thread later)
          stackSize2 realtime2 priority2).outcome
        = .error ThreadException.ThreadStartedException ∧
      (Thread.start sys2
          (runThreadOps (Thread.start sys t stackSize realtime priority).thread later)
          stackSize2 realtime2 priority2).calls = [] ∧
      (Thread.start sys2
          (runThreadOps (Thread.start sys t stackSize realtime priority).thread later)
          stackSize2 realtime2 priority2).thread
        = runThreadOps (Thread.start sys t stackSize realtime priority).thread later := by
  have hs : (Thread.start sys t stackSize realtime priority).thread._started = true := by
    unfold Thread.start at hstart ⊢
    by_cases h1 : t._started = true
    · rw [if_pos h1] at hstart; simp at hstart
    · rw [if_neg h1] at hstart ⊢
      rcases hp : Thread.prepareAttributes sys stackSize realtime priority with ⟨calls, _ | e⟩
      · simp only [hp] at hstart ⊢
        by_cases h2 : sys.pthread_create.1 ≠ 0
        · rw [if_pos h2] at hstart; simp at hstart
        · rw [if_neg h2]
      · simp [hp] at hstart
  refine ⟨hs, ?_⟩
  intro later sys2 stackSize2 realtime2 priority2
  have hl := runThreadOps_started later _ hs
  rw [start_of_started sys2 _ stackSize2 realtime2 priority2 hl]
  exact ⟨hl, rfl, rfl, rfl⟩

theorem C25_thread_started_at_most_once_witness :
    (Thread.start ⟨16384, 0, fun _ => 0, 0, fun _ => 0, (0, 77)⟩
        (runThreadOps
          (Thread.start ⟨16384, 0, fun _ => 0, 0, fun _ => 0, (0, 77)⟩ (Thread.create "t") 0
            false 0).thread
          [ThreadOp.done, ThreadOp.join])
        0 false 0).outcome
      = .error ThreadException.ThreadStartedException :=
  ((C25_thread_started_at_most_once ⟨16384, 0, fun _ => 0, 0, fun _ => 0, (0, 77)⟩
      (Thread.create "t") 0 false 0 ⟨77, true⟩ rfl).2
    [ThreadOp.done, ThreadOp.join] ⟨16384, 0, fun _ => 0, 0, fun _ => 0, (0, 77)⟩ 0 false
    0).2.1

/-! ## Lemmas on the map of the properties -/

/-- The entry of the key that was set is found with the new value. -/
theorem lookup_mapSet_self (key value : String) (m : List (String × String)) :
    (mapSet key value m).lookup key = some value := by
  induction m with
  | nil => simp [mapSet, List.lookup]
  | cons x xs ih =>
    obtain ⟨a, b⟩ := x
    unfold mapSet
    by_cases h1 : key < a
    · simp [h1, List.lookup]
    · by_cases h2 : key = a
      · simp [h2, List.lookup]
      · have h3 : (key == a) = false := by simpa using h2
        simp only [h1, h2, if_false, List.lookup, h3]
        exact ih

/-- The entries of the other keys are found as before a key was set. -/
theorem lookup_mapSet_other (key value other : String) (m : List (String × String))
    (h : other ≠ key) : (mapSet key value m).lookup other = m.lookup other := by
  have hk : (other == key) = false := by simpa using h
  induction m with
  | nil => simp [mapSet, List.lookup, hk]
  | cons x xs ih =>
    obtain ⟨a, b⟩ := x
    unfold mapSet
    by_cases h1 : key < a
    · simp only [h1, if_true]
      rw [List.lookup_cons, hk]
    · by_cases h2 : key = a
      · subst h2
        simp only [lt_self_iff_false, if_false, if_true, List.lookup_cons, hk]
      · simp only [h1, h2, if_false, List.lookup_cons]
        rw [ih]

/-- Erasing a key drops a first entry with that key. -/
theorem mapErase_cons_self (key b : String) (xs : List (String × String)) :
    mapErase key ((key, b) :: xs) = mapErase key xs := by
  unfold mapErase
  rw [List.filter_cons]
  simp

/-- Erasing a key keeps a first entry with another key. -/
theorem mapErase_cons_other (key a b : String) (xs : List (String × String)) (h : a ≠ key) :
    mapErase key ((a, b) :: xs) = (a, b) :: mapErase key xs := by
  unfold mapErase
  rw [List.filter_cons]
  simp [h]

/-- The key that was erased is not found. -/
theorem lookup_mapErase_self (key : String) (m : List (String × String)) :
    (mapErase key m).lookup key = none := by
  induction m with
  | nil => rfl
  | cons x xs ih =>
    obtain ⟨a, b⟩ := x
    by_cases h : a = key
    · subst h
      rw [mapErase_cons_self]
      exact ih
    · have h3 : (key == a) = false := by simpa using Ne.symm h
      rw [mapErase_cons_other _ _ _ _ h, List.lookup_cons, h3]
      exact ih

/-- The entries of the other keys are found as before a key was erased. -/
theorem lookup_mapErase_other (key other : String) (m : List (String × String))
    (h : other ≠ key) : (mapErase key m).lookup other = m.lookup other := by
  induction m with
  | nil => rfl
  | cons x xs ih =>
    obtain ⟨a, b⟩ := x
    by_cases h1 : a = key
    · subst h1
      have h3 : (other == a) = false := by simpa using h
      rw [mapErase_cons_self, List.lookup_cons, h3]
      exact ih
    · rw [mapErase_cons_other _ _ _ _ h1, List.lookup_cons, List.lookup_cons, ih]

/-- The keys of a map after a key was set are that key and those of before. -/
theorem mem_keys_mapSet (key value a : String) (m : List (String × String))
    (h : a ∈ (mapSet key value m).map Prod.fst) : a = key ∨ a ∈ m.map Prod.fst := by
  induction m with
  | nil => simpa [mapSet] using h
  | cons x xs ih =>
    unfold mapSet at h
    by_cases h1 : key < x.1
    · simp only [h1, if_true, List.map_cons, List.mem_cons] at h
      simpa using h
    · by_cases h2 : key = x.1
      · rw [if_neg h1, if_pos h2] at h
        simp only [List.map_cons, List.mem_cons] at h
        rcases h with h | h
        · exact Or.inl h
        · exact Or.inr (by simp [h])
      · rw [if_neg h1, if_neg h2] at h
        simp only [List.map_cons, List.mem_cons] at h
        rcases h with h | h
        · exact Or.inr (by simp [h])
        · rcases ih h with h | h
          · exact Or.inl h
          · exact Or.inr (by simp [h])

/-- The keys of the dictionary built from some entries are keys of these entries. -/
theorem mem_keys_foldl_mapSet (a : String) (es acc : List (String × String))
    (h : a ∈ (es.foldl (fun result e => mapSet e.1 e.2 result) acc).map Prod.fst) :
    a ∈ acc.map Prod.fst ∨ a ∈ es.map Prod.fst := by
  induction es generalizing acc with
  | nil => exact Or.inl h
  | cons e es ih =>
    rcases ih _ h with h1 | h1
    · rcases mem_keys_mapSet _ _ _ _ h1 with h2 | h2
      · exact Or.inr (by simp [h2])
      · exact Or.inl h2
    · exact Or.inr (by simp [h1])

/-- A key of the dictionary that `getPropertiesForPrefix` returns is a key of the properties. -/
theorem mem_keys_getPropertiesForPrefix (p : PropertiesI) (pfx a : String)
    (h : a ∈ (p.getPropertiesForPrefix pfx).map Prod.fst) :
    a ∈ p._properties.map Prod.fst := by
  unfold PropertiesI.getPropertiesForPrefix at h
  rcases mem_keys_foldl_mapSet _ _ _ h with h1 | h1
  · simp at h1
  · obtain ⟨e, he, rfl⟩ := List.mem_map.1 h1
    exact List.mem_map.2 ⟨e, (List.mem_filter.1 he).1, rfl⟩

/-- An erased key is not among the keys. -/
theorem not_mem_keys_mapErase (key : String) (m : List (String × String)) :
    key ∉ (mapErase key m).map Prod.fst := by
  intro h
  obtain ⟨e, he, h1⟩ := List.mem_map.1 h
  have := (List.mem_filter.1 he).2
  simp [h1] at this

/-- A key without a `.` goes through `setProperty` as it is. -/
theorem setProperty_of_plain_key (tools : PropertyTools) (p : PropertiesI) (key value : String)
    (htrim : tools.trim key = key) (hne : key ≠ "") (hdot : '.' ∉ key.toList) :
    PropertiesI.setProperty tools p key value
      = if !value.isEmpty then .ok ({ _properties := mapSet key value p._properties }, [])
        else .ok ({ _properties := mapErase key p._properties }, []) := by
  have he : key.isEmpty = false := by
    have := String.isEmpty_iff key
    cases hb : key.isEmpty <;> simp_all
  unfold PropertiesI.setProperty
  simp only [htrim, he, Bool.false_eq_true, if_false, PropertiesI.checkKey, beforeDot, hdot]

/-- A value that is not the empty string. -/
theorem isEmpty_eq_false_of_ne (v : String) (h : v ≠ "") : v.isEmpty = false := by
  have := String.isEmpty_iff v
  cases hb : v.isEmpty <;> simp_all

/-- C23: for a key `k` that `trim` leaves as it is, that is not empty and has no `.`, and a value
`v` that is not empty: `getProperty(k)` is the empty string while `k` has no entry;
`setProperty(k, v)` returns, without a warning, and then `getProperty(k)` is `v` and every other
key is found as before; `setProperty(k, "")` returns and then `k` has no entry, `getProperty(k)`
is the empty string, `k` is not a key of `getPropertiesForPrefix("")` and every other key is found
as before; and `setProperty` with a key that `trim` makes empty throws `InitializationException`
and hands back no changed property set. -/
theorem C23_property_set_get_remove (tools : PropertyTools) (p : PropertiesI) (k v : String)
    (htrim : tools.trim k = k) (hne : k ≠ "") (hdot : '.' ∉ k.toList) (hv : v ≠ "") :
    (PropertiesI.getProperty { _properties := [] } k = "") ∧
    (p.find k = none → p.getProperty k = "") ∧
    (∃ p1, PropertiesI.setProperty tools p k v = .ok (p1, []) ∧
      p1.getProperty k = v ∧
      ∀ other, other ≠ k →
        p1.find other = p.find other ∧ p1.getProperty other = p.getProperty other) ∧
    (∃ p2, PropertiesI.setProperty tools p k "" = .ok (p2, []) ∧
      p2.find k = none ∧ p2.getProperty k = "" ∧
      k ∉ (p2.getPropertiesForPrefix "").map Prod.fst ∧
      ∀ other, other ≠ k →
        p2.find other = p.find other ∧ p2.getProperty other = p.getProperty other) ∧
    (∀ key value, tools.trim key = "" →
      PropertiesI.setProperty tools p key value
        = .error (Stopped.thrown (LocalException.InitializationException
            "Attempt to set property with empty key"))) := by
  refine ⟨rfl, ?_, ?_, ?_, ?_⟩
  · intro h
    unfold PropertiesI.getProperty
    rw [h]
  · refine ⟨{ _properties := mapSet k v p._properties }, ?_, ?_, ?_⟩
    · rw [setProperty_of_plain_key tools p k v htrim hne hdot, isEmpty_eq_false_of_ne v hv]
      rfl
    · unfold PropertiesI.getProperty PropertiesI.find
      simp only [lookup_mapSet_self]
    · intro other ho
      unfold PropertiesI.getProperty PropertiesI.find
      simp only [lookup_mapSet_other k v other p._properties ho, and_self]
  · refine ⟨{ _properties := mapErase k p._properties }, ?_, ?_, ?_, ?_, ?_⟩
    · rw [setProperty_of_plain_key tools p k "" htrim hne hdot]
      rfl
    · exact lookup_mapErase_self k p._properties
    · unfold PropertiesI.getProperty PropertiesI.find
      simp only [lookup_mapErase_self]
    · intro h
      exact not_mem_keys_mapErase k p._properties (mem_keys_getPropertiesForPrefix _ _ _ h)
    · intro other ho
      unfold PropertiesI.getProperty PropertiesI.find
      simp only [lookup_mapErase_other k other p._properties ho, and_self]
  · intro key value h
    unfold PropertiesI.setProperty
    simp only [h]
    rfl

/-- C23 at the key `Prop` and the value `1`, with the properties `A = 0` and `Z = 2` set. -/
theorem C23_property_set_get_remove_witness :
    PropertiesI.getProperty { _properties := [] } "Prop" = "" ∧
    (PropertiesI.find { _properties := [("A", "0"), ("Z", "2")] } "Prop" = none →
      PropertiesI.getProperty { _properties := [("A", "0"), ("Z", "2")] } "Prop" = "") ∧
    (∃ p1, PropertiesI.setProperty PropertyTools.simple
        { _properties := [("A", "0"), ("Z", "2")] } "Prop" "1" = .ok (p1, []) ∧
      p1.getProperty "Prop" = "1" ∧
      ∀ other, other ≠ "Prop" →
        p1.find other = PropertiesI.find { _properties := [("A", "0"), ("Z", "2")] } other ∧
        p1.getProperty other
          = PropertiesI.getProperty { _properties := [("A", "0"), ("Z", "2")] } other) ∧
    (∃ p2, PropertiesI.setProperty PropertyTools.simple
        { _properties := [("A", "0"), ("Z", "2")] } "Prop" "" = .ok (p2, []) ∧
      p2.find "Prop" = none ∧ p2.getProperty "Prop" = "" ∧
      "Prop" ∉ (p2.getPropertiesForPrefix "").map Prod.fst ∧
      ∀ other, other ≠ "Prop" →
        p2.find other = PropertiesI.find { _properties := [("A", "0"), ("Z", "2")] } other ∧
        p2.getProperty other
          = PropertiesI.getProperty { _properties := [("A", "0"), ("Z", "2")] } other) ∧
    (∀ key value, PropertyTools.simple.trim key = "" →
      PropertiesI.setProperty PropertyTools.simple
          { _properties := [("A", "0"), ("Z", "2")] } key value
        = .error (Stopped.thrown (LocalException.InitializationException
            "Attempt to set property with empty key"))) :=
  C23_property_set_get_remove PropertyTools.simple { _properties := [("A", "0"), ("Z", "2")] }
    "Prop" "1" (by decide) (by decide) (by decide) (by decide)

/-! ## Lemmas on the loop of `parseLine` -/

/-- The loop at a character other than a backslash and `#`. -/
theorem parseChars_cons (st : LineState) (c : Char) (rest : List Char)
    (h1 : c ≠ '\\') (h2 : c ≠ '#') :
    parseChars st (c :: rest) = parseChars (st.plain c) rest := by
  rw [parseChars.eq_def]
  simp only [if_neg h1, if_neg h2]

/-- The loop ends at `#`. -/
theorem parseChars_hash (st : LineState) (rest : List Char) :
    parseChars st ('#' :: rest) = st := by
  rw [parseChars.eq_def]
  simp only [if_neg (show ¬ '#' = '\\' by decide), if_pos]

/-- The loop over what is left when a comment follows or the line ends. -/
theorem parseChars_comment (st : LineState) (comment : List Char)
    (h : comment = [] ∨ ∃ text, comment = '#' :: text) : parseChars st comment = st := by
  rcases h with h | ⟨text, h⟩
  · rw [h]
    rfl
  · rw [h, parseChars_hash]

/-- White space is neither a backslash nor `#`. -/
theorem isBlank_ne (c : Char) (h : isBlank c) : c ≠ '\\' ∧ c ≠ '#' ∧ c ≠ '=' := by
  rcases h with h | h | h | h <;> subst h <;> decide

/-- White space before the key is skipped. -/
theorem parseChars_blanks_before_key (st : LineState) (ws rest : List Char)
    (hk : st.key = []) (hs : st.inValue = false) (hws : ∀ c ∈ ws, isBlank c) :
    parseChars st (ws ++ rest) = parseChars st rest := by
  induction ws with
  | nil => rfl
  | cons c ws ih =>
    have hc := hws c (List.mem_cons_self _ _)
    have hn := isBlank_ne c hc
    rw [List.cons_append, parseChars_cons st c _ hn.1 hn.2.1]
    have hp : st.plain c = st := by
      unfold LineState.plain
      unfold isBlank at hc
      simp [hs, hc, hk]
    rw [hp]
    exact ih (fun d hd => hws d (List.mem_cons_of_mem _ hd))

/-- The characters of the key are appended to the key. -/
theorem parseChars_key (key value esc k rest : List Char) (hk : ∀ c ∈ k, isPlain c) :
    parseChars { key := key, value := value, whitespace := [], escapedspace := esc,
                 inValue := false } (k ++ rest)
      = parseChars { key := key ++ k, value := value, whitespace := [], escapedspace := esc,
                     inValue := false } rest := by
  induction k generalizing key with
  | nil => simp
  | cons c k ih =>
    have hc := hk c (List.mem_cons_self _ _)
    rw [List.cons_append, parseChars_cons _ c _ hc.2.2.2 hc.2.1]
    have hp : LineState.plain
        { key := key, value := value, whitespace := [], escapedspace := esc, inValue := false } c
        = { key := key ++ [c], value := value, whitespace := [], escapedspace := esc,
            inValue := false } := by
      have hb := hc.1
      unfold isBlank at hb
      unfold LineState.plain
      simp [hb, hc.2.2.1]
    rw [hp, ih (key ++ [c]) (fun d hd => hk d (List.mem_cons_of_mem _ hd))]
    simp

/-- White space after the key is kept aside. -/
theorem parseChars_blanks_after_key (key value w esc ws rest : List Char) (hk : key ≠ [])
    (hws : ∀ c ∈ ws, isBlank c) :
    parseChars { key := key, value := value, whitespace := w, escapedspace := esc,
                 inValue := false } (ws ++ rest)
      = parseChars { key := key, value := value, whitespace := w ++ ws, escapedspace := esc,
                     inValue := false } rest := by
  induction ws generalizing w with
  | nil => simp
  | cons c ws ih =>
    have hc := hws c (List.mem_cons_self _ _)
    have hn := isBlank_ne c hc
    rw [List.cons_append, parseChars_cons _ c _ hn.1 hn.2.1]
    have hp : LineState.plain
        { key := key, value := value, whitespace := w, escapedspace := esc, inValue := false } c
        = { key := key, value := value, whitespace := w ++ [c], escapedspace := esc,
            inValue := false } := by
      unfold isBlank at hc
      unfold LineState.plain
      simp [hc, hk]
    rw [hp, ih (w ++ [c]) (fun d hd => hws d (List.mem_cons_of_mem _ hd))]
    simp

/-- The sign `=` after the key drops the white space kept aside and starts the value. -/
theorem parseChars_equals (key value w esc rest : List Char) :
    parseChars { key := key, value := value, whitespace := w, escapedspace := esc,
                 inValue := false } ('=' :: rest)
      = parseChars { key := key, value := value, whitespace := [], escapedspace := esc,
                     inValue := true } rest := by
  rw [parseChars_cons _ '=' _ (by decide) (by decide)]
  rfl

/-- White space before the value is skipped. -/
theorem parseChars_blanks_before_value (st : LineState) (ws rest : List Char)
    (hv : st.value = []) (hs : st.inValue = true) (hws : ∀ c ∈ ws, isBlank c) :
    parseChars st (ws ++ rest) = parseChars st rest := by
  induction ws with
  | nil => rfl
  | cons c ws ih =>
    have hc := hws c (List.mem_cons_self _ _)
    have hn := isBlank_ne c hc
    rw [List.cons_append, parseChars_cons st c _ hn.1 hn.2.1]
    have hp : st.plain c = st := by
      unfold LineState.plain
      unfold isBlank at hc
      simp [hs, hc, hv]
    rw [hp]
    exact ih (fun d hd => hws d (List.mem_cons_of_mem _ hd))

/-- A character of the value that is taken as it is: the white space kept aside and the character
are appended to the value. -/
theorem plain_value_char (key value w : List Char) (c : Char) (hc : isPlain c)
    (h : value = [] → w = []) :
    LineState.plain { key := key, value := value, whitespace := w, escapedspace := [],
                      inValue := true } c
      = { key := key, value := value ++ w ++ [c], whitespace := [], escapedspace := [],
          inValue := true } := by
  have hb := hc.1
  unfold isBlank at hb
  unfold LineState.plain LineState.pending
  cases value with
  | nil => simp [hb, h rfl]
  | cons a l => simp [hb]

/-- White space inside or after the value is kept aside. -/
theorem plain_value_blank (key value w : List Char) (c : Char) (hc : isBlank c)
    (h : value ≠ []) :
    LineState.plain { key := key, value := value, whitespace := w, escapedspace := [],
                      inValue := true } c
      = { key := key, value := value, whitespace := w ++ [c], escapedspace := [],
          inValue := true } := by
  unfold isBlank at hc
  unfold LineState.plain
  simp [hc, h]

/-- The loop over characters of the value, once the value has a character: the value and the
white space kept aside make up what was read. -/
theorem parseChars_value (key u rest : List Char) (hu : ∀ c ∈ u, isPlain c ∨ isBlank c) :
    ∀ value w : List Char, value ≠ [] →
    ∃ value1 w1 : List Char,
      parseChars { key := key, value := value, whitespace := w, escapedspace := [],
                   inValue := true } (u ++ rest)
        = parseChars { key := key, value := value1, whitespace := w1, escapedspace := [],
                       inValue := true } rest ∧
      value1 ++ w1 = value ++ w ++ u ∧ value1 ≠ [] := by
  induction u with
  | nil =>
    intro value w hv
    exact ⟨value, w, rfl, by simp, hv⟩
  | cons c u ih =>
    intro value w hv
    have hu1 : ∀ d ∈ u, isPlain d ∨ isBlank d := fun d hd => hu d (List.mem_cons_of_mem _ hd)
    rcases hu c (List.mem_cons_self _ _) with hc | hc
    · obtain ⟨value1, w1, h1, h2, h3⟩ := ih hu1 (value ++ w ++ [c]) [] (by simp)
      refine ⟨value1, w1, ?_, ?_, h3⟩
      · rw [List.cons_append, parseChars_cons _ c _ hc.2.2.2 hc.2.1,
          plain_value_char key value w c hc (fun h => absurd h hv)]
        exact h1
      · rw [h2]
        simp
    · have hn := isBlank_ne c hc
      obtain ⟨value1, w1, h1, h2, h3⟩ := ih hu1 value (w ++ [c]) hv
      refine ⟨value1, w1, ?_, ?_, h3⟩
      · rw [List.cons_append, parseChars_cons _ c _ hn.1 hn.2.1,
          plain_value_blank key value w c hc hv]
        exact h1
      · rw [h2]
        simp

/-- The steps of the loop in the state `Value` keep the key and the state. -/
theorem value_steps_keep_key (st : LineState) (c : Char) (hs : st.inValue = true) :
    ((st.plain c).inValue = true ∧ (st.plain c).key = st.key) ∧
    ((st.escaped c).inValue = true ∧ (st.escaped c).key = st.key) ∧
    (st.lastBackslash.inValue = true ∧ st.lastBackslash.key = st.key) := by
  obtain ⟨k, v, w, e, s⟩ := st
  simp only at hs
  subst hs
  unfold LineState.plain LineState.escaped LineState.lastBackslash
  simp only [Bool.not_true, Bool.false_eq_true, if_false]
  refine ⟨?_, ?_, ?_⟩
  · split_ifs <;> exact ⟨rfl, rfl⟩
  · split_ifs <;> exact ⟨rfl, rfl⟩
  · trivial

/-- The loop in the state `Value` keeps the key and the state, whatever is left of the line. -/
theorem parseChars_value_keeps_key (n : Nat) :
    ∀ (rest : List Char) (st : LineState), rest.length ≤ n → st.inValue = true →
      (parseChars st rest).inValue = true ∧ (parseChars st rest).key = st.key := by
  induction n using Nat.strong_induction_on with
  | _ n ih =>
    intro rest st hn hs
    cases rest with
    | nil => exact ⟨hs, rfl⟩
    | cons c rest =>
      rw [parseChars.eq_def]
      simp only
      by_cases h1 : c = '\\'
      · rw [if_pos h1]
        cases rest with
        | nil => exact (value_steps_keep_key st c hs).2.2
        | cons c1 rest1 =>
          have hstep := (value_steps_keep_key st c1 hs).2.1
          simp only [List.length_cons] at hn
          have := ih (rest1.length) (by omega) rest1 (st.escaped c1) le_rfl hstep.1
          exact ⟨this.1, this.2.trans hstep.2⟩
      · rw [if_neg h1]
        by_cases h2 : c = '#'
        · rw [if_pos h2]
          exact ⟨hs, rfl⟩
        · rw [if_neg h2]
          have hstep := (value_steps_keep_key st c hs).1
          simp only [List.length_cons] at hn
          have := ih (rest.length) (by omega) rest (st.plain c) le_rfl hstep.1
          exact ⟨this.1, this.2.trans hstep.2⟩

/-- White space after the value is kept aside. -/
theorem parseChars_blanks_after_value (key value w ws rest : List Char) (hv : value ≠ [])
    (hws : ∀ c ∈ ws, isBlank c) :
    parseChars { key := key, value := value, whitespace := w, escapedspace := [],
                 inValue := true } (ws ++ rest)
      = parseChars { key := key, value := value, whitespace := w ++ ws, escapedspace := [],
                     inValue := true } rest := by
  induction ws generalizing w with
  | nil => simp
  | cons c ws ih =>
    have hc := hws c (List.mem_cons_self _ _)
    have hn := isBlank_ne c hc
    rw [List.cons_append, parseChars_cons _ c _ hn.1 hn.2.1, plain_value_blank key value w c hc hv,
      ih (w ++ [c]) (fun d hd => hws d (List.mem_cons_of_mem _ hd))]
    simp

/-- The loop over a value that starts and ends with characters taken as they are. -/
theorem parseChars_whole_value (key v rest : List Char) (hv : v ≠ [])
    (hvc : ∀ c ∈ v, isPlain c ∨ isBlank c) (hfirst : ∀ c, v.head? = some c → isPlain c)
    (hlast : ∀ c, v.getLast? = some c → isPlain c) :
    parseChars { key := key, value := [], whitespace := [], escapedspace := [],
                 inValue := true } (v ++ rest)
      = parseChars { key := key, value := v, whitespace := [], escapedspace := [],
                     inValue := true } rest := by
  cases v with
  | nil => exact absurd rfl hv
  | cons c0 t =>
    have h0 : isPlain c0 := hfirst c0 rfl
    rw [List.cons_append, parseChars_cons _ c0 _ h0.2.2.2 h0.2.1,
      plain_value_char key [] [] c0 h0 (fun _ => rfl)]
    rcases List.eq_nil_or_concat t with ht | ⟨u, c1, ht⟩
    · subst ht
      rfl
    · rw [List.concat_eq_append] at ht
      subst ht
      have h1 : isPlain c1 := hlast c1 (by
        rw [← List.cons_append, List.getLast?_concat])
      have hu : ∀ c ∈ u, isPlain c ∨ isBlank c := fun c hc =>
        hvc c (List.mem_cons_of_mem _ (List.mem_append_left _ hc))
      obtain ⟨value1, w1, e1, e2, e3⟩ :=
        parseChars_value key u (c1 :: rest) hu ([] ++ [] ++ [c0]) [] (by simp)
      have e0 : u ++ [c1] ++ rest = u ++ c1 :: rest := by simp
      rw [e0]
      change parseChars { key := key, value := [] ++ [] ++ [c0], whitespace := [],
                          escapedspace := [], inValue := true } (u ++ c1 :: rest) = _
      rw [e1, parseChars_cons _ c1 _ h1.2.2.2 h1.2.1,
        plain_value_char key value1 w1 c1 h1 (fun h => absurd h e3), e2]
      simp

/-- The loop of `parseLine` over an entry: white space, a key, white space, `=`, white space, a
value, white space and a comment or the end of the line. -/
theorem parseChars_entry (ws1 k ws2 ws3 v ws4 comment : List Char)
    (hkc : ∀ c ∈ k, isPlain c) (hk : k ≠ [])
    (hv : v ≠ []) (hvc : ∀ c ∈ v, isPlain c ∨ isBlank c)
    (hfirst : ∀ c, v.head? = some c → isPlain c) (hlast : ∀ c, v.getLast? = some c → isPlain c)
    (h1 : ∀ c ∈ ws1, isBlank c) (h2 : ∀ c ∈ ws2, isBlank c) (h3 : ∀ c ∈ ws3, isBlank c)
    (h4 : ∀ c ∈ ws4, isBlank c) (hcomment : comment = [] ∨ ∃ text, comment = '#' :: text) :
    parseChars { key := [], value := [], whitespace := [], escapedspace := [], inValue := false }
        (ws1 ++ k ++ ws2 ++ ['='] ++ ws3 ++ v ++ ws4 ++ comment)
      = { key := k, value := v, whitespace := ws4, escapedspace := [], inValue := true } := by
  have e : ws1 ++ k ++ ws2 ++ ['='] ++ ws3 ++ v ++ ws4 ++ comment
      = ws1 ++ (k ++ (ws2 ++ ('=' :: (ws3 ++ (v ++ (ws4 ++ comment)))))) := by simp
  rw [e, parseChars_blanks_before_key _ ws1 _ rfl rfl h1, parseChars_key [] [] [] k _ hkc,
    List.nil_append, parseChars_blanks_after_key k [] [] [] ws2 _ hk h2, parseChars_equals,
    parseChars_blanks_before_value _ ws3 _ rfl rfl h3,
    parseChars_whole_value k v _ hv hvc hfirst hlast,
    parseChars_blanks_after_value k v [] ws4 _ hv h4, parseChars_comment _ _ hcomment]
  rfl

/-- The loop of `parseLine` over a key that no `=` follows. -/
theorem parseChars_key_only (ws1 k ws2 comment : List Char)
    (hkc : ∀ c ∈ k, isPlain c) (hk : k ≠ [])
    (h1 : ∀ c ∈ ws1, isBlank c) (h2 : ∀ c ∈ ws2, isBlank c)
    (hcomment : comment = [] ∨ ∃ text, comment = '#' :: text) :
    parseChars { key := [], value := [], whitespace := [], escapedspace := [], inValue := false }
        (ws1 ++ k ++ ws2 ++ comment)
      = { key := k, value := [], whitespace := ws2, escapedspace := [], inValue := false } := by
  have e : ws1 ++ k ++ ws2 ++ comment = ws1 ++ (k ++ (ws2 ++ comment)) := by simp
  rw [e, parseChars_blanks_before_key _ ws1 _ rfl rfl h1, parseChars_key [] [] [] k _ hkc,
    List.nil_append, parseChars_blanks_after_key k [] [] [] ws2 _ hk h2,
    parseChars_comment _ _ hcomment]
  rfl

/-- The loop of `parseLine` over a line that has `=` before any character of a key. -/
theorem parseChars_no_key (ws1 rest : List Char) (h1 : ∀ c ∈ ws1, isBlank c) :
    (parseChars { key := [], value := [], whitespace := [], escapedspace := [],
                  inValue := false } (ws1 ++ '=' :: rest)).inValue = true ∧
    (parseChars { key := [], value := [], whitespace := [], escapedspace := [],
                  inValue := false } (ws1 ++ '=' :: rest)).key = [] := by
  rw [parseChars_blanks_before_key _ ws1 _ rfl rfl h1, parseChars_equals]
  exact parseChars_value_keeps_key rest.length rest _ le_rfl rfl

/-- A string of some characters is not the empty string. -/
theorem mk_ne_empty (cs : List Char) (h : cs ≠ []) : String.mk cs ≠ "" := by
  intro e
  exact h (congrArg String.data e)

/-- What `setProperty` does with a key that `trim` and the check leave as they are. -/
theorem setProperty_of_checked (tools : PropertyTools) (p : PropertiesI) (key value : String)
    (w : List Warning) (htrim : tools.trim key = key) (hne : key ≠ "") (hv : value ≠ "")
    (hlegal : PropertiesI.checkKey tools key = .ok (key, w)) :
    PropertiesI.setProperty tools p key value
      = .ok ({ _properties := mapSet key value p._properties }, w) := by
  unfold PropertiesI.setProperty
  simp only [htrim, isEmpty_eq_false_of_ne key hne, isEmpty_eq_false_of_ne value hv, hlegal,
    Bool.false_eq_true, if_false, Bool.not_false, if_true]

/-- The check of `setProperty` leaves a key without a `.` as it is, without a warning. -/
theorem checkKey_of_no_dot (tools : PropertyTools) (key : String) (h : '.' ∉ key.toList) :
    PropertiesI.checkKey tools key = .ok (key, []) := by
  simp only [PropertiesI.checkKey, beforeDot, h, if_false]

/-- C29: let `k` be a non-empty key of characters other than white space, `#`, `=` and the
backslash, `v` a non-empty value of such characters and white space that starts and ends with
such a character, `ws1` .. `ws4` white space and `comment` nothing or `#` and any text; let
`trim` and the string converter leave `k` and `v` as they are and the check of `setProperty`
leave the key `k`, with the warnings `w`. Then `parseLine` on `ws1 k ws2 = ws3 v ws4 comment`
returns with the warnings `w` and property `k` is then exactly `v`, the white space inside `v`
included, every other key being found as before; on `ws1 k ws2 comment` (a key, no `=`) and on
`ws1 =` followed by anything (an empty key) it sets nothing and warns of an invalid entry; and on
`ws1 comment` (a blank or comment-only line) it sets nothing. -/
theorem C29_parse_line (tools : PropertyTools) (p : PropertiesI)
    (ws1 k ws2 ws3 v ws4 comment : List Char) (w : List Warning)
    (hkc : ∀ c ∈ k, isPlain c) (hk : k ≠ [])
    (hv : v ≠ []) (hvc : ∀ c ∈ v, isPlain c ∨ isBlank c)
    (hfirst : ∀ c, v.head? = some c → isPlain c) (hlast : ∀ c, v.getLast? = some c → isPlain c)
    (h1 : ∀ c ∈ ws1, isBlank c) (h2 : ∀ c ∈ ws2, isBlank c) (h3 : ∀ c ∈ ws3, isBlank c)
    (h4 : ∀ c ∈ ws4, isBlank c) (hcomment : comment = [] ∨ ∃ text, comment = '#' :: text)
    (htrim : tools.trim (String.mk k) = String.mk k)
    (hconvK : tools.UTF8ToNative (String.mk k) = String.mk k)
    (hconvV : tools.UTF8ToNative (String.mk v) = String.mk v)
    (hlegal : PropertiesI.checkKey tools (String.mk k) = .ok (String.mk k, w)) :
    (∃ p1,
      PropertiesI.parseLine tools p
          (String.mk (ws1 ++ k ++ ws2 ++ ['='] ++ ws3 ++ v ++ ws4 ++ comment)) = .ok (p1, w) ∧
      p1.find (String.mk k) = some (String.mk v) ∧
      p1.getProperty (String.mk k) = String.mk v ∧
      ∀ other, other ≠ String.mk k → p1.find other = p.find other) ∧
    PropertiesI.parseLine tools p (String.mk (ws1 ++ k ++ ws2 ++ comment))
      = .ok (p, [Warning.processLogger ("invalid config file entry: \""
          ++ String.mk (ws1 ++ k ++ ws2 ++ comment) ++ "\"")]) ∧
    (∀ rest, PropertiesI.parseLine tools p (String.mk (ws1 ++ '=' :: rest))
      = .ok (p, [Warning.processLogger ("invalid config file entry: \""
          ++ String.mk (ws1 ++ '=' :: rest) ++ "\"")])) ∧
    PropertiesI.parseLine tools p (String.mk (ws1 ++ comment)) = .ok (p, []) := by
  have hk0 : k.length ≠ 0 := fun h => hk (List.length_eq_zero.1 h)
  refine ⟨⟨{ _properties := mapSet (String.mk k) (String.mk v) p._properties }, ?_, ?_, ?_, ?_⟩,
    ?_, ?_, ?_⟩
  · unfold PropertiesI.parseLine
    simp only [String.toList,
      parseChars_entry ws1 k ws2 ws3 v ws4 comment hkc hk hv hvc hfirst hlast h1 h2 h3 h4
        hcomment,
      hk0, List.append_nil, hconvK, hconvV, Bool.not_true, Bool.false_and, Bool.true_and,
      decide_False, decide_True, Bool.or_self, Bool.false_eq_true, if_false, ne_eq,
      not_false_eq_true]
    exact setProperty_of_checked tools p _ _ w htrim (mk_ne_empty k hk) (mk_ne_empty v hv) hlegal
  · exact lookup_mapSet_self _ _ _
  · unfold PropertiesI.getProperty PropertiesI.find
    simp only [lookup_mapSet_self]
  · intro other ho
    exact lookup_mapSet_other _ _ other p._properties ho
  · unfold PropertiesI.parseLine
    simp only [String.toList, parseChars_key_only ws1 k ws2 comment hkc hk h1 h2 hcomment, hk0,
      Bool.not_false, Bool.true_and, ne_eq, not_false_eq_true, decide_True, Bool.true_or,
      if_true]
  · intro rest
    have := parseChars_no_key ws1 rest h1
    unfold PropertiesI.parseLine
    simp only [String.toList, this.1, this.2, List.length_nil, Bool.not_true, Bool.false_and,
      Bool.true_and, decide_True, Bool.false_or, if_true]
  · have e : parseChars
        { key := [], value := [], whitespace := [], escapedspace := [], inValue := false }
        (ws1 ++ comment)
        = { key := [], value := [], whitespace := [], escapedspace := [], inValue := false } := by
      rw [parseChars_blanks_before_key _ ws1 _ rfl rfl h1, parseChars_comment _ _ hcomment]
    unfold PropertiesI.parseLine
    simp only [String.toList, e, List.length_nil, Bool.not_false, Bool.true_and, ne_eq,
      not_true_eq_false, decide_False, Bool.false_and, Bool.or_self, Bool.false_eq_true,
      if_false, if_true]

/-- C29 at the line `  Ice.New =<tab>a b # note`, with the property `A = 0` set before. -/
theorem C29_parse_line_witness :
    (∃ p1,
      PropertiesI.parseLine PropertyTools.simple { _properties := [("A", "0")] }
          (String.mk ([' ', ' '] ++ ['I', 'c', 'e', '.', 'N', 'e', 'w'] ++ [' '] ++ ['='] ++ ['\t']
            ++ ['a', ' ', 'b'] ++ [' '] ++ ['#', ' ', 'n', 'o', 't', 'e'])) = .ok (p1, []) ∧
      p1.find (String.mk ['I', 'c', 'e', '.', 'N', 'e', 'w']) = some (String.mk ['a', ' ', 'b']) ∧
      p1.getProperty (String.mk ['I', 'c', 'e', '.', 'N', 'e', 'w']) = String.mk ['a', ' ', 'b'] ∧
      ∀ other, other ≠ String.mk ['I', 'c', 'e', '.', 'N', 'e', 'w'] →
        p1.find other = PropertiesI.find { _properties := [("A", "0")] } other) ∧
    PropertiesI.parseLine PropertyTools.simple { _properties := [("A", "0")] }
        (String.mk ([' ', ' '] ++ ['I', 'c', 'e', '.', 'N', 'e', 'w'] ++ [' ']
          ++ ['#', ' ', 'n', 'o', 't', 'e']))
      = .ok ({ _properties := [("A", "0")] },
          [Warning.processLogger ("invalid config file entry: \""
            ++ String.mk ([' ', ' '] ++ ['I', 'c', 'e', '.', 'N', 'e', 'w'] ++ [' ']
              ++ ['#', ' ', 'n', 'o', 't', 'e']) ++ "\"")]) ∧
    (∀ rest, PropertiesI.parseLine PropertyTools.simple { _properties := [("A", "0")] }
        (String.mk ([' ', ' '] ++ '=' :: rest))
      = .ok ({ _properties := [("A", "0")] },
          [Warning.processLogger ("invalid config file entry: \""
            ++ String.mk ([' ', ' '] ++ '=' :: rest) ++ "\"")])) ∧
    PropertiesI.parseLine PropertyTools.simple { _properties := [("A", "0")] }
        (String.mk ([' ', ' '] ++ ['#', ' ', 'n', 'o', 't', 'e']))
      = .ok ({ _properties := [("A", "0")] }, []) :=
  C29_parse_line PropertyTools.simple { _properties := [("A", "0")] }
    [' ', ' '] ['I', 'c', 'e', '.', 'N', 'e', 'w'] [' '] ['\t'] ['a', ' ', 'b'] [' ']
    ['#', ' ', 'n', 'o', 't', 'e'] []
    (by decide) (by decide) (by decide) (by decide) (by decide) (by decide)
    (by decide) (by decide) (by decide) (by decide) (Or.inr ⟨_, rfl⟩)
    (by decide) rfl rfl rfl

/-- A key that the table gives as deprecated with a replacement is set under the replacement:
the check of `setProperty` does not leave every key as it is. -/
theorem parseLine_deprecated_key :
    PropertiesI.parseLine PropertyTools.simple { _properties := [] } "Ice.Old=5"
      = .ok ({ _properties := [("Ice.New", "5")] },
          [Warning.processLogger "deprecated property: Ice.Old"]) := by
  rfl

/-! ## Lemmas on the trust manager -/

/-- `match` says whether the subject matches one of the names. -/
theorem match_eq_any {DN : Type} (calls : DistinguishedNameCalls DN) (l : List DN) (subject : DN) :
    TrustManager.match_ calls l subject = l.any (calls.subjectMatch subject) := by
  induction l with
  | nil => rfl
  | cons r rest ih =>
    unfold TrustManager.match_
    rw [List.any_cons, ih]
    cases calls.subjectMatch subject r <;> simp

/-- The loop over the lists says whether the subject matches a name of one of the lists. -/
theorem matchLists_fst {DN : Type} (calls : DistinguishedNameCalls DN) (traceLevel : Int)
    (heading : String) (subject : DN) (ls : List (List DN)) :
    (TrustManager.matchLists calls traceLevel heading subject ls).1
      = ls.any (fun l => l.any (calls.subjectMatch subject)) := by
  induction ls with
  | nil => rfl
  | cons p rest ih =>
    unfold TrustManager.matchLists
    rw [List.any_cons, match_eq_any]
    cases h : p.any (calls.subjectMatch subject)
    · simpa using ih
    · simp

/-- A value found in a map is the value of one of its entries. -/
theorem lookup_mem {β : Type} (m : List (String × β)) (key : String) (b : β)
    (h : m.lookup key = some b) : ∃ e ∈ m, e.2 = b := by
  induction m with
  | nil => simp at h
  | cons x xs ih =>
    obtain ⟨a, c⟩ := x
    rw [List.lookup_cons] at h
    cases hk : (key == a)
    · rw [hk] at h
      obtain ⟨e, he, h1⟩ := ih h
      exact ⟨e, List.mem_cons_of_mem _ he, h1⟩
    · rw [hk] at h
      exact ⟨(a, c), List.mem_cons_self _ _, by simpa using h⟩

/-- The length of a string is zero exactly for the empty string. -/
theorem string_length_pos_iff (s : String) : s.length > 0 ↔ s ≠ "" := by
  constructor
  · intro h e
    rw [e] at h
    exact absurd h (by decide)
  · intro h
    by_contra h0
    apply h
    have : s.data = [] := List.length_eq_zero.1 (by
      have : s.length = s.data.length := rfl
      omega)
    exact String.ext this

/-- The names of the lists that `verify` builds are the applicable rules. -/
theorem any_ruleLists {DN : Type} (all client allServer : List DN)
    (server : List (String × List DN)) (info : ConnectionInfo DN) (f : DN → Bool) :
    (TrustManager.ruleLists all client allServer server info).any (fun l => l.any f)
      = (TrustManager.applicable all client allServer server info).any f := by
  unfold TrustManager.ruleLists TrustManager.applicable
  have hall : (if all.length > 0 then [all] else []).any (fun l => l.any f) = all.any f := by
    cases all <;> simp
  have hsrv : (if allServer.length > 0 then [allServer] else []).any (fun l => l.any f)
      = allServer.any f := by
    cases allServer <;> simp
  have hcl : (if client.length > 0 then [client] else []).any (fun l => l.any f)
      = client.any f := by
    cases client <;> simp
  rw [List.any_append, List.any_append, hall]
  congr 1
  by_cases hi : info.incoming = true
  · rw [if_pos hi, if_pos hi, List.any_append, List.any_append, hsrv]
    congr 1
    by_cases hn : info.adapterName = ""
    · have : ¬ info.adapterName.length > 0 := by
        rw [string_length_pos_iff]
        exact not_not.2 hn
      rw [if_neg this, if_pos hn]
      rfl
    · have : info.adapterName.length > 0 := (string_length_pos_iff _).2 hn
      rw [if_pos this, if_neg hn]
      cases server.lookup info.adapterName <;> simp
  · rw [if_neg hi, if_neg hi, hcl]

/-- The list that `verify` builds is empty exactly when no rule applies, the maps holding no
empty list. -/
theorem isEmpty_ruleLists {DN : Type} (all client allServer : List DN)
    (server : List (String × List DN)) (info : ConnectionInfo DN)
    (hw : ∀ e ∈ server, e.2 ≠ []) :
    (TrustManager.ruleLists all client allServer server info).isEmpty
      = (TrustManager.applicable all client allServer server info).isEmpty := by
  unfold TrustManager.ruleLists TrustManager.applicable
  have hall : (if all.length > 0 then [all] else []).isEmpty = all.isEmpty := by
    cases all <;> simp
  have hsrv : (if allServer.length > 0 then [allServer] else []).isEmpty
      = allServer.isEmpty := by
    cases allServer <;> simp
  have hcl : (if client.length > 0 then [client] else []).isEmpty = client.isEmpty := by
    cases client <;> simp
  have happ : ∀ {α : Type} (a b : List α), (a ++ b).isEmpty = (a.isEmpty && b.isEmpty) := by
    intro α a b
    cases a <;> simp
  rw [happ, happ, hall]
  congr 1
  by_cases hi : info.incoming = true
  · rw [if_pos hi, if_pos hi, happ, happ, hsrv]
    congr 1
    by_cases hn : info.adapterName = ""
    · have : ¬ info.adapterName.length > 0 := by
        rw [string_length_pos_iff]
        exact not_not.2 hn
      rw [if_neg this, if_pos hn]
      rfl
    · have : info.adapterName.length > 0 := (string_length_pos_iff _).2 hn
      rw [if_pos this, if_neg hn]
      cases hl : server.lookup info.adapterName with
      | none => rfl
      | some l =>
        obtain ⟨e, he, h1⟩ := lookup_mem server _ l hl
        have hne : l ≠ [] := h1 ▸ hw e he
        cases l with
        | nil => exact absurd rfl hne
        | cons a t => rfl
  · rw [if_neg hi, if_neg hi, hcl]

/-- C28: for a trust manager whose maps hold no empty list, `verify` accepts the peer when no
reject rule and no accept rule applies, also without a certificate; when a rule applies and
there is no certificate it rejects; and when a rule applies and there is a certificate it accepts
exactly when the subject of the first certificate matches no applicable reject rule and either
no accept rule applies or the subject matches one. The applicable rules are the global ones and,
for an incoming connection, those of the servers and those under the name of the adapter of the
connection, if it has one, and for an outgoing connection those of the clients. -/
theorem C28_verify_decision_rule {DN : Type} (calls : DistinguishedNameCalls DN)
    (tm : TrustManager DN) (info : ConnectionInfo DN) (desc : String)
    (hw : TrustManager.WellFormed tm) :
    (tm.applicableReject info = [] → tm.applicableAccept info = [] →
      (TrustManager.verify calls tm info desc).1 = true) ∧
    (¬ (tm.applicableReject info = [] ∧ tm.applicableAccept info = []) → info.certs = [] →
      (TrustManager.verify calls tm info desc).1 = false) ∧
    (∀ subject others, info.certs = subject :: others →
      ¬ (tm.applicableReject info = [] ∧ tm.applicableAccept info = []) →
      ((TrustManager.verify calls tm info desc).1 = true ↔
        (∀ r ∈ tm.applicableReject info, calls.subjectMatch subject r = false) ∧
        (tm.applicableAccept info = [] ∨
          ∃ a ∈ tm.applicableAccept info, calls.subjectMatch subject a = true))) := by
  have hr := isEmpty_ruleLists tm._rejectAll tm._rejectClient tm._rejectAllServer
    tm._rejectServer info hw.1
  have ha := isEmpty_ruleLists tm._acceptAll tm._acceptClient tm._acceptAllServer
    tm._acceptServer info hw.2
  have hempty : ∀ l : List DN, l.isEmpty = true ↔ l = [] := fun l => by cases l <;> simp
  refine ⟨?_, ?_, ?_⟩
  · intro h1 h2
    unfold TrustManager.verify
    unfold TrustManager.applicableReject at h1
    unfold TrustManager.applicableAccept at h2
    simp only [hr, ha, h1, h2, List.isEmpty_nil, Bool.and_self, if_true]
  · intro h1 h2
    have hc : ((TrustManager.applicable tm._rejectAll tm._rejectClient tm._rejectAllServer
          tm._rejectServer info).isEmpty
        && (TrustManager.applicable tm._acceptAll tm._acceptClient tm._acceptAllServer
          tm._acceptServer info).isEmpty) = false := by
      rw [Bool.eq_false_iff]
      intro h
      rw [Bool.and_eq_true, hempty, hempty] at h
      exact h1 h
    unfold TrustManager.verify
    simp only [hr, ha, hc, h2, Bool.false_eq_true, if_false]
  · intro subject others h2 h1
    have hc : ((TrustManager.applicable tm._rejectAll tm._rejectClient tm._rejectAllServer
          tm._rejectServer info).isEmpty
        && (TrustManager.applicable tm._acceptAll tm._acceptClient tm._acceptAllServer
          tm._acceptServer info).isEmpty) = false := by
      rw [Bool.eq_false_iff]
      intro h
      rw [Bool.and_eq_true, hempty, hempty] at h
      exact h1 h
    unfold TrustManager.verify
    simp only [hr, ha, hc, h2, Bool.false_eq_true, if_false, matchLists_fst, any_ruleLists]
    unfold TrustManager.applicableReject TrustManager.applicableAccept
    generalize TrustManager.applicable tm._rejectAll tm._rejectClient tm._rejectAllServer
      tm._rejectServer info = R
    generalize TrustManager.applicable tm._acceptAll tm._acceptClient tm._acceptAllServer
      tm._acceptServer info = A
    cases hR : R.any (calls.subjectMatch subject)
    · have hR1 : ∀ r ∈ R, calls.subjectMatch subject r = false := by
        intro r hr1
        by_contra hne
        have : R.any (calls.subjectMatch subject) = true :=
          List.any_eq_true.2 ⟨r, hr1, by simpa using hne⟩
        rw [hR] at this
        exact absurd this (by decide)
      cases hA : A.any (calls.subjectMatch subject)
      · simp only [Bool.false_eq_true, if_false, hempty]
        constructor
        · intro h
          exact ⟨hR1, Or.inl h⟩
        · rintro ⟨_, h | ⟨a, ha1, ha2⟩⟩
          · exact h
          · have : A.any (calls.subjectMatch subject) = true := List.any_eq_true.2 ⟨a, ha1, ha2⟩
            rw [hA] at this
            exact absurd this (by decide)
      · simp only [Bool.false_eq_true, if_false, if_true, true_iff]
        obtain ⟨a, ha1, ha2⟩ := List.any_eq_true.1 hA
        exact ⟨hR1, Or.inr ⟨a, ha1, ha2⟩⟩
    · simp only [if_true, Bool.false_eq_true, false_iff]
      rintro ⟨h, _⟩
      obtain ⟨r, hr1, hr2⟩ := List.any_eq_true.1 hR
      rw [h r hr1] at hr2
      exact absurd hr2 (by decide)

/-- C28 at a trust manager that rejects `CN=bad` everywhere and accepts `CN=good` at the adapter
`Adapter`, for an incoming connection at that adapter with the certificate of `CN=good`: the
manager is well formed, a rule applies, and the peer is accepted. -/
theorem C28_verify_decision_rule_witness :
    (TrustManager.verify { subjectMatch := fun s r => s == r, toString := fun s => s }
        { _traceLevel := 2, _rejectAll := ["CN=bad"], _rejectClient := [], _rejectAllServer := [],
          _acceptAll := [], _acceptClient := [], _acceptAllServer := [], _rejectServer := [],
          _acceptServer := [("Adapter", ["CN=good"])] : TrustManager String }
        { incoming := true, adapterName := "Adapter", certs := ["CN=good"] } "peer").1 = true :=
  ((C28_verify_decision_rule { subjectMatch := fun s r => s == r, toString := fun s => s }
      { _traceLevel := 2, _rejectAll := ["CN=bad"], _rejectClient := [], _rejectAllServer := [],
        _acceptAll := [], _acceptClient := [], _acceptAllServer := [], _rejectServer := [],
        _acceptServer := [("Adapter", ["CN=good"])] : TrustManager String }
      { incoming := true, adapterName := "Adapter", certs := ["CN=good"] } "peer"
      ⟨by decide, by decide⟩).2.2 "CN=good" [] rfl (by decide)).2
    ⟨by decide, Or.inr ⟨"CN=good", by decide, by decide⟩⟩

/-! ## Lemmas on the implicit contexts -/

/-- No operation on routable references can set the adapter id to every value, keep the
endpoints of every reference, and return references that have endpoints or an adapter id and not
both: on a reference with endpoints and a new adapter id that is not empty the endpoints of the
result differ. -/
theorem adapterId_frame_excludes_invariant
    (f : RoutableReference → String → RoutableReference)
    (hget : ∀ r s, (f r s).observe.adapterId = s)
    (hinv : ∀ r s, RoutableReference.EndpointsOrAdapterId (f r s))
    (r : RoutableReference) (s : String) (h1 : r._endpoints ≠ []) (h2 : s ≠ "") :
    (f r s).observe.endpoints ≠ r.observe.endpoints := by
  intro he
  apply hinv r s
  refine ⟨?_, ?_⟩
  · have : (f r s)._endpoints = r._endpoints := he
    rw [this]
    exact h1
  · have : (f r s)._adapterId = s := hget r s
    rw [this]
    exact h2

end IceInternal
